import Mathlib

/-!
# MatrixController: a shallow embedding of `src/MatrixController.{h,cpp}`

The C++ library maps a two-dimensional LED matrix onto a one-dimensional
strip and renders colors, images and timed blends onto it.

Conventions of the embedding.

* `uint8_t` values are natural numbers kept below `256`; every store into a
  `uint8_t` is written `% 256`, every load of a byte from a table is written
  `% 256`.  `unsigned long` is 32 bits wide (`% 2 ^ 32`) on every platform the
  library names.
* The compile-time switch `__AVR__` is the field `avr` of the controller.  The
  header names the AVR platforms as Arduino Nano/Uno and the others as
  ESP32/ESP8266; `int` is 16 bits wide on the former and 32 bits wide on the
  latter (`intBits`).  The `int` computation of the source that leaves the
  16-bit range on bytes is the interpolation product of `blendUnified`
  (`difference * t`, up to 255 * 255); it is wrapped with `wrapInt`, the
  two's complement result of the 16-bit multiplication.  The brightness
  products `(uint16_t)v * maxBrightness` stay below 2 ^ 16.  The table index
  `y * cols + x` is computed exactly: a table that fits the memory of an AVR
  has fewer than 2 ^ 15 cells.
* Pointers to tables (`const uint8_t*`, `const bool*`) are functions from the
  element index to the value stored there.
* Counted `for` loops are `forLoop`, a left fold over `0, 1, ..., n - 1`.
* Row and column counts, which the source passes as non-negative `int`s, are
  natural numbers.
* The image arrays of the blender are lists.  The render reads
  `currentImage[index]` without a bounds check; a read outside the array
  returns the byte the field `outside` of the blender gives for that index, a
  value the program does not determine.
-/

namespace FoxLabs

/-! ## Machine integers -/

/-- Reinterpretation of an integer as a signed two's complement value of
`w` bits. -/
def wrapInt (w : Nat) (v : Int) : Int :=
  (v + 2 ^ (w - 1)) % 2 ^ w - 2 ^ (w - 1)

/-- Width of `int`: 16 bits on AVR, 32 bits on the other platforms. -/
def intBits (avr : Bool) : Nat := if avr then 16 else 32

/-- Conversion of an `int` to `uint8_t`. -/
def toUInt8 (v : Int) : Nat := (v % 256).toNat

/-- Counted loop `for (int i = 0; i < n; i++) s = body i s`. -/
def forLoop {σ : Type} (n : Nat) (body : Nat → σ → σ) (s : σ) : σ :=
  (List.range n).foldl (fun s i => body i s) s

/-! ## The strip driver -/

/-- Three 8-bit channels, the value `strip.Color(r, g, b)` carries. -/
structure RGB where
  r : Nat
  g : Nat
  b : Nat
deriving DecidableEq, Repr

/-- Modelled from the spec: one call into the strip driver (section 6 lists
the capabilities `setPin`, `begin`, `setLength`, `setPixelColor`, `show`,
`clear`); the driver is the external Adafruit_NeoPixel class. -/
inductive StripCall where
  | setPin (pin : Int)
  | begin
  | updateLength (n : Nat)
  | setPixelColor (n : Nat) (c : RGB)
  | clear
  | showCall
deriving DecidableEq, Repr

/-- Modelled from the spec: the strip driver, an external collaborator.  It
holds the pixel buffer (one color per physical element) and, for the sake of
stating which elements an operation writes and whether it flushes, the
sequence of calls it has received. -/
structure Strip where
  pixels : List RGB
  calls : List StripCall
deriving DecidableEq, Repr

namespace Strip

/-- Modelled from the spec: `strip(0, 0, ...)`, a driver with no element. -/
def new : Strip := { pixels := [], calls := [] }

/-- Modelled from the spec: `setPin(pin)`. -/
def setPin (s : Strip) (pin : Int) : Strip :=
  { s with calls := s.calls ++ [StripCall.setPin pin] }

/-- Modelled from the spec: `begin()`. -/
def begin (s : Strip) : Strip :=
  { s with calls := s.calls ++ [StripCall.begin] }

/-- Modelled from the spec: `updateLength(n)` gives the buffer `n` elements,
all unlit (`n` is a `uint16_t`). -/
def updateLength (s : Strip) (n : Nat) : Strip :=
  { pixels := List.replicate (n % 65536) ⟨0, 0, 0⟩,
    calls := s.calls ++ [StripCall.updateLength (n % 65536)] }

/-- Modelled from the spec: `setPixelColor(n, color)`, "set element color by
index"; the driver ignores an index outside its buffer. -/
def setPixelColor (s : Strip) (n : Nat) (c : RGB) : Strip :=
  { pixels := if n < s.pixels.length then s.pixels.set n c else s.pixels,
    calls := s.calls ++ [StripCall.setPixelColor n c] }

/-- Modelled from the spec: `clear()`, every element of the buffer unlit. -/
def clear (s : Strip) : Strip :=
  { pixels := List.replicate s.pixels.length ⟨0, 0, 0⟩,
    calls := s.calls ++ [StripCall.clear] }

/-- Modelled from the spec: `show()`, "push buffer to hardware"; the buffer
is not changed. -/
def showPixels (s : Strip) : Strip :=
  { s with calls := s.calls ++ [StripCall.showCall] }

/-- Number of flushes the driver has received. -/
def flushes (s : Strip) : Nat := s.calls.count StripCall.showCall

end Strip

/-! ## MatrixController -/

/-- The struct `LedMapping { uint8_t x, y; uint16_t ledId; }`. -/
structure LedMapping where
  x : Nat
  y : Nat
  ledId : Nat
deriving DecidableEq, Repr, Inhabited

/-- The enumeration `MatrixType`. -/
inductive MatrixType where
  | ROUND
  | HEXAGONAL
  | TRIANGULAR
  | CUSTOM
deriving DecidableEq, Repr

/-- The class `MatrixController`.  `avr` is the compile-time switch
`__AVR__`; the fields `matrixData`, `matrixRows`, `matrixCols` exist when it
is set, `ledMappings`, `numActiveLeds` when it is not. -/
structure MatrixController where
  avr : Bool
  strip : Strip
  currentColor : RGB
  maxBrightness : Nat
  actualWidth : Int
  actualHeight : Int
  matrixData : Nat → Nat
  matrixRows : Nat
  matrixCols : Nat
  ledMappings : List LedMapping
  numActiveLeds : Nat

namespace MatrixController

/-- The constructor `MatrixController::MatrixController()`. -/
def new (avr : Bool) : MatrixController :=
  { avr := avr
    strip := Strip.new
    currentColor := ⟨0, 0, 255⟩
    maxBrightness := 255
    actualWidth := 0
    actualHeight := 0
    matrixData := fun _ => 0
    matrixRows := 0
    matrixCols := 0
    ledMappings := []
    numActiveLeds := 0 }

/-- The brightness scaling `(uint16_t)v * maxBrightness / 255` stored in a
`uint8_t`. -/
def scale (v maxBrightness : Nat) : Nat := (v * maxBrightness / 255) % 256

/-- First pass of `convertToSparse`: count the active cells in the
`uint8_t numActiveLeds`. -/
def countActive (sourceMatrix : Nat → Nat) (sourceRows sourceCols : Nat) : Nat :=
  forLoop sourceRows (fun y n =>
    forLoop sourceCols (fun x n =>
      let ledId := sourceMatrix (y * sourceCols + x) % 256
      if ledId != 255 then (n + 1) % 256 else n) n) 0

/-- Second pass of `convertToSparse`: fill the allocated array; the state is
the array and `index`.  A write past the end of the array, which can happen
only after the `uint8_t` count of the first pass has wrapped, is dropped. -/
def fillMappings (sourceMatrix : Nat → Nat) (sourceRows sourceCols : Nat)
    (ledMappings : List LedMapping) : List LedMapping × Nat :=
  forLoop sourceRows (fun y st =>
    forLoop sourceCols (fun x st =>
      let ledId := sourceMatrix (y * sourceCols + x) % 256
      if ledId != 255 then
        (st.1.set st.2 { x := x % 256, y := y % 256, ledId := ledId }, st.2 + 1)
      else st) st) (ledMappings, 0)

/-- The method `convertToSparse`. -/
def convertToSparse (c : MatrixController) (sourceMatrix : Nat → Nat)
    (sourceRows sourceCols : Nat) : MatrixController :=
  if c.avr then c
  else
    let numActiveLeds := countActive sourceMatrix sourceRows sourceCols
    let ledMappings := List.replicate numActiveLeds (default : LedMapping)
    { c with
      numActiveLeds := numActiveLeds
      ledMappings := (fillMappings sourceMatrix sourceRows sourceCols ledMappings).1 }

/-- The entries the non-AVR loops visit: `ledMappings[i]` for
`i < numActiveLeds`. -/
def entries (c : MatrixController) : List LedMapping :=
  c.ledMappings.take c.numActiveLeds

/-- The loop of `computeMatrixDimensions`: `(minX, maxX, minY, maxY)` over
the entries, starting from `(255, 0, 255, 0)`. -/
def scanBounds (l : List LedMapping) : Int × Int × Int × Int :=
  l.foldl (fun (st : Int × Int × Int × Int) m =>
    (min st.1 (m.x : Int), max st.2.1 (m.x : Int),
     min st.2.2.1 (m.y : Int), max st.2.2.2 (m.y : Int))) (255, 0, 255, 0)

/-- The method `computeMatrixDimensions`. -/
def computeMatrixDimensions (c : MatrixController) : MatrixController :=
  if c.avr then c
  else
    let r := scanBounds c.entries
    { c with
      actualWidth := r.2.1 - r.1 + 1
      actualHeight := r.2.2.2 - r.2.2.1 + 1 }

/-- The method `initStrip`. -/
def initStrip (c : MatrixController) (pin : Int) : MatrixController :=
  let strip := (c.strip.setPin pin).begin
  if c.avr then { c with strip := strip.showPixels }
  else
    let ledCount := c.entries.foldl (fun ledCount m => max ledCount (m.ledId + 1)) 0
    { c with strip := (strip.updateLength ledCount).showPixels }

/-- The part of `init(MatrixType, int)` after the `switch`, for the table
`sourceMatrix` of `sourceWidth` columns and `sourceHeight` rows the `switch`
selected. -/
def initFrom (c : MatrixController) (sourceMatrix : Nat → Nat)
    (sourceWidth sourceHeight : Nat) (pin : Int) : MatrixController :=
  if c.avr then
    let ledCount := forLoop sourceHeight (fun y ledCount =>
      forLoop sourceWidth (fun x ledCount =>
        let ledId := sourceMatrix (y * sourceWidth + x) % 256
        if ledId != 255 then max ledCount (ledId + 1) else ledCount) ledCount) 0
    { c with
      matrixData := sourceMatrix
      matrixRows := sourceHeight % 256
      matrixCols := sourceWidth % 256
      actualWidth := sourceWidth
      actualHeight := sourceHeight
      strip := ((((c.strip.setPin pin).begin).updateLength ledCount).showPixels) }
  else
    ((c.convertToSparse sourceMatrix sourceHeight sourceWidth).computeMatrixDimensions).initStrip pin

/-- Modelled from the spec: the three built-in layouts of `matrix_mappings.h`
(not among the sources), "treated as opaque lookup tables supplied at
initialization". -/
structure Mappings where
  ROUND_MATRIX : Nat → Nat
  HEXAGONAL_MATRIX : Nat → Nat
  TRIANGULAR_MATRIX : Nat → Nat

/-- The method `init(MatrixType type, int pin)`. -/
def init (tables : Mappings) (c : MatrixController) (type : MatrixType) (pin : Int) :
    MatrixController :=
  match type with
  | MatrixType.ROUND => c.initFrom tables.ROUND_MATRIX 12 12 pin
  | MatrixType.HEXAGONAL => c.initFrom tables.HEXAGONAL_MATRIX 14 14 pin
  | MatrixType.TRIANGULAR => c.initFrom tables.TRIANGULAR_MATRIX 16 16 pin
  | MatrixType.CUSTOM => c

/-- The method `init(const uint8_t* customMatrix, int matrixRows,
int matrixCols, int pin)`. -/
def initCustom (c : MatrixController) (customMatrix : Nat → Nat)
    (matrixRows matrixCols : Nat) (pin : Int) : MatrixController :=
  ((c.convertToSparse customMatrix matrixRows matrixCols).computeMatrixDimensions).initStrip pin

/-- The method `getLedId(uint8_t x, uint8_t y)`; the arguments are converted
to `uint8_t` on entry, the result is an `int8_t`.  The non-AVR loop returns at
the first entry that matches. -/
def getLedId (c : MatrixController) (x y : Int) : Int :=
  let x := toUInt8 x
  let y := toUInt8 y
  if c.avr then
    if x ≥ c.matrixCols || y ≥ c.matrixRows then -1
    else
      let ledId := c.matrixData (y * c.matrixCols + x) % 256
      if ledId != 255 then wrapInt 8 (min 127 (ledId : Int)) else -1
  else
    match c.entries.find? (fun m => m.x == x && m.y == y) with
    | some m => wrapInt 8 (min 127 (m.ledId : Int))
    | none => -1

/-- The method `setColor`. -/
def setColor (c : MatrixController) (r g b : Nat) : MatrixController :=
  let r := r % 256
  let g := g % 256
  let b := b % 256
  let finalR := scale r c.maxBrightness
  let finalG := scale g c.maxBrightness
  let finalB := scale b c.maxBrightness
  let strip :=
    if c.avr then
      forLoop c.matrixRows (fun y strip =>
        forLoop c.matrixCols (fun x strip =>
          let ledId := c.matrixData (y * c.matrixCols + x) % 256
          if ledId != 255 then strip.setPixelColor ledId ⟨finalR, finalG, finalB⟩
          else strip) strip) c.strip
    else
      c.entries.foldl (fun strip m =>
        strip.setPixelColor m.ledId ⟨finalR, finalG, finalB⟩) c.strip
  { c with currentColor := ⟨r, g, b⟩, strip := strip.showPixels }

/-- The method `setMaxBrightness`. -/
def setMaxBrightness (c : MatrixController) (brightness : Nat) : MatrixController :=
  { c with maxBrightness := brightness % 256 }

/-- The method `show`. -/
def showStrip (c : MatrixController) : MatrixController :=
  { c with strip := c.strip.showPixels }

/-- The method `clear`. -/
def clear (c : MatrixController) : MatrixController :=
  { c with strip := c.strip.clear }

/-- The test of `displayImage` on one element at logical `(x, y)`: whether
the image lights it. -/
def shouldLight (image : Nat → Bool) (imageRows imageCols offsetX offsetY : Int)
    (x y : Nat) : Bool :=
  let imageX := (x : Int) - offsetX
  let imageY := (y : Int) - offsetY
  if imageX ≥ 0 && imageX < imageCols && imageY ≥ 0 && imageY < imageRows then
    image (imageY * imageCols + imageX).toNat
  else false

/-- The centering offset of `displayImage` and of `blendToImage` along one
axis: `matrixCenter - imageCenter`, where `matrixCenter = matrixSize / 2` and
`imageCenter = imageSize / 2` are `int` divisions (truncating toward zero). -/
def centerOffset (matrixSize imageSize : Int) : Int :=
  let matrixCenter := Int.tdiv matrixSize 2
  let imageCenter := Int.tdiv imageSize 2
  matrixCenter - imageCenter

/-- The method `displayImage`. -/
def displayImage (c : MatrixController) (image : Nat → Bool) (imageRows imageCols : Int) :
    MatrixController :=
  let offsetX := centerOffset c.actualWidth imageCols
  let offsetY := centerOffset c.actualHeight imageRows
  let strip := c.strip.clear
  let finalR := scale c.currentColor.r c.maxBrightness
  let finalG := scale c.currentColor.g c.maxBrightness
  let finalB := scale c.currentColor.b c.maxBrightness
  let strip :=
    if c.avr then
      forLoop c.matrixRows (fun y strip =>
        forLoop c.matrixCols (fun x strip =>
          let ledId := c.matrixData (y * c.matrixCols + x) % 256
          if ledId != 255 then
            if shouldLight image imageRows imageCols offsetX offsetY x y then
              strip.setPixelColor ledId ⟨finalR, finalG, finalB⟩
            else strip
          else strip) strip) strip
    else
      c.entries.foldl (fun strip m =>
        if shouldLight image imageRows imageCols offsetX offsetY m.x m.y then
          strip.setPixelColor m.ledId ⟨finalR, finalG, finalB⟩
        else strip) strip
  { c with strip := strip.showPixels }

/-- The method `setImage(image, imageRows, imageCols)`. -/
def setImage (c : MatrixController) (image : Nat → Bool) (imageRows imageCols : Int) :
    MatrixController :=
  c.displayImage image imageRows imageCols

/-- The method `setImage(image, imageRows, imageCols, r, g, b)`. -/
def setImageColor (c : MatrixController) (image : Nat → Bool) (imageRows imageCols : Int)
    (r g b : Nat) : MatrixController :=
  { c with currentColor := ⟨r % 256, g % 256, b % 256⟩ }.displayImage image imageRows imageCols

/-- The method `getColor`. -/
def getColor (c : MatrixController) : RGB := c.currentColor

/-- The method `setPixelXY`. -/
def setPixelXY (c : MatrixController) (x y : Int) (r g b : Nat) : MatrixController :=
  if x < 0 || y < 0 then c
  else
    let ledId := c.getLedId x y
    if ledId > -1 then
      let finalR := scale (r % 256) c.maxBrightness
      let finalG := scale (g % 256) c.maxBrightness
      let finalB := scale (b % 256) c.maxBrightness
      { c with strip := c.strip.setPixelColor ledId.toNat ⟨finalR, finalG, finalB⟩ }
    else c

end MatrixController


/-! ## MatrixBlender -/

/-- The class `MatrixBlender`.  `matrix` is the controller the blender points
to; the blender renders into its strip. -/
structure MatrixBlender where
  matrix : MatrixController
  currentImage : List Nat
  targetImage : List Nat
  currentColor : RGB
  targetColor : RGB
  blendTime : Nat
  blendStartTime : Nat
  blending : Bool
  blendingImage : Bool
  blendingColor : Bool
  imageSize : Int
  /-- The bytes of the memory next to `currentImage`: `outside i` is what a
  read of `currentImage[i]` finds when `i` is not an index of the array.  The
  source reads without a bounds check, so the program does not determine this
  value. -/
  outside : Int → Nat

namespace MatrixBlender

/-- The constructor `MatrixBlender::MatrixBlender(controller)`.  It leaves
the member `targetColor` uninitialized; its initial content is the parameter
`targetColor`.  The memory next to the array it allocates is the parameter
`outside`.  A negative `imageSize` allocates nothing. -/
def new (controller : MatrixController) (targetColor : RGB) (outside : Int → Nat) :
    MatrixBlender :=
  let imageSize := controller.actualWidth * controller.actualHeight
  { matrix := controller
    currentImage := forLoop imageSize.toNat (fun i img => img.set i 0)
      (List.replicate imageSize.toNat 0)
    targetImage := forLoop imageSize.toNat (fun i img => img.set i 0)
      (List.replicate imageSize.toNat 0)
    currentColor := controller.getColor
    targetColor := targetColor
    blendTime := 0
    blendStartTime := 0
    blending := false
    blendingImage := false
    blendingColor := false
    imageSize := imageSize
    outside := outside }

/-- One component of the interpolation of `blendUnified`:
`current + (difference * t) / 255` with `int16_t difference =
(int16_t)target - (int16_t)current`.  The product and the sum are `int`
computations (of `intBits` bits, wrapping), the division truncates toward
zero, the result is stored in a `uint8_t`. -/
def lerp (avr : Bool) (current target t : Nat) : Nat :=
  let difference := wrapInt 16 ((target : Int) - (current : Int))
  toUInt8 (wrapInt (intBits avr)
    ((current : Int) + Int.tdiv (wrapInt (intBits avr) (difference * (t : Int))) 255))

/-- The read `currentImage[index]` of the render.  The source does not check
the index: inside the array the read returns the cell, outside the array it
returns the byte the memory holds there, `outside index`. -/
def readImage (outside : Int → Nat) (img : List Nat) (index : Int) : Nat :=
  if 0 ≤ index ∧ index.toNat < img.length then img.getD index.toNat 0
  else outside index % 256

/-- The opacity `blendUnified` uses for the element at logical `(x, y)`:
`blendingImage ? currentImage[y * matrixWidth + x] : 255`. -/
def maskValue (b : MatrixBlender) (x y : Nat) : Nat :=
  let matrixWidth := b.matrix.actualWidth
  let index := (y : Int) * matrixWidth + (x : Int)
  if b.blendingImage then readImage b.outside b.currentImage index else 255

/-- The color `blendUnified` writes for the element at logical `(x, y)`:
the current color scaled by the mask value (255 when no image blend is
active), then by `maxBrightness`. -/
def renderColor (b : MatrixBlender) (x y : Nat) : RGB :=
  let mask := b.maskValue x y
  let r := (b.currentColor.r * mask / 255) % 256
  let g := (b.currentColor.g * mask / 255) % 256
  let bl := (b.currentColor.b * mask / 255) % 256
  ⟨MatrixController.scale r b.matrix.maxBrightness,
   MatrixController.scale g b.matrix.maxBrightness,
   MatrixController.scale bl b.matrix.maxBrightness⟩

/-- The first part of `blendUnified`: the interpolation of the color and of
the image. -/
def interpolate (b : MatrixBlender) (factor : Nat) : MatrixBlender :=
  let t := factor % 256
  let currentColor :=
    if b.blendingColor then
      { r := lerp b.matrix.avr b.currentColor.r b.targetColor.r t
        g := lerp b.matrix.avr b.currentColor.g b.targetColor.g t
        b := lerp b.matrix.avr b.currentColor.b b.targetColor.b t }
    else b.currentColor
  let currentImage :=
    if b.blendingImage then
      forLoop b.imageSize.toNat (fun i img =>
        img.set i (lerp b.matrix.avr (img.getD i 0) (b.targetImage.getD i 0) t)) b.currentImage
    else b.currentImage
  { b with currentColor := currentColor, currentImage := currentImage }

/-- The second part of `blendUnified`: the render of the blended result. -/
def render (b : MatrixBlender) : MatrixBlender :=
  let c := b.matrix
  let strip := c.strip.clear
  let strip :=
    if c.avr then
      forLoop c.matrixRows (fun y strip =>
        forLoop c.matrixCols (fun x strip =>
          let ledId := c.matrixData (y * c.matrixCols + x) % 256
          if ledId != 255 then strip.setPixelColor ledId (b.renderColor x y)
          else strip) strip) strip
    else
      c.entries.foldl (fun strip m =>
        strip.setPixelColor m.ledId (b.renderColor m.x m.y)) strip
  { b with matrix := { c with strip := strip.showPixels } }

/-- The method `blendUnified`. -/
def blendUnified (b : MatrixBlender) (factor : Nat) : MatrixBlender :=
  (b.interpolate factor).render

/-- The method `blendToColor`; `now` is the value `millis()` returns. -/
def blendToColor (b : MatrixBlender) (r g bl : Nat) (duration : Nat) (now : Nat) :
    MatrixBlender :=
  { b with
    targetColor := ⟨r % 256, g % 256, bl % 256⟩
    blendTime := duration % 2 ^ 32
    blendStartTime := now % 2 ^ 32
    blending := true
    blendingColor := true }.blendUnified 0

/-- The value `blendToImage` stores in `targetImage` for the logical cell
`(x, y)`. -/
def targetValue (image : Nat → Bool) (imageRows imageCols offsetX offsetY : Int)
    (x y : Nat) : Nat :=
  let imageX := (x : Int) - offsetX
  let imageY := (y : Int) - offsetY
  if imageX ≥ 0 && imageX < imageCols && imageY ≥ 0 && imageY < imageRows then
    if image (imageY * imageCols + imageX).toNat then 255 else 0
  else 0

/-- The method `blendToImage(image, imageRows, imageCols, duration)`. -/
def blendToImage (b : MatrixBlender) (image : Nat → Bool) (imageRows imageCols : Int)
    (duration : Nat) (now : Nat) : MatrixBlender :=
  let matrixWidth := b.matrix.actualWidth
  let matrixHeight := b.matrix.actualHeight
  let offsetX := MatrixController.centerOffset matrixWidth imageCols
  let offsetY := MatrixController.centerOffset matrixHeight imageRows
  let targetImage :=
    forLoop matrixHeight.toNat (fun y img =>
      forLoop matrixWidth.toNat (fun x img =>
        let index := (y : Int) * matrixWidth + (x : Int)
        img.set index.toNat (targetValue image imageRows imageCols offsetX offsetY x y))
        img) b.targetImage
  { b with
    targetImage := targetImage
    blendTime := duration % 2 ^ 32
    blendStartTime := now % 2 ^ 32
    blending := true
    blendingImage := true }.blendUnified 0

/-- The method `blendToImage(image, imageRows, imageCols, r, g, b,
duration)`. -/
def blendToImageColor (b : MatrixBlender) (image : Nat → Bool) (imageRows imageCols : Int)
    (r g bl : Nat) (duration : Nat) (now : Nat) : MatrixBlender :=
  { b.blendToImage image imageRows imageCols duration now with
    targetColor := ⟨r % 256, g % 256, bl % 256⟩
    blendingColor := true }

/-- The `elapsed` of `update`: `now - blendStartTime` in `unsigned long`,
then clamped to `blendTime`. -/
def elapsed (b : MatrixBlender) (now : Nat) : Nat :=
  let elapsed := (now % 2 ^ 32 + 2 ^ 32 - b.blendStartTime) % 2 ^ 32
  if elapsed > b.blendTime then b.blendTime else elapsed

/-- The `factor` of `update`:
`(blendTime > 0) ? (uint8_t)min(255UL, (elapsed * 255UL) / blendTime) : 255`,
the product in `unsigned long`. -/
def factor (blendTime elapsed : Nat) : Nat :=
  if blendTime > 0 then (min 255 ((elapsed * 255) % 2 ^ 32 / blendTime)) % 256 else 255

/-- The method `update`; `now` is the value `millis()` returns. -/
def update (b : MatrixBlender) (now : Nat) : MatrixBlender :=
  if !b.blending then b
  else
    let elapsed := b.elapsed now
    let factor := factor b.blendTime elapsed
    let b1 := b.blendUnified factor
    if elapsed ≥ b1.blendTime then
      let currentImage :=
        if b1.blendingImage then
          forLoop b1.imageSize.toNat (fun i img => img.set i (b1.targetImage.getD i 0))
            b1.currentImage
        else b1.currentImage
      let currentColor := if b1.blendingColor then b1.targetColor else b1.currentColor
      { b1 with
        currentImage := currentImage
        currentColor := currentColor
        blending := false
        blendingImage := false
        blendingColor := false }
    else b1

/-- The method `isBlending`. -/
def isBlending (b : MatrixBlender) : Bool := b.blending

end MatrixBlender

/-! ## Auxiliary notions used to state and prove the properties -/

/-- The cells of a `rows x cols` table in row-major scan order, as `(x, y)`. -/
def cells (rows cols : Nat) : List (Nat × Nat) :=
  (List.range rows).flatMap (fun y => (List.range cols).map (fun x => (x, y)))

/-- The byte the table holds at cell `(x, y)`. -/
def cellAt (src : Nat → Nat) (cols : Nat) (p : Nat × Nat) : Nat :=
  src (p.2 * cols + p.1) % 256

/-- The active cells (value other than 255) of a table, in scan order. -/
def activeCells (src : Nat → Nat) (rows cols : Nat) : List (Nat × Nat) :=
  (cells rows cols).filter (fun p => cellAt src cols p != 255)

/-- The mapping entry of a cell. -/
def entryOf (src : Nat → Nat) (cols : Nat) (p : Nat × Nat) : LedMapping :=
  { x := p.1 % 256, y := p.2 % 256, ledId := cellAt src cols p }

/-- The 2 x 2 table `[[0, 1], [2, 255]]` of the concrete scenario: cell
`(1, 1)` is inactive. -/
def exampleTable : Nat → Nat := fun i => [0, 1, 2, 255].getD i 255

/-- The strip length `init` computes from the physical indices it meets:
the highest index plus one, `0` when there is none. -/
def ledCountOf (ids : List Nat) : Nat :=
  ids.foldl (fun ledCount ledId => max ledCount (ledId + 1)) 0

/-- An initialized controller: `c` has the platform, the geometry, the
bounding box and the strip length that `init` computes from the table `src`
of `rows` rows and `cols` columns.  On the AVR build the row and column counts
fit the `uint8_t` fields `matrixRows` and `matrixCols` (at most 255); on the
sparse build the coordinates fit the `uint8_t` fields of `LedMapping` (at most
256 rows and 256 columns) and the number of active cells fits the `uint8_t`
counter (at most 255).  The contents of the strip buffer are arbitrary, the
current color and the brightness are any bytes. -/
def InitializedFrom (c : MatrixController) (src : Nat → Nat) (rows cols : Nat) : Prop :=
  (c.avr = true → rows ≤ 255 ∧ cols ≤ 255) ∧
  (c.avr = false → rows ≤ 256 ∧ cols ≤ 256 ∧ (activeCells src rows cols).length ≤ 255) ∧
  c.maxBrightness < 256 ∧
  c.currentColor.r < 256 ∧ c.currentColor.g < 256 ∧ c.currentColor.b < 256 ∧
  ∃ (c0 : MatrixController) (pin : Int), c0.avr = c.avr ∧
    c.matrixData = (c0.initFrom src cols rows pin).matrixData ∧
    c.matrixRows = (c0.initFrom src cols rows pin).matrixRows ∧
    c.matrixCols = (c0.initFrom src cols rows pin).matrixCols ∧
    c.ledMappings = (c0.initFrom src cols rows pin).ledMappings ∧
    c.numActiveLeds = (c0.initFrom src cols rows pin).numActiveLeds ∧
    c.actualWidth = (c0.initFrom src cols rows pin).actualWidth ∧
    c.actualHeight = (c0.initFrom src cols rows pin).actualHeight ∧
    c.strip.pixels.length = (c0.initFrom src cols rows pin).strip.pixels.length

/-- The sparse controller of the concrete scenario: table
`[[0, 1], [2, 255]]`, `maxBrightness = 128`. -/
def exampleSparse : MatrixController :=
  ((MatrixController.new false).initCustom exampleTable 2 2 6).setMaxBrightness 128

/-- The dense controller of the concrete scenario: the body of
`init(type, pin)` on the AVR build run on the table `[[0, 1], [2, 255]]`, then
`maxBrightness = 128`.  The built-in layouts `init(type, pin)` selects have
12, 14 or 16 rows; `roundDense` is a controller that call produces. -/
def exampleDense : MatrixController :=
  ((MatrixController.new true).initFrom exampleTable 2 2 6).setMaxBrightness 128

/-- The lighting rule of `SetImage` in the words of the specification: with
`offsetX = floor(width / 2) - floor(maskCols / 2)` and `offsetY` analogous,
the element at logical `(x, y)` is lit when `(x - offsetX, y - offsetY)` lies
inside the mask and the mask is true there. -/
def specLit (mask : Nat → Bool) (maskRows maskCols width height : Int) (x y : Nat) : Bool :=
  let offsetX := width / 2 - maskCols / 2
  let offsetY := height / 2 - maskRows / 2
  let imageX := (x : Int) - offsetX
  let imageY := (y : Int) - offsetY
  decide (0 ≤ imageX ∧ imageX < maskCols ∧ 0 ≤ imageY ∧ imageY < maskRows)
    && mask (imageY * maskCols + imageX).toNat

/-- A 1 x 2 mask `[true, false]`. -/
def exampleMask : Nat → Bool := fun i => [true, false].getD i false

/-- A blender whose image arrays have the `imageSize` elements the
constructor allocates and whose time stamps are `unsigned long` values. -/
def MatrixBlender.WellFormed (b : MatrixBlender) : Prop :=
  b.currentImage.length = b.imageSize.toNat ∧ b.targetImage.length = b.imageSize.toNat
    ∧ b.blendTime < 2 ^ 32 ∧ b.blendStartTime < 2 ^ 32

/-- A blender on the sparse example controller in the middle of a blend of
color and image that started at time 100 and lasts 1000 ms. -/
def exampleBlender : MatrixBlender :=
  { matrix := exampleSparse
    currentImage := [0, 10, 200, 0]
    targetImage := [255, 0, 255, 0]
    currentColor := ⟨10, 20, 30⟩
    targetColor := ⟨255, 0, 7⟩
    blendTime := 1000
    blendStartTime := 100
    blending := true
    blendingImage := true
    blendingColor := true
    imageSize := 4
    outside := fun _ => 0 }

/-- Blenders built on the example controllers after `setColor(0, 0, 0)`:
the current color is black. -/
def blackSparse : MatrixBlender :=
  MatrixBlender.new (exampleSparse.setColor 0 0 0) ⟨0, 0, 0⟩ (fun _ => 0)

/-- The blender of `blackSparse` on the dense (AVR) example controller. -/
def blackDense : MatrixBlender :=
  MatrixBlender.new (exampleDense.setColor 0 0 0) ⟨0, 0, 0⟩ (fun _ => 0)

/-- The factor of `Update()` in the words of the specification:
`duration > 0 ? round(elapsed * 255 / duration) : 255`, the quotient taken in
the rationals and rounded to the nearest integer. -/
def specFactor (duration elapsed : Nat) : Int :=
  if duration > 0 then round (((elapsed : ℚ) * 255) / (duration : ℚ)) else 255

/-- A color blend in flight from black to white that started at time 0 and
lasts 4 ms. -/
def shortBlend : MatrixBlender :=
  { blackSparse with
    targetColor := ⟨255, 255, 255⟩
    blendTime := 4
    blendStartTime := 0
    blending := true
    blendingColor := true }

/-- A color-only blend from black to white over 20 000 000 ms, started at
time 0. -/
def longBlend : MatrixBlender := blackSparse.blendToColor 255 255 255 20000000 0

/-- A 16 x 16 table whose 256 cells all hold the physical index 0. -/
def fullTable : Nat → Nat := fun _ => 0

/-- A table of 1 row and 257 columns with two active cells: `(0, 0)` holds
index 0 and `(256, 0)` holds index 1. -/
def wideTable : Nat → Nat := fun i => if i = 0 then 0 else if i = 256 then 1 else 255

/-- A blender whose bytes are bytes: the channels of the current color, the
cells of the current image and the brightness of its controller are below
256. -/
def MatrixBlender.Bytes (b : MatrixBlender) : Prop :=
  b.currentColor.r < 256 ∧ b.currentColor.g < 256 ∧ b.currentColor.b < 256
    ∧ (∀ v ∈ b.currentImage, v < 256) ∧ b.matrix.maxBrightness < 256

/-- The channel value the specification gives for a rendered element: two
sequential scalings `value * scalar / 255`, first by the mask `m`, then by the
brightness `B`. -/
def specChannel (c m B : Nat) : Nat := (c * m / 255) * B / 255

/-- The table `[[255, 0, 1], [255, 2, 3]]` of 2 rows and 3 columns: column 0
holds no element. -/
def shiftedTable : Nat → Nat := fun i => [255, 0, 1, 255, 2, 3].getD i 255

/-- The sparse controller initialized from `shiftedTable`. -/
def shiftedSparse : MatrixController :=
  (MatrixController.new false).initCustom shiftedTable 2 3 6

/-- The dense controller the body of `init(type, pin)` on the AVR build gives
on `shiftedTable`. -/
def shiftedDense : MatrixController :=
  (MatrixController.new true).initFrom shiftedTable 3 2 6

/-- A 2 x 2 mask, all true. -/
def fullMask : Nat → Bool := fun _ => true

/-- The table `[[0, 255]]` of 1 row and 2 columns: column 1 holds no
element. -/
def marginTable : Nat → Nat := fun i => [0, 255].getD i 255

/-- The sparse controller initialized from `marginTable`. -/
def marginSparse : MatrixController :=
  (MatrixController.new false).initCustom marginTable 1 2 6

/-- The dense controller the body of `init(type, pin)` on the AVR build gives
on `marginTable`. -/
def marginDense : MatrixController :=
  (MatrixController.new true).initFrom marginTable 2 1 6

/-- Every index an operation passes to the strip driver lies inside the
buffer: between the strip `before` and the strip `after` the buffer keeps its
length, calls are only appended, and every appended `setPixelColor` call has an
index below that length. -/
def WritesInside (before after : Strip) : Prop :=
  after.pixels.length = before.pixels.length
    ∧ ∃ newCalls : List StripCall, after.calls = before.calls ++ newCalls
      ∧ ∀ n col, StripCall.setPixelColor n col ∈ newCalls → n < before.pixels.length

/-- The AVR controller after `init(customMatrix, 2, 2, pin)` with the table
`[[0, 1], [2, 255]]` and `setMaxBrightness(128)`. -/
def customDense : MatrixController :=
  ((MatrixController.new true).initCustom exampleTable 2 2 6).setMaxBrightness 128

/-- Built-in layouts for the examples.  The 12 x 12 `ROUND_MATRIX` has three
active cells, `(0, 0)`, `(1, 0)` and `(0, 1)`, with the physical indices 0, 1
and 2; the other two layouts have no active cell. -/
def exampleTables : MatrixController.Mappings :=
  { ROUND_MATRIX := fun i => if i = 0 then 0 else if i = 1 then 1 else if i = 12 then 2 else 255
    HEXAGONAL_MATRIX := fun _ => 255
    TRIANGULAR_MATRIX := fun _ => 255 }

/-- The AVR controller after `init(ROUND, pin)` on the example layouts and
`setMaxBrightness(128)`. -/
def roundDense : MatrixController :=
  (MatrixController.init exampleTables (MatrixController.new true) MatrixType.ROUND
    6).setMaxBrightness 128

/-- The non-AVR controller after `init(ROUND, pin)` on the example layouts
and `setMaxBrightness(128)`. -/
def roundSparse : MatrixController :=
  (MatrixController.init exampleTables (MatrixController.new false) MatrixType.ROUND
    6).setMaxBrightness 128

/-- The non-AVR controller after `init(customMatrix, 1, 257, pin)` with the
table `wideTable`. -/
def wideSparse : MatrixController :=
  (MatrixController.new false).initCustom wideTable 1 257 6

/-- The 2 x 2 mask `[[false, false], [true, false]]`: only the cell `(0, 1)`
is set. -/
def cornerMask : Nat → Bool := fun i => [false, false, true, false].getD i false

/-- The blender built on `shiftedSparse` after `blendToImage(cornerMask, 2, 2,
10)` started at time 0 and `update()` at time 10, when the blend completes;
`outside` is the memory next to its arrays. -/
def cornerBlend (outside : Int → Nat) : MatrixBlender :=
  ((MatrixBlender.new shiftedSparse ⟨0, 0, 0⟩ outside).blendToImage cornerMask 2 2 10
    0).update 10

/-- One call of the public interface of the blend engine, with the value
`millis()` returns during the call. -/
inductive BlendCall where
  | blendToColor (r g b : Nat) (duration now : Nat)
  | blendToImage (image : Nat → Bool) (imageRows imageCols : Int) (duration now : Nat)
  | blendToImageColor (image : Nat → Bool) (imageRows imageCols : Int) (r g b : Nat)
      (duration now : Nat)
  | update (now : Nat)

/-- The effect of one call on the blender. -/
def MatrixBlender.call (b : MatrixBlender) : BlendCall → MatrixBlender
  | BlendCall.blendToColor r g bl duration now => b.blendToColor r g bl duration now
  | BlendCall.blendToImage image imageRows imageCols duration now =>
      b.blendToImage image imageRows imageCols duration now
  | BlendCall.blendToImageColor image imageRows imageCols r g bl duration now =>
      b.blendToImageColor image imageRows imageCols r g bl duration now
  | BlendCall.update now => b.update now

/-- The effect of a sequence of calls, in order. -/
def MatrixBlender.run (b : MatrixBlender) (calls : List BlendCall) : MatrixBlender :=
  calls.foldl MatrixBlender.call b

/-- The invariant of the blend state machine: `blending` is set exactly when
one of the two channels participates, an image channel that does not
participate has its current image equal to its target, the two image arrays
have the `imageSize` cells the constructor allocated, and `imageSize` is
still the width times the height of the controller. -/
def MatrixBlender.Invariant (b : MatrixBlender) : Prop :=
  (b.blending = true ↔ (b.blendingImage = true ∨ b.blendingColor = true))
    ∧ (b.blendingImage = false → b.currentImage = b.targetImage)
    ∧ b.currentImage.length = b.imageSize.toNat
    ∧ b.targetImage.length = b.imageSize.toNat
    ∧ b.imageSize = b.matrix.actualWidth * b.matrix.actualHeight

/-! ## Loops and the sparse build -/

theorem forLoop_nested {σ : Type} (rows cols : Nat) (f : Nat → Nat → σ → σ) (s : σ) :
    forLoop rows (fun y s => forLoop cols (fun x s => f x y s) s) s
      = (cells rows cols).foldl (fun s p => f p.1 p.2 s) s := by
  unfold forLoop cells
  generalize List.range rows = ys
  induction ys generalizing s with
  | nil => rfl
  | cons y ys ih =>
    simp only [List.foldl_cons, List.flatMap_cons, List.foldl_append, List.foldl_map]
    exact ih _

theorem mem_cells {rows cols : Nat} {p : Nat × Nat} :
    p ∈ cells rows cols ↔ p.1 < cols ∧ p.2 < rows := by
  obtain ⟨x, y⟩ := p
  simp only [cells, List.mem_flatMap, List.mem_range, List.mem_map, Prod.mk.injEq]
  constructor
  · rintro ⟨y', hy', x', hx', rfl, rfl⟩
    exact ⟨hx', hy'⟩
  · rintro ⟨hx, hy⟩
    exact ⟨y, hy, x, hx, rfl, rfl⟩

theorem foldl_count (src : Nat → Nat) (cols : Nat) (cs : List (Nat × Nat)) (n : Nat) :
    cs.foldl (fun n p => if (src (p.2 * cols + p.1) % 256 != 255) = true
        then (n + 1) % 256 else n) n
      = if (cs.filter (fun p => cellAt src cols p != 255)).length = 0 then n
        else (n + (cs.filter (fun p => cellAt src cols p != 255)).length) % 256 := by
  induction cs generalizing n with
  | nil => simp
  | cons p cs ih =>
    simp only [List.foldl_cons, List.filter_cons, cellAt]
    by_cases h : (src (p.2 * cols + p.1) % 256 != 255) = true
    · simp only [h, if_true, List.length_cons]
      rw [ih]
      simp only [cellAt]
      split <;> rename_i h0
      · simp [h0]
      · simp only [Nat.add_one_ne_zero, if_false]; omega
    · simp only [h, if_false]
      exact ih n

theorem countActive_eq (src : Nat → Nat) (rows cols : Nat) :
    MatrixController.countActive src rows cols = (activeCells src rows cols).length % 256 := by
  unfold MatrixController.countActive
  rw [forLoop_nested rows cols
    (fun x y n => if (src (y * cols + x) % 256 != 255) = true then (n + 1) % 256 else n)]
  rw [foldl_count]
  unfold activeCells
  split <;> rename_i h
  · simp [h]
  · simp


theorem foldl_fill (src : Nat → Nat) (cols : Nat) (cs : List (Nat × Nat))
    (pre suf : List LedMapping)
    (h : (cs.filter (fun p => cellAt src cols p != 255)).length ≤ suf.length) :
    cs.foldl (fun (st : List LedMapping × Nat) p =>
        if (src (p.2 * cols + p.1) % 256 != 255) = true then
          (st.1.set st.2 { x := p.1 % 256, y := p.2 % 256,
                           ledId := src (p.2 * cols + p.1) % 256 }, st.2 + 1)
        else st) (pre ++ suf, pre.length)
      = (pre ++ (cs.filter (fun p => cellAt src cols p != 255)).map (entryOf src cols)
            ++ suf.drop (cs.filter (fun p => cellAt src cols p != 255)).length,
         pre.length + (cs.filter (fun p => cellAt src cols p != 255)).length) := by
  induction cs generalizing pre suf with
  | nil => simp
  | cons p cs ih =>
    simp only [List.foldl_cons, List.filter_cons, cellAt] at h ⊢
    by_cases hp : (src (p.2 * cols + p.1) % 256 != 255) = true
    · simp only [hp, if_true, List.length_cons] at h ⊢
      cases suf with
      | nil => simp at h
      | cons e suf =>
        have hset : (pre ++ e :: suf).set pre.length
              { x := p.1 % 256, y := p.2 % 256, ledId := src (p.2 * cols + p.1) % 256 }
            = (pre ++ [entryOf src cols p]) ++ suf := by
          simp [List.set_append, entryOf, cellAt]
        rw [hset]
        have hlen : pre.length + 1 = (pre ++ [entryOf src cols p]).length := by simp
        rw [hlen, ih (pre ++ [entryOf src cols p]) suf (by simpa using h)]
        simp [cellAt, Nat.add_assoc, Nat.add_comm 1]
    · simp only [hp, if_false] at h ⊢
      simpa [cellAt] using ih pre suf (by simpa [cellAt] using h)

theorem fillMappings_eq (src : Nat → Nat) (rows cols n : Nat)
    (h : (activeCells src rows cols).length = n) :
    (MatrixController.fillMappings src rows cols (List.replicate n default)).1
      = (activeCells src rows cols).map (entryOf src cols) := by
  unfold MatrixController.fillMappings
  rw [forLoop_nested rows cols
    (fun x y (st : List LedMapping × Nat) =>
      if (src (y * cols + x) % 256 != 255) = true then
        (st.1.set st.2 { x := x % 256, y := y % 256, ledId := src (y * cols + x) % 256 },
          st.2 + 1)
      else st)]
  have := foldl_fill src cols (cells rows cols) [] (List.replicate n default)
    (by simp only [List.length_replicate]; unfold activeCells at h; omega)
  simp only [List.nil_append, List.length_nil, Nat.zero_add] at this
  rw [this]
  unfold activeCells at h ⊢
  simp [h]

/-- The entries of the sparse build of a table with at most 255 active
cells. -/
theorem entries_initCustom (c : MatrixController) (hc : c.avr = false)
    (src : Nat → Nat) (rows cols : Nat) (pin : Int)
    (h : (activeCells src rows cols).length ≤ 255) :
    (c.initCustom src rows cols pin).entries
      = (activeCells src rows cols).map (entryOf src cols) := by
  have hn : MatrixController.countActive src rows cols = (activeCells src rows cols).length := by
    rw [countActive_eq]; omega
  simp only [MatrixController.initCustom, MatrixController.initStrip,
    MatrixController.computeMatrixDimensions, MatrixController.convertToSparse,
    MatrixController.entries, hc, Bool.false_eq_true, if_false, hn]
  rw [fillMappings_eq src rows cols _ rfl]
  simp


theorem find_entry (src : Nat → Nat) (cols : Nat) (cs : List (Nat × Nat)) (x y : Nat)
    (hcs : ∀ p ∈ cs, p.1 < 256 ∧ p.2 < 256) :
    ((cs.filter (fun p => cellAt src cols p != 255)).map (entryOf src cols)).find?
        (fun m => m.x == x && m.y == y)
      = if (x, y) ∈ cs ∧ cellAt src cols (x, y) ≠ 255 then some (entryOf src cols (x, y))
        else none := by
  induction cs with
  | nil => simp
  | cons p cs ih =>
    have hp := hcs p (List.mem_cons_self _ _)
    have ih := ih (fun q hq => hcs q (List.mem_cons_of_mem _ hq))
    obtain ⟨px, py⟩ := p
    simp only at hp
    by_cases hxy : px = x ∧ py = y
    · obtain ⟨rfl, rfl⟩ := hxy
      by_cases ha : cellAt src cols (px, py) = 255
      · simp only [List.filter_cons, ha, bne_self_eq_false, Bool.false_eq_true, if_false]
        rw [ih]; simp [ha]
      · simp [List.filter_cons, ha, entryOf, Nat.mod_eq_of_lt hp.1, Nat.mod_eq_of_lt hp.2]
    · have hne : (x, y) ≠ (px, py) := by
        intro h; simp only [Prod.mk.injEq] at h; exact hxy ⟨h.1.symm, h.2.symm⟩
      have hmem : (x, y) ∈ (px, py) :: cs ↔ (x, y) ∈ cs := by
        simp [List.mem_cons, hne]
      have hR : (if (x, y) ∈ (px, py) :: cs ∧ cellAt src cols (x, y) ≠ 255
            then some (entryOf src cols (x, y)) else none)
          = (if (x, y) ∈ cs ∧ cellAt src cols (x, y) ≠ 255
            then some (entryOf src cols (x, y)) else none) := by
        simp only [hmem]
      rw [hR, ← ih]
      by_cases ha : cellAt src cols (px, py) = 255
      · simp [List.filter_cons, ha]
      · have : ¬ (px % 256 = x ∧ py % 256 = y) := by
          rw [Nat.mod_eq_of_lt hp.1, Nat.mod_eq_of_lt hp.2]; exact hxy
        simp only [List.filter_cons, bne_iff_ne, ne_eq, ha, not_false_eq_true, if_true,
          List.map_cons, List.find?_cons, entryOf]
        have hb : (px % 256 == x && py % 256 == y) = false := by
          simpa [Bool.and_eq_false_iff] using this
        simp [hb]

theorem wrapInt8_of_byte (v : Nat) : wrapInt 8 (min 127 (v : Int)) = min 127 (v : Int) := by
  unfold wrapInt
  have h1 : (0 : Int) ≤ min 127 (v : Int) := by omega
  have h2 : min 127 (v : Int) ≤ 127 := by omega
  norm_num
  omega

/-- What the sparse lookup returns on a table with at most 255 active cells
whose coordinates fit in a byte. -/
theorem getLedId_sparse (c : MatrixController) (hc : c.avr = false)
    (src : Nat → Nat) (rows cols : Nat) (pin : Int)
    (hrows : rows ≤ 256) (hcols : cols ≤ 256)
    (hcount : (activeCells src rows cols).length ≤ 255)
    (x y : Nat) (hx : x < 256) (hy : y < 256) :
    (c.initCustom src rows cols pin).getLedId x y
      = if x < cols ∧ y < rows ∧ cellAt src cols (x, y) ≠ 255
        then min 127 (cellAt src cols (x, y) : Int) else -1 := by
  have hav : (c.initCustom src rows cols pin).avr = false := by
    simp [MatrixController.initCustom, MatrixController.initStrip,
      MatrixController.computeMatrixDimensions, MatrixController.convertToSparse, hc]
  have hX : toUInt8 (x : Int) = x := by unfold toUInt8; omega
  have hY : toUInt8 (y : Int) = y := by unfold toUInt8; omega
  unfold MatrixController.getLedId
  simp only [hav, Bool.false_eq_true, if_false, hX, hY]
  rw [entries_initCustom c hc src rows cols pin hcount]
  unfold activeCells
  rw [find_entry src cols (cells rows cols) x y
    (fun p hp => by have := mem_cells.1 hp; omega)]
  simp only [mem_cells]
  by_cases h : (x < cols ∧ y < rows) ∧ cellAt src cols (x, y) ≠ 255
  · rw [if_pos h, if_pos ⟨h.1.1, h.1.2, h.2⟩]
    simp only [entryOf]
    exact wrapInt8_of_byte _
  · rw [if_neg h, if_neg (fun h2 => h ⟨⟨h2.1, h2.2.1⟩, h2.2.2⟩)]

/-- What the dense lookup returns on a table whose row and column counts fit
in a byte. -/
theorem getLedId_dense (c : MatrixController) (hc : c.avr = true)
    (src : Nat → Nat) (rows cols : Nat) (pin : Int)
    (hrows : rows ≤ 255) (hcols : cols ≤ 255)
    (x y : Nat) (hx : x < 256) (hy : y < 256) :
    (c.initFrom src cols rows pin).getLedId x y
      = if x < cols ∧ y < rows ∧ cellAt src cols (x, y) ≠ 255
        then min 127 (cellAt src cols (x, y) : Int) else -1 := by
  have hX : toUInt8 (x : Int) = x := by unfold toUInt8; omega
  have hY : toUInt8 (y : Int) = y := by unfold toUInt8; omega
  have hR : rows % 256 = rows := Nat.mod_eq_of_lt (by omega)
  have hC : cols % 256 = cols := Nat.mod_eq_of_lt (by omega)
  unfold MatrixController.getLedId
  simp only [MatrixController.initFrom, hc, if_true, hX, hY, hR, hC, cellAt]
  by_cases h1 : x < cols ∧ y < rows
  · have hg : (decide (x ≥ cols) || decide (y ≥ rows)) = false := by
      simp [h1.1, h1.2]
    rw [hg]
    simp only [Bool.false_eq_true, if_false, bne_iff_ne, ne_eq, h1.1, h1.2, true_and]
    by_cases h2 : src (y * cols + x) % 256 = 255
    · simp [h2]
    · simp only [h2, not_false_eq_true, if_true]
      exact wrapInt8_of_byte _
  · have hg : (decide (x ≥ cols) || decide (y ≥ rows)) = true := by
      simp only [Bool.or_eq_true, decide_eq_true_eq]; omega
    rw [hg, if_pos rfl, if_neg (fun h => h1 ⟨h.1, h.2.1⟩)]


/-- C1: for a table whose row and column counts fit in a byte and that has
at most 255 active cells, at every in-range `(x, y)` the dense lookup and the
sparse lookup return the same result: `-1` when the cell is 255 and
`min(127, table[y * cols + x])` otherwise. -/
theorem C1_dense_sparse_lookup_agree (cd cs : MatrixController)
    (hd : cd.avr = true) (hs : cs.avr = false)
    (src : Nat → Nat) (rows cols : Nat) (pin : Int)
    (hrows : rows ≤ 255) (hcols : cols ≤ 255)
    (hcount : (activeCells src rows cols).length ≤ 255)
    (x y : Nat) (hx : x < cols) (hy : y < rows) :
    (cd.initFrom src cols rows pin).getLedId x y
        = (cs.initCustom src rows cols pin).getLedId x y
      ∧ (cd.initFrom src cols rows pin).getLedId x y
        = if src (y * cols + x) % 256 = 255 then -1
          else min 127 ((src (y * cols + x) % 256 : Nat) : Int) := by
  rw [getLedId_dense cd hd src rows cols pin hrows hcols x y (by omega) (by omega),
    getLedId_sparse cs hs src rows cols pin (by omega) (by omega) hcount x y
      (by omega) (by omega)]
  refine ⟨rfl, ?_⟩
  simp only [hx, hy, true_and, cellAt]
  by_cases h : src (y * cols + x) % 256 = 255
  · simp [h]
  · simp [h]

/-- C1 at the table `[[0, 1], [2, 255]]`, cell `(0, 1)`: both lookups give
physical index 2. -/
theorem C1_dense_sparse_lookup_agree_witness :
    ((MatrixController.new true).initFrom exampleTable 2 2 6).getLedId (0 : Nat) (1 : Nat)
        = ((MatrixController.new false).initCustom exampleTable 2 2 6).getLedId
            (0 : Nat) (1 : Nat)
      ∧ ((MatrixController.new true).initFrom exampleTable 2 2 6).getLedId (0 : Nat) (1 : Nat)
        = if exampleTable (1 * 2 + 0) % 256 = 255 then -1
          else min 127 ((exampleTable (1 * 2 + 0) % 256 : Nat) : Int) :=
  C1_dense_sparse_lookup_agree (MatrixController.new true) (MatrixController.new false)
    rfl rfl exampleTable 2 2 6 (by decide) (by decide) (by decide) 0 1 (by decide) (by decide)


/-! ## Writes to the strip -/

theorem foldl_active {σ : Type} (src : Nat → Nat) (cols : Nat) (cs : List (Nat × Nat))
    (h : Nat × Nat → σ → σ) (s : σ) :
    cs.foldl (fun s p => if (src (p.2 * cols + p.1) % 256 != 255) = true then h p s else s) s
      = (cs.filter (fun p => cellAt src cols p != 255)).foldl (fun s p => h p s) s := by
  induction cs generalizing s with
  | nil => rfl
  | cons p cs ih =>
    simp only [List.foldl_cons, List.filter_cons, cellAt]
    by_cases hp : (src (p.2 * cols + p.1) % 256 != 255) = true
    · simp only [hp, if_true, List.foldl_cons]
      exact ih _
    · simp only [hp, if_false]
      exact ih _

/-- Writing one color at the indices `ids`, in order. -/
theorem writes_calls (col : RGB) (ids : List Nat) (s : Strip) :
    (ids.foldl (fun s i => s.setPixelColor i col) s).calls
      = s.calls ++ ids.map (fun i => StripCall.setPixelColor i col) := by
  induction ids generalizing s with
  | nil => simp
  | cons i ids ih =>
    simp only [List.foldl_cons, List.map_cons]
    rw [ih]
    simp [Strip.setPixelColor]

theorem writes_length (col : RGB) (ids : List Nat) (s : Strip) :
    (ids.foldl (fun s i => s.setPixelColor i col) s).pixels.length = s.pixels.length := by
  induction ids generalizing s with
  | nil => simp
  | cons i ids ih =>
    simp only [List.foldl_cons]
    rw [ih]
    simp only [Strip.setPixelColor]
    split <;> simp

theorem writes_pixels (col : RGB) (ids : List Nat) (s : Strip) (i : Nat) :
    (ids.foldl (fun s i => s.setPixelColor i col) s).pixels[i]?
      = if i ∈ ids ∧ i < s.pixels.length then some col else s.pixels[i]? := by
  induction ids generalizing s with
  | nil => simp
  | cons j ids ih =>
    simp only [List.foldl_cons, ih, List.mem_cons]
    have hlen : (s.setPixelColor j col).pixels.length = s.pixels.length := by
      simp only [Strip.setPixelColor]; split <;> simp
    rw [hlen]
    by_cases h1 : i ∈ ids ∧ i < s.pixels.length
    · rw [if_pos h1, if_pos ⟨Or.inr h1.1, h1.2⟩]
    · rw [if_neg h1]
      by_cases h2 : i = j
      · subst h2
        by_cases h3 : i < s.pixels.length
        · rw [if_pos ⟨Or.inl rfl, h3⟩]
          simp [Strip.setPixelColor, h3]
        · rw [if_neg (fun h => h3 h.2)]
          simp [Strip.setPixelColor, h3]
      · have h4 : ¬ ((i = j ∨ i ∈ ids) ∧ i < s.pixels.length) := by
          rintro ⟨h | h, hl⟩
          · exact h2 h
          · exact h1 ⟨h, hl⟩
        rw [if_neg h4]
        simp only [Strip.setPixelColor]
        split
        · rw [List.getElem?_set_ne (fun h => h2 h.symm)]
        · rfl

theorem ledCountOf_lt_aux (ids : List Nat) (n : Nat) :
    n ≤ ids.foldl (fun ledCount ledId => max ledCount (ledId + 1)) n
      ∧ ∀ i ∈ ids, i < ids.foldl (fun ledCount ledId => max ledCount (ledId + 1)) n := by
  induction ids generalizing n with
  | nil => simp
  | cons j ids ih =>
    simp only [List.foldl_cons, List.mem_cons]
    have := ih (max n (j + 1))
    refine ⟨by omega, ?_⟩
    rintro i (rfl | hi)
    · omega
    · exact this.2 i hi

theorem ledCountOf_le_aux (ids : List Nat) (n b : Nat) (hn : n ≤ b) (h : ∀ i ∈ ids, i < b) :
    ids.foldl (fun ledCount ledId => max ledCount (ledId + 1)) n ≤ b := by
  induction ids generalizing n with
  | nil => simpa using hn
  | cons j ids ih =>
    simp only [List.foldl_cons]
    have hj := h j (List.mem_cons_self _ _)
    exact ih (max n (j + 1)) (by omega) (fun i hi => h i (List.mem_cons_of_mem _ hi))

theorem lt_ledCountOf {ids : List Nat} {i : Nat} (h : i ∈ ids) : i < ledCountOf ids :=
  (ledCountOf_lt_aux ids 0).2 i h

theorem ledCountOf_le (ids : List Nat) (b : Nat) (h : ∀ i ∈ ids, i < b) : ledCountOf ids ≤ b :=
  ledCountOf_le_aux ids 0 b (Nat.zero_le _) h

theorem cellAt_lt (src : Nat → Nat) (cols : Nat) (p : Nat × Nat) : cellAt src cols p < 256 := by
  unfold cellAt; omega

theorem initFrom_eq_initCustom (c : MatrixController) (hc : c.avr = false)
    (src : Nat → Nat) (rows cols : Nat) (pin : Int) :
    c.initFrom src cols rows pin = c.initCustom src rows cols pin := by
  simp [MatrixController.initFrom, MatrixController.initCustom, hc]

/-- The strip length after initialization, on either platform: the highest
physical index of an active cell plus one. -/
theorem initFrom_strip_length (c : MatrixController) (src : Nat → Nat) (rows cols : Nat)
    (pin : Int) (hcount : c.avr = false → (activeCells src rows cols).length ≤ 255) :
    (c.initFrom src cols rows pin).strip.pixels.length
      = ledCountOf ((activeCells src rows cols).map (cellAt src cols)) := by
  have hle : ledCountOf ((activeCells src rows cols).map (cellAt src cols)) ≤ 256 :=
    ledCountOf_le _ _ (by
      intro i hi
      obtain ⟨p, _, rfl⟩ := List.mem_map.1 hi
      exact cellAt_lt src cols p)
  cases hc : c.avr with
  | true =>
    simp only [MatrixController.initFrom, hc, if_true, Strip.showPixels, Strip.updateLength,
      List.length_replicate]
    rw [forLoop_nested rows cols (fun x y ledCount =>
      if (src (y * cols + x) % 256 != 255) = true
        then max ledCount (src (y * cols + x) % 256 + 1) else ledCount)]
    rw [foldl_active src cols (cells rows cols)
      (fun p ledCount => max ledCount (src (p.2 * cols + p.1) % 256 + 1))]
    have : (List.filter (fun p => cellAt src cols p != 255) (cells rows cols)).foldl
          (fun s p => max s (src (p.2 * cols + p.1) % 256 + 1)) 0
        = ledCountOf ((activeCells src rows cols).map (cellAt src cols)) := by
      unfold ledCountOf activeCells
      rw [List.foldl_map]
      rfl
    rw [this]
    omega
  | false =>
    rw [initFrom_eq_initCustom c hc]
    have he := entries_initCustom c hc src rows cols pin (hcount hc)
    have : (c.initCustom src rows cols pin).strip.pixels.length
        = (ledCountOf ((c.initCustom src rows cols pin).entries.map (fun m => m.ledId)))
            % 65536 := by
      simp only [MatrixController.initCustom, MatrixController.initStrip,
        MatrixController.computeMatrixDimensions, MatrixController.convertToSparse,
        MatrixController.entries, hc, Bool.false_eq_true, if_false, Strip.showPixels,
        Strip.updateLength, List.length_replicate, ledCountOf, List.foldl_map]
    rw [this, he, List.map_map]
    have hf : ((fun m => m.ledId) ∘ entryOf src cols) = cellAt src cols := by
      funext p; rfl
    rw [hf]
    omega


/-! ## Initialized controllers -/

theorem InitializedFrom.rows_le {c : MatrixController} {src : Nat → Nat} {rows cols : Nat}
    (h : InitializedFrom c src rows cols) : rows ≤ 256 := by
  cases ha : c.avr with
  | true => have := (h.1 ha).1; omega
  | false => exact (h.2.1 ha).1

theorem InitializedFrom.cols_le {c : MatrixController} {src : Nat → Nat} {rows cols : Nat}
    (h : InitializedFrom c src rows cols) : cols ≤ 256 := by
  cases ha : c.avr with
  | true => have := (h.1 ha).2; omega
  | false => exact (h.2.1 ha).2.1

theorem InitializedFrom.count_le {c : MatrixController} {src : Nat → Nat} {rows cols : Nat}
    (h : InitializedFrom c src rows cols) (ha : c.avr = false) :
    (activeCells src rows cols).length ≤ 255 :=
  (h.2.1 ha).2.2

theorem InitializedFrom.brightness_lt {c : MatrixController} {src : Nat → Nat}
    {rows cols : Nat} (h : InitializedFrom c src rows cols) : c.maxBrightness < 256 :=
  h.2.2.1

theorem InitializedFrom.dense {c : MatrixController} {src : Nat → Nat} {rows cols : Nat}
    (h : InitializedFrom c src rows cols) (ha : c.avr = true) :
    c.matrixData = src ∧ c.matrixRows = rows ∧ c.matrixCols = cols
      ∧ c.actualWidth = cols ∧ c.actualHeight = rows := by
  obtain ⟨hr, hc⟩ := h.1 ha
  obtain ⟨_, _, _, _, _, _, c0, pin, h0, h1, h2, h3, _, _, h6, h7, _⟩ := h
  rw [ha] at h0
  simp only [MatrixController.initFrom, h0, if_true] at h1 h2 h3 h6 h7
  refine ⟨h1, ?_, ?_, h6, h7⟩
  · rw [h2]; exact Nat.mod_eq_of_lt (by omega)
  · rw [h3]; exact Nat.mod_eq_of_lt (by omega)

theorem InitializedFrom.sparse {c : MatrixController} {src : Nat → Nat} {rows cols : Nat}
    (h : InitializedFrom c src rows cols) (ha : c.avr = false) :
    c.entries = (activeCells src rows cols).map (entryOf src cols) := by
  have hcount := h.count_le ha
  obtain ⟨_, _, _, _, _, _, c0, pin, h0, _, _, _, h4, h5, _, _, _⟩ := h
  rw [ha] at h0
  rw [← entries_initCustom c0 h0 src rows cols pin hcount,
    ← initFrom_eq_initCustom c0 h0]
  simp only [MatrixController.entries, h4, h5]

theorem InitializedFrom.strip_length {c : MatrixController} {src : Nat → Nat}
    {rows cols : Nat} (h : InitializedFrom c src rows cols) :
    c.strip.pixels.length = ledCountOf ((activeCells src rows cols).map (cellAt src cols)) := by
  have hcount := h.count_le
  obtain ⟨_, _, _, _, _, _, c0, pin, h0, _, _, _, _, _, _, _, h8⟩ := h
  rw [h8]
  exact initFrom_strip_length c0 src rows cols pin (by rw [h0]; exact hcount)

theorem InitializedFrom.id_lt {c : MatrixController} {src : Nat → Nat}
    {rows cols : Nat} (h : InitializedFrom c src rows cols) {p : Nat × Nat}
    (hp : p ∈ activeCells src rows cols) : cellAt src cols p < c.strip.pixels.length := by
  rw [h.strip_length]
  exact lt_ledCountOf (List.mem_map.2 ⟨p, hp, rfl⟩)

theorem mem_activeCells {src : Nat → Nat} {rows cols : Nat} {p : Nat × Nat} :
    p ∈ activeCells src rows cols ↔ p.1 < cols ∧ p.2 < rows ∧ cellAt src cols p ≠ 255 := by
  simp [activeCells, mem_cells, and_assoc]

/-- The loop of `setColor` over the active elements, on either platform. -/
theorem setColor_strip {c : MatrixController} {src : Nat → Nat} {rows cols : Nat}
    (h : InitializedFrom c src rows cols) (r g b : Nat) :
    (c.setColor r g b).strip
      = (((activeCells src rows cols).map (cellAt src cols)).foldl
          (fun s i => s.setPixelColor i
            ⟨MatrixController.scale (r % 256) c.maxBrightness,
             MatrixController.scale (g % 256) c.maxBrightness,
             MatrixController.scale (b % 256) c.maxBrightness⟩) c.strip).showPixels := by
  cases ha : c.avr with
  | true =>
    obtain ⟨h1, h2, h3, _, _⟩ := h.dense ha
    simp only [MatrixController.setColor, ha, if_true, h1, h2, h3]
    rw [forLoop_nested rows cols (fun x y (strip : Strip) =>
      if (src (y * cols + x) % 256 != 255) = true then
        strip.setPixelColor (src (y * cols + x) % 256)
          ⟨MatrixController.scale (r % 256) c.maxBrightness,
           MatrixController.scale (g % 256) c.maxBrightness,
           MatrixController.scale (b % 256) c.maxBrightness⟩
      else strip)]
    rw [foldl_active src cols (cells rows cols) (fun p (strip : Strip) =>
        strip.setPixelColor (src (p.2 * cols + p.1) % 256)
          ⟨MatrixController.scale (r % 256) c.maxBrightness,
           MatrixController.scale (g % 256) c.maxBrightness,
           MatrixController.scale (b % 256) c.maxBrightness⟩)]
    rw [List.foldl_map]
    rfl
  | false =>
    simp only [MatrixController.setColor, ha, Bool.false_eq_true, if_false, h.sparse ha]
    rw [List.foldl_map, List.foldl_map]
    rfl

theorem scale_eq {v m : Nat} (hv : v < 256) (hm : m < 256) :
    MatrixController.scale v m = v * m / 255 := by
  unfold MatrixController.scale
  have : v * m ≤ 255 * 255 := Nat.mul_le_mul (by omega) (by omega)
  have : v * m / 255 ≤ 255 := by omega
  omega

/-- The part of C2 the code keeps: on a controller that has the geometry
`init` computes from its table (`InitializedFrom`), `setColor(r, g, b)` stores
exactly `(r, g, b)` as the current color; afterwards the element of every
active cell holds `(r * maxBrightness / 255, g * maxBrightness / 255,
b * maxBrightness / 255)`; the calls it makes to the strip are one write per
active cell, in scan order, followed by one flush; and an index that belongs
to no active cell keeps its content. -/
theorem setColor_roundtrip_and_render (c : MatrixController) (src : Nat → Nat)
    (rows cols : Nat) (h : InitializedFrom c src rows cols)
    (r g b : Nat) (hr : r < 256) (hg : g < 256) (hb : b < 256) :
    (c.setColor r g b).getColor = ⟨r, g, b⟩
      ∧ (∀ p ∈ activeCells src rows cols,
          (c.setColor r g b).strip.pixels[cellAt src cols p]?
            = some ⟨r * c.maxBrightness / 255, g * c.maxBrightness / 255,
                    b * c.maxBrightness / 255⟩)
      ∧ (c.setColor r g b).strip.calls
          = c.strip.calls
            ++ (activeCells src rows cols).map (fun p =>
                StripCall.setPixelColor (cellAt src cols p)
                  ⟨r * c.maxBrightness / 255, g * c.maxBrightness / 255,
                   b * c.maxBrightness / 255⟩)
            ++ [StripCall.showCall]
      ∧ (∀ i, (∀ p ∈ activeCells src rows cols, cellAt src cols p ≠ i) →
          (c.setColor r g b).strip.pixels[i]? = c.strip.pixels[i]?) := by
  have hm : c.maxBrightness < 256 := h.brightness_lt
  refine ⟨?_, ?_, ?_, ?_⟩
  · simp [MatrixController.getColor, MatrixController.setColor, Nat.mod_eq_of_lt hr,
      Nat.mod_eq_of_lt hg, Nat.mod_eq_of_lt hb]
  · intro p hp
    rw [setColor_strip h]
    simp only [Strip.showPixels, writes_pixels, Nat.mod_eq_of_lt hr, Nat.mod_eq_of_lt hg,
      Nat.mod_eq_of_lt hb, scale_eq hr hm, scale_eq hg hm, scale_eq hb hm]
    rw [if_pos ⟨List.mem_map.2 ⟨p, hp, rfl⟩, h.id_lt hp⟩]
  · rw [setColor_strip h]
    simp only [Strip.showPixels, writes_calls, Nat.mod_eq_of_lt hr, Nat.mod_eq_of_lt hg,
      Nat.mod_eq_of_lt hb, scale_eq hr hm, scale_eq hg hm, scale_eq hb hm, List.map_map]
    rfl
  · intro i hi
    rw [setColor_strip h]
    simp only [Strip.showPixels, writes_pixels]
    rw [if_neg]
    rintro ⟨hmem, _⟩
    obtain ⟨p, hp, rfl⟩ := List.mem_map.1 hmem
    exact hi p hp rfl

theorem exampleSparse_initialized : InitializedFrom exampleSparse exampleTable 2 2 :=
  ⟨fun _ => by decide, fun _ => by decide, by decide, by decide, by decide, by decide,
    MatrixController.new false, 6,
    rfl, rfl, rfl, rfl, rfl, rfl, rfl, rfl, rfl⟩

theorem exampleDense_initialized : InitializedFrom exampleDense exampleTable 2 2 :=
  ⟨fun _ => by decide, fun _ => by decide, by decide, by decide, by decide, by decide,
    MatrixController.new true, 6,
    rfl, rfl, rfl, rfl, rfl, rfl, rfl, rfl, rfl⟩

/-- The number of cells of a table. -/
theorem cells_length (rows cols : Nat) : (cells rows cols).length = rows * cols := by
  unfold cells
  induction rows with
  | zero => simp
  | succ n ih =>
    rw [List.range_succ, List.flatMap_append, List.length_append, ih]
    simp [Nat.succ_mul]

theorem activeCells_length_le (src : Nat → Nat) (rows cols : Nat) :
    (activeCells src rows cols).length ≤ rows * cols := by
  rw [← cells_length rows cols]
  exact List.length_filter_le _ _

/-- The controller `init` leaves, started on a fresh controller, is an
initialized controller in the sense of `InitializedFrom`: for the body of
`init(type, pin)` on either platform, and for `init(customMatrix, ...)` on the
non-AVR platform. -/
theorem initFrom_initialized (avr : Bool) (src : Nat → Nat) (rows cols : Nat) (pin : Int)
    (hd : avr = true → rows ≤ 255 ∧ cols ≤ 255)
    (hs : avr = false → rows ≤ 256 ∧ cols ≤ 256 ∧ (activeCells src rows cols).length ≤ 255) :
    InitializedFrom ((MatrixController.new avr).initFrom src cols rows pin) src rows cols := by
  have ha : ((MatrixController.new avr).initFrom src cols rows pin).avr = avr := by
    cases avr <;> rfl
  have hm : ((MatrixController.new avr).initFrom src cols rows pin).maxBrightness = 255 := by
    cases avr <;> rfl
  have hc : ((MatrixController.new avr).initFrom src cols rows pin).currentColor
      = ⟨0, 0, 255⟩ := by
    cases avr <;> rfl
  refine ⟨?_, ?_, ?_, ?_, ?_, ?_, MatrixController.new avr, pin, ?_, rfl, rfl, rfl, rfl, rfl,
    rfl, rfl, rfl⟩
  · rw [ha]; exact hd
  · rw [ha]; exact hs
  · rw [hm]; decide
  · rw [hc]; decide
  · rw [hc]; decide
  · rw [hc]; decide
  · rw [ha]; rfl

/-- The three built-in layouts through `init(type, pin)`, on either platform,
and a custom table through `init(customMatrix, ...)` on the non-AVR platform,
give initialized controllers.  The layouts have 12 x 12, 14 x 14 and 16 x 16
cells; only the last can exceed the 255 active cells the sparse counter
holds. -/
theorem init_initialized (tables : MatrixController.Mappings) (avr : Bool) (pin : Int) :
    InitializedFrom (MatrixController.init tables (MatrixController.new avr) MatrixType.ROUND pin)
        tables.ROUND_MATRIX 12 12
      ∧ InitializedFrom
          (MatrixController.init tables (MatrixController.new avr) MatrixType.HEXAGONAL pin)
          tables.HEXAGONAL_MATRIX 14 14
      ∧ ((avr = false → (activeCells tables.TRIANGULAR_MATRIX 16 16).length ≤ 255) →
          InitializedFrom
            (MatrixController.init tables (MatrixController.new avr) MatrixType.TRIANGULAR pin)
            tables.TRIANGULAR_MATRIX 16 16)
      ∧ ∀ (src : Nat → Nat) (rows cols : Nat), rows ≤ 256 → cols ≤ 256 →
          (activeCells src rows cols).length ≤ 255 →
          InitializedFrom ((MatrixController.new false).initCustom src rows cols pin)
            src rows cols := by
  refine ⟨?_, ?_, ?_, ?_⟩
  · exact initFrom_initialized avr _ 12 12 pin (fun _ => by decide)
      (fun _ => ⟨by decide, by decide,
        Nat.le_trans (activeCells_length_le _ 12 12) (by decide)⟩)
  · exact initFrom_initialized avr _ 14 14 pin (fun _ => by decide)
      (fun _ => ⟨by decide, by decide,
        Nat.le_trans (activeCells_length_le _ 14 14) (by decide)⟩)
  · intro hcount
    exact initFrom_initialized avr _ 16 16 pin (fun _ => by decide)
      (fun ha => ⟨by decide, by decide, hcount ha⟩)
  · intro src rows cols hr hc hcount
    rw [← initFrom_eq_initCustom _ rfl]
    exact initFrom_initialized false src rows cols pin (fun h => by cases h)
      (fun _ => ⟨hr, hc, hcount⟩)

/-- The brightness setter keeps a controller initialized. -/
theorem InitializedFrom.setMaxBrightness {c : MatrixController} {src : Nat → Nat}
    {rows cols : Nat} (h : InitializedFrom c src rows cols) (brightness : Nat) :
    InitializedFrom (c.setMaxBrightness brightness) src rows cols := by
  obtain ⟨h1, h2, _, h4, h5, h6, c0, pin, h7⟩ := h
  exact ⟨h1, h2, Nat.mod_lt _ (by decide), h4, h5, h6, c0, pin, h7⟩

theorem roundDense_initialized :
    InitializedFrom roundDense exampleTables.ROUND_MATRIX 12 12 :=
  (init_initialized exampleTables true 6).1.setMaxBrightness 128

theorem roundSparse_initialized :
    InitializedFrom roundSparse exampleTables.ROUND_MATRIX 12 12 :=
  (init_initialized exampleTables false 6).1.setMaxBrightness 128

set_option maxRecDepth 100000 in
/-- The concrete scenario of C2 where the code keeps it: with the table
`[[0, 1], [2, 255]]` given to `init(customMatrix, ...)` on the non-AVR build,
and with the example layout given to `init(ROUND, pin)` on the AVR build,
`maxBrightness = 128`, `setColor(10, 20, 30)` leaves `(5, 10, 15)` in the
elements 0, 1, 2 (the whole buffer), and the calls it makes are the three
writes to 0, 1, 2 and one flush. -/
theorem setColor_scenario :
    (exampleSparse.setColor 10 20 30).strip.pixels = [⟨5, 10, 15⟩, ⟨5, 10, 15⟩, ⟨5, 10, 15⟩]
      ∧ (roundDense.setColor 10 20 30).strip.pixels
          = [⟨5, 10, 15⟩, ⟨5, 10, 15⟩, ⟨5, 10, 15⟩]
      ∧ (exampleSparse.setColor 10 20 30).strip.calls.drop exampleSparse.strip.calls.length
          = [StripCall.setPixelColor 0 ⟨5, 10, 15⟩, StripCall.setPixelColor 1 ⟨5, 10, 15⟩,
             StripCall.setPixelColor 2 ⟨5, 10, 15⟩, StripCall.showCall]
      ∧ (roundDense.setColor 10 20 30).strip.calls.drop roundDense.strip.calls.length
          = [StripCall.setPixelColor 0 ⟨5, 10, 15⟩, StripCall.setPixelColor 1 ⟨5, 10, 15⟩,
             StripCall.setPixelColor 2 ⟨5, 10, 15⟩, StripCall.showCall] := by
  refine ⟨?_, ?_, ?_, ?_⟩ <;> decide

/-- The kept part of C2 at the concrete scenario, on the non-AVR build after
`init(customMatrix, ...)` and on the AVR build after `init(ROUND, pin)`. -/
theorem setColor_roundtrip_and_render_witness :
    InitializedFrom exampleSparse exampleTable 2 2
      ∧ (exampleSparse.setColor 10 20 30).getColor = ⟨10, 20, 30⟩
      ∧ (∀ p ∈ activeCells exampleTable 2 2,
          (exampleSparse.setColor 10 20 30).strip.pixels[cellAt exampleTable 2 p]?
            = some ⟨10 * exampleSparse.maxBrightness / 255,
                    20 * exampleSparse.maxBrightness / 255,
                    30 * exampleSparse.maxBrightness / 255⟩)
      ∧ (∀ p ∈ activeCells exampleTables.ROUND_MATRIX 12 12,
          (roundDense.setColor 10 20 30).strip.pixels[cellAt exampleTables.ROUND_MATRIX 12 p]?
            = some ⟨10 * roundDense.maxBrightness / 255,
                    20 * roundDense.maxBrightness / 255,
                    30 * roundDense.maxBrightness / 255⟩) :=
  ⟨exampleSparse_initialized,
   (setColor_roundtrip_and_render exampleSparse exampleTable 2 2
      exampleSparse_initialized 10 20 30 (by decide) (by decide) (by decide)).1,
   (setColor_roundtrip_and_render exampleSparse exampleTable 2 2
      exampleSparse_initialized 10 20 30 (by decide) (by decide) (by decide)).2.1,
   (setColor_roundtrip_and_render roundDense exampleTables.ROUND_MATRIX 12 12
      roundDense_initialized 10 20 30 (by decide) (by decide) (by decide)).2.1⟩

/-- C2, failing input: the AVR build, `init(customMatrix, 2, 2, pin)` with the
table `[[0, 1], [2, 255]]` of the scenario, `setMaxBrightness(128)`,
`setColor(10, 20, 30)`.  On that build `convertToSparse` and
`computeMatrixDimensions` are empty and `initStrip` does not size the strip,
so `init` retains no table (`matrixRows = matrixCols = 0`) and the strip has
no element.  `setColor` stores `(10, 20, 30)` and flushes, but its loop visits
no cell: it makes no write, and the elements 0, 1, 2 do not hold
`(5, 10, 15)`.  The same calls on the non-AVR build leave `(5, 10, 15)` in the
elements 0, 1, 2. -/
theorem C2_setColor_writes_nothing_after_avr_custom_init :
    customDense.avr = true
      ∧ customDense.matrixRows = 0
      ∧ customDense.matrixCols = 0
      ∧ customDense.maxBrightness = 128
      ∧ customDense.strip.pixels = []
      ∧ (customDense.setColor 10 20 30).getColor = ⟨10, 20, 30⟩
      ∧ (customDense.setColor 10 20 30).strip.calls
          = customDense.strip.calls ++ [StripCall.showCall]
      ∧ (customDense.setColor 10 20 30).strip.pixels = []
      ∧ (customDense.setColor 10 20 30).strip.pixels[0]? ≠ some ⟨5, 10, 15⟩
      ∧ (exampleSparse.setColor 10 20 30).strip.pixels
          = [⟨5, 10, 15⟩, ⟨5, 10, 15⟩, ⟨5, 10, 15⟩] := by
  refine ⟨?_, ?_, ?_, ?_, ?_, ?_, ?_, ?_, ?_, ?_⟩ <;> decide


/-! ## Single-pixel writes -/

/-- The lookup on an initialized controller, on either platform, for
coordinates that fit in a byte. -/
theorem getLedId_initialized {c : MatrixController} {src : Nat → Nat} {rows cols : Nat}
    (h : InitializedFrom c src rows cols) (x y : Nat) (hx : x < 256) (hy : y < 256) :
    c.getLedId x y
      = if x < cols ∧ y < rows ∧ cellAt src cols (x, y) ≠ 255
        then min 127 (cellAt src cols (x, y) : Int) else -1 := by
  have hX : toUInt8 (x : Int) = x := by unfold toUInt8; omega
  have hY : toUInt8 (y : Int) = y := by unfold toUInt8; omega
  have hrows : rows ≤ 256 := h.rows_le
  have hcols : cols ≤ 256 := h.cols_le
  unfold MatrixController.getLedId
  cases ha : c.avr with
  | true =>
    obtain ⟨h1, h2, h3, _, _⟩ := h.dense ha
    simp only [if_true, hX, hY, h1, h2, h3, cellAt]
    by_cases h1 : x < cols ∧ y < rows
    · have hg : (decide (x ≥ cols) || decide (y ≥ rows)) = false := by
        simp [h1.1, h1.2]
      rw [hg]
      simp only [Bool.false_eq_true, if_false, bne_iff_ne, ne_eq, h1.1, h1.2, true_and]
      by_cases h2 : src (y * cols + x) % 256 = 255
      · simp [h2]
      · simp only [h2, not_false_eq_true, if_true]
        exact wrapInt8_of_byte _
    · have hg : (decide (x ≥ cols) || decide (y ≥ rows)) = true := by
        simp only [Bool.or_eq_true, decide_eq_true_eq]; omega
      rw [hg, if_pos rfl, if_neg (fun h => h1 ⟨h.1, h.2.1⟩)]
  | false =>
    simp only [Bool.false_eq_true, if_false, hX, hY, h.sparse ha]
    unfold activeCells
    rw [find_entry src cols (cells rows cols) x y
      (fun p hp => by have := mem_cells.1 hp; omega)]
    simp only [mem_cells]
    by_cases h : (x < cols ∧ y < rows) ∧ cellAt src cols (x, y) ≠ 255
    · rw [if_pos h, if_pos ⟨h.1.1, h.1.2, h.2⟩]
      simp only [entryOf]
      exact wrapInt8_of_byte _
    · rw [if_neg h, if_neg (fun h2 => h ⟨⟨h2.1, h2.2.1⟩, h2.2.2⟩)]

/-- The part of C3 the code keeps: a coordinate pair that is negative, or
fits in a byte and is out of range or addresses an inactive cell, is absorbed:
`setPixelXY` returns the controller as it was, strip included. -/
theorem setPixelXY_absorbed {c : MatrixController} {src : Nat → Nat} {rows cols : Nat}
    (h : InitializedFrom c src rows cols) (x y : Int) (r g b : Nat)
    (hx : x < 256) (hy : y < 256)
    (hout : x < 0 ∨ y < 0 ∨ (cols : Int) ≤ x ∨ (rows : Int) ≤ y
      ∨ cellAt src cols (x.toNat, y.toNat) = 255) :
    c.setPixelXY x y r g b = c := by
  unfold MatrixController.setPixelXY
  by_cases hneg : x < 0 ∨ y < 0
  · have : (decide (x < 0) || decide (y < 0)) = true := by
      simpa [Bool.or_eq_true, decide_eq_true_eq] using hneg
    rw [if_pos this]
  · have hg : (decide (x < 0) || decide (y < 0)) = false := by
      simp only [Bool.or_eq_false_iff, decide_eq_false_iff_not]; omega
    rw [hg]
    simp only [Bool.false_eq_true, if_false]
    have hx0 : x = (x.toNat : Int) := by omega
    have hy0 : y = (y.toNat : Int) := by omega
    have hl : c.getLedId x y = -1 := by
      rw [hx0, hy0, getLedId_initialized h x.toNat y.toNat (by omega) (by omega)]
      rw [if_neg]
      rintro ⟨h1, h2, h3⟩
      rcases hout with h | h | h | h | h
      · omega
      · omega
      · omega
      · omega
      · exact h3 h
    rw [hl]
    simp

theorem setPixelXY_absorbed_witness :
    exampleSparse.setPixelXY 1 1 10 20 30 = exampleSparse
      ∧ exampleSparse.setPixelXY 2 0 10 20 30 = exampleSparse
      ∧ exampleDense.setPixelXY (-1) 0 10 20 30 = exampleDense :=
  ⟨setPixelXY_absorbed exampleSparse_initialized 1 1 10 20 30 (by decide) (by decide)
      (Or.inr (Or.inr (Or.inr (Or.inr (by decide))))),
   setPixelXY_absorbed exampleSparse_initialized 2 0 10 20 30 (by decide) (by decide)
      (Or.inr (Or.inr (Or.inl (by decide)))),
   setPixelXY_absorbed exampleDense_initialized (-1) 0 10 20 30 (by decide) (by decide)
      (Or.inl (by decide))⟩

/-- C3, failing input: on the 2 x 2 table `[[0, 1], [2, 255]]` the call
`setPixelXY(256, 0, 10, 20, 30)` has `x = 256 >= cols = 2`, yet it writes
element 0 on both platforms: `getLedId` takes `uint8_t` arguments, so the
coordinate 256 arrives there as 0.  The same holds for `y = 256`. -/
theorem C3_setPixelXY_out_of_range_writes :
    exampleSparse.strip.pixels = [⟨0, 0, 0⟩, ⟨0, 0, 0⟩, ⟨0, 0, 0⟩]
      ∧ (exampleSparse.setPixelXY 256 0 10 20 30).strip.pixels
          = [⟨5, 10, 15⟩, ⟨0, 0, 0⟩, ⟨0, 0, 0⟩]
      ∧ exampleDense.strip.pixels = [⟨0, 0, 0⟩, ⟨0, 0, 0⟩, ⟨0, 0, 0⟩]
      ∧ (exampleDense.setPixelXY 256 0 10 20 30).strip.pixels
          = [⟨5, 10, 15⟩, ⟨0, 0, 0⟩, ⟨0, 0, 0⟩]
      ∧ (exampleSparse.setPixelXY 0 256 10 20 30).strip.pixels
          = [⟨5, 10, 15⟩, ⟨0, 0, 0⟩, ⟨0, 0, 0⟩]
      ∧ (exampleDense.setPixelXY 0 256 10 20 30).strip.pixels
          = [⟨5, 10, 15⟩, ⟨0, 0, 0⟩, ⟨0, 0, 0⟩] := by
  refine ⟨?_, ?_, ?_, ?_, ?_, ?_⟩ <;> decide

set_option maxRecDepth 100000 in
/-- C4, counterexample: the non-AVR build initialized by
`init(customMatrix, 1, 257, pin)` from the table `wideTable`, where the cell
`(0, 0)` holds the index 0 and the cell `(256, 0)` holds the index 1.  The pair
`(256, 0)` is in range (`256 < 257`) and its cell holds `1 != 255`, but the
entries store coordinates in `uint8_t` fields and `getLedId` takes `uint8_t`
arguments: `setPixelXY(256, 0, 10, 20, 30)` looks up `(0, 0)` and writes the
element 0; the element `min(127, 1) = 1` is not written. -/
theorem C4_setPixelXY_wide_table_writes_other_element :
    (256, 0) ∈ activeCells wideTable 1 257
      ∧ min 127 (cellAt wideTable 257 (256, 0)) = 1
      ∧ wideSparse.entries = [⟨0, 0, 0⟩, ⟨0, 0, 1⟩]
      ∧ wideSparse.strip.pixels = [⟨0, 0, 0⟩, ⟨0, 0, 0⟩]
      ∧ (wideSparse.setPixelXY 256 0 10 20 30).strip.pixels = [⟨10, 20, 30⟩, ⟨0, 0, 0⟩]
      ∧ (wideSparse.setPixelXY 256 0 10 20 30).strip.pixels[1]? ≠ some ⟨10, 20, 30⟩
      ∧ (wideSparse.setPixelXY 256 0 10 20 30).strip.pixels[0]? ≠ wideSparse.strip.pixels[0]? := by
  refine ⟨?_, ?_, ?_, ?_, ?_, ?_, ?_⟩ <;> decide

/-- C4 as amended: on every controller initialized from a table of at most
256 rows and 256 columns, by `init(type, pin)` on either build or by
`init(customMatrix, ...)` on the non-AVR build, the table having at most 255
active cells on the non-AVR build (`InitializedFrom`), for every in-range
`(x, y)` whose cell holds `id != 255`, `setPixelXY(x, y, r, g, b)` makes
exactly one call to the strip, a write of `(r * maxBrightness / 255,
g * maxBrightness / 255, b * maxBrightness / 255)` at index `min(127, id)`,
which lies inside the buffer: afterwards that entry holds the scaled color,
every other entry is unchanged, `currentColor` and `maxBrightness` are
unchanged and the number of flushes is unchanged. -/
theorem C4_setPixelXY_frame (c : MatrixController) (src : Nat → Nat) (rows cols : Nat)
    (h : InitializedFrom c src rows cols) (x y : Int) (r g b : Nat)
    (hr : r < 256) (hg : g < 256) (hb : b < 256)
    (hx0 : 0 ≤ x) (hx : x < cols) (hy0 : 0 ≤ y) (hy : y < rows)
    (hid : cellAt src cols (x.toNat, y.toNat) ≠ 255) :
    min 127 (cellAt src cols (x.toNat, y.toNat)) < c.strip.pixels.length
      ∧ (c.setPixelXY x y r g b).strip.pixels[min 127 (cellAt src cols (x.toNat, y.toNat))]?
          = some ⟨r * c.maxBrightness / 255, g * c.maxBrightness / 255,
                  b * c.maxBrightness / 255⟩
      ∧ (∀ j, j ≠ min 127 (cellAt src cols (x.toNat, y.toNat)) →
          (c.setPixelXY x y r g b).strip.pixels[j]? = c.strip.pixels[j]?)
      ∧ (c.setPixelXY x y r g b).strip.calls
          = c.strip.calls ++ [StripCall.setPixelColor
              (min 127 (cellAt src cols (x.toNat, y.toNat)))
              ⟨r * c.maxBrightness / 255, g * c.maxBrightness / 255,
               b * c.maxBrightness / 255⟩]
      ∧ (c.setPixelXY x y r g b).currentColor = c.currentColor
      ∧ (c.setPixelXY x y r g b).maxBrightness = c.maxBrightness
      ∧ (c.setPixelXY x y r g b).strip.flushes = c.strip.flushes := by
  have hm : c.maxBrightness < 256 := h.brightness_lt
  have hrows : rows ≤ 256 := h.rows_le
  have hcols : cols ≤ 256 := h.cols_le
  have hxn : x = (x.toNat : Int) := by omega
  have hyn : y = (y.toNat : Int) := by omega
  have hmem : (x.toNat, y.toNat) ∈ activeCells src rows cols :=
    mem_activeCells.2 ⟨by simp only; omega, by simp only; omega, hid⟩
  have hlt := h.id_lt hmem
  have hidx : min 127 (cellAt src cols (x.toNat, y.toNat)) < c.strip.pixels.length := by omega
  have hl : c.getLedId x y = ((min 127 (cellAt src cols (x.toNat, y.toNat)) : Nat) : Int) := by
    rw [hxn, hyn, getLedId_initialized h x.toNat y.toNat (by omega) (by omega)]
    simp only [Int.toNat_ofNat]
    rw [if_pos ⟨by omega, by omega, hid⟩]
    omega
  have hg0 : (decide (x < 0) || decide (y < 0)) = false := by
    simp only [Bool.or_eq_false_iff, decide_eq_false_iff_not]; omega
  have hstep : c.setPixelXY x y r g b
      = { c with strip := (c.strip.setPixelColor
            (min 127 (cellAt src cols (x.toNat, y.toNat)))
            (RGB.mk (r * c.maxBrightness / 255) (g * c.maxBrightness / 255)
              (b * c.maxBrightness / 255))) } := by
    unfold MatrixController.setPixelXY
    rw [hg0]
    simp only [Bool.false_eq_true, if_false, hl, Int.toNat_ofNat, Nat.mod_eq_of_lt hr,
      Nat.mod_eq_of_lt hg, Nat.mod_eq_of_lt hb, scale_eq hr hm, scale_eq hg hm, scale_eq hb hm]
    rw [if_pos (by omega)]
  rw [hstep]
  refine ⟨hidx, ?_, ?_, ?_, rfl, rfl, ?_⟩
  · simp [Strip.setPixelColor, hidx]
  · intro j hj
    simp only [Strip.setPixelColor, hidx, if_true]
    rw [List.getElem?_set_ne (fun h => hj h.symm)]
  · rfl
  · simp [Strip.setPixelColor, Strip.flushes, List.count_append]

/-- C4 as amended at the cell `(0, 1)` (physical index 2), `maxBrightness =
128`, color `(10, 20, 30)`: on the non-AVR build after `init(customMatrix,
2, 2, pin)` with the table `[[0, 1], [2, 255]]`, and on the AVR build after
`init(ROUND, pin)` with the example layout. -/
theorem C4_setPixelXY_frame_witness :
    InitializedFrom exampleSparse exampleTable 2 2
      ∧ InitializedFrom roundDense exampleTables.ROUND_MATRIX 12 12
      ∧ (exampleSparse.setPixelXY 0 1 10 20 30).strip.pixels[2]? = some ⟨5, 10, 15⟩
      ∧ (exampleSparse.setPixelXY 0 1 10 20 30).strip.flushes = exampleSparse.strip.flushes
      ∧ (roundDense.setPixelXY 0 1 10 20 30).strip.pixels[2]? = some ⟨5, 10, 15⟩
      ∧ (roundDense.setPixelXY 0 1 10 20 30).strip.flushes = roundDense.strip.flushes :=
  ⟨exampleSparse_initialized, roundDense_initialized,
   (C4_setPixelXY_frame exampleSparse exampleTable 2 2 exampleSparse_initialized 0 1 10 20 30
      (by decide) (by decide) (by decide) (by decide) (by decide) (by decide) (by decide)
      (by decide)).2.1,
   (C4_setPixelXY_frame exampleSparse exampleTable 2 2 exampleSparse_initialized 0 1 10 20 30
      (by decide) (by decide) (by decide) (by decide) (by decide) (by decide) (by decide)
      (by decide)).2.2.2.2.2.2,
   (C4_setPixelXY_frame roundDense exampleTables.ROUND_MATRIX 12 12 roundDense_initialized
      0 1 10 20 30 (by decide) (by decide) (by decide) (by decide) (by decide) (by decide)
      (by decide) (by decide)).2.1,
   (C4_setPixelXY_frame roundDense exampleTables.ROUND_MATRIX 12 12 roundDense_initialized
      0 1 10 20 30 (by decide) (by decide) (by decide) (by decide) (by decide) (by decide)
      (by decide) (by decide)).2.2.2.2.2.2⟩


/-! ## Bounding box and images -/

theorem scanBounds_aux (l : List LedMapping) (st : Int × Int × Int × Int) :
    (l.foldl (fun (st : Int × Int × Int × Int) m =>
        (min st.1 (m.x : Int), max st.2.1 (m.x : Int),
         min st.2.2.1 (m.y : Int), max st.2.2.2 (m.y : Int))) st).1 ≤ st.1
      ∧ st.2.1 ≤ (l.foldl (fun (st : Int × Int × Int × Int) m =>
        (min st.1 (m.x : Int), max st.2.1 (m.x : Int),
         min st.2.2.1 (m.y : Int), max st.2.2.2 (m.y : Int))) st).2.1
      ∧ (l.foldl (fun (st : Int × Int × Int × Int) m =>
        (min st.1 (m.x : Int), max st.2.1 (m.x : Int),
         min st.2.2.1 (m.y : Int), max st.2.2.2 (m.y : Int))) st).2.2.1 ≤ st.2.2.1
      ∧ st.2.2.2 ≤ (l.foldl (fun (st : Int × Int × Int × Int) m =>
        (min st.1 (m.x : Int), max st.2.1 (m.x : Int),
         min st.2.2.1 (m.y : Int), max st.2.2.2 (m.y : Int))) st).2.2.2
      ∧ ∀ m ∈ l,
        (l.foldl (fun (st : Int × Int × Int × Int) m =>
          (min st.1 (m.x : Int), max st.2.1 (m.x : Int),
           min st.2.2.1 (m.y : Int), max st.2.2.2 (m.y : Int))) st).1 ≤ (m.x : Int)
        ∧ (m.x : Int) ≤ (l.foldl (fun (st : Int × Int × Int × Int) m =>
          (min st.1 (m.x : Int), max st.2.1 (m.x : Int),
           min st.2.2.1 (m.y : Int), max st.2.2.2 (m.y : Int))) st).2.1
        ∧ (l.foldl (fun (st : Int × Int × Int × Int) m =>
          (min st.1 (m.x : Int), max st.2.1 (m.x : Int),
           min st.2.2.1 (m.y : Int), max st.2.2.2 (m.y : Int))) st).2.2.1 ≤ (m.y : Int)
        ∧ (m.y : Int) ≤ (l.foldl (fun (st : Int × Int × Int × Int) m =>
          (min st.1 (m.x : Int), max st.2.1 (m.x : Int),
           min st.2.2.1 (m.y : Int), max st.2.2.2 (m.y : Int))) st).2.2.2 := by
  induction l generalizing st with
  | nil => simp
  | cons a l ih =>
    simp only [List.foldl_cons, List.mem_cons]
    obtain ⟨h1, h2, h3, h4, h5⟩ := ih (min st.1 (a.x : Int), max st.2.1 (a.x : Int),
      min st.2.2.1 (a.y : Int), max st.2.2.2 (a.y : Int))
    simp only at h1 h2 h3 h4
    refine ⟨by omega, by omega, by omega, by omega, ?_⟩
    rintro m (rfl | hm)
    · omega
    · exact h5 m hm

/-- Every entry lies between the bounds the scan finds. -/
theorem scanBounds_mem {l : List LedMapping} {m : LedMapping} (hm : m ∈ l) :
    (MatrixController.scanBounds l).1 ≤ (m.x : Int) ∧ (m.x : Int) ≤ (MatrixController.scanBounds l).2.1
      ∧ (MatrixController.scanBounds l).2.2.1 ≤ (m.y : Int) ∧ (m.y : Int) ≤ (MatrixController.scanBounds l).2.2.2 :=
  (scanBounds_aux l (255, 0, 255, 0)).2.2.2.2 m hm

/-- The bounding box of an initialized controller with an active cell has
positive width and height. -/
theorem InitializedFrom.size_pos {c : MatrixController} {src : Nat → Nat}
    {rows cols : Nat} (h : InitializedFrom c src rows cols) {p : Nat × Nat}
    (hp : p ∈ activeCells src rows cols) : 1 ≤ c.actualWidth ∧ 1 ≤ c.actualHeight := by
  cases ha : c.avr with
  | true =>
    obtain ⟨_, _, _, h4, h5⟩ := h.dense ha
    have := mem_activeCells.1 hp
    omega
  | false =>
    have hcount := h.count_le ha
    obtain ⟨_, _, _, _, _, _, c0, pin, h0, _, _, _, _, _, h6, h7, _⟩ := h
    rw [ha] at h0
    have he := entries_initCustom c0 h0 src rows cols pin hcount
    rw [initFrom_eq_initCustom c0 h0] at h6 h7
    have hw : (c0.initCustom src rows cols pin).actualWidth
        = (MatrixController.scanBounds (c0.initCustom src rows cols pin).entries).2.1
          - (MatrixController.scanBounds (c0.initCustom src rows cols pin).entries).1 + 1 := by
      simp [MatrixController.initCustom, MatrixController.initStrip,
        MatrixController.computeMatrixDimensions, MatrixController.convertToSparse,
        MatrixController.entries, h0]
    have hh : (c0.initCustom src rows cols pin).actualHeight
        = (MatrixController.scanBounds (c0.initCustom src rows cols pin).entries).2.2.2
          - (MatrixController.scanBounds (c0.initCustom src rows cols pin).entries).2.2.1 + 1 := by
      simp [MatrixController.initCustom, MatrixController.initStrip,
        MatrixController.computeMatrixDimensions, MatrixController.convertToSparse,
        MatrixController.entries, h0]
    rw [h6, h7, hw, hh, he]
    have := scanBounds_mem (List.mem_map.2 ⟨p, hp, rfl⟩ :
      entryOf src cols p ∈ (activeCells src rows cols).map (entryOf src cols))
    omega

/-- The loop of `displayImage` over the active elements, on either platform:
one write per active cell the image lights, in scan order, after the clear and
before the flush. -/
theorem displayImage_strip {c : MatrixController} {src : Nat → Nat} {rows cols : Nat}
    (h : InitializedFrom c src rows cols) (image : Nat → Bool) (imageRows imageCols : Int) :
    (c.displayImage image imageRows imageCols).strip
      = ((((activeCells src rows cols).filter (fun p =>
            MatrixController.shouldLight image imageRows imageCols
              (MatrixController.centerOffset c.actualWidth imageCols)
              (MatrixController.centerOffset c.actualHeight imageRows) p.1 p.2)).map
            (cellAt src cols)).foldl
          (fun s i => s.setPixelColor i
            ⟨MatrixController.scale c.currentColor.r c.maxBrightness,
             MatrixController.scale c.currentColor.g c.maxBrightness,
             MatrixController.scale c.currentColor.b c.maxBrightness⟩) c.strip.clear).showPixels := by
  have hrows : rows ≤ 256 := h.rows_le
  have hcols : cols ≤ 256 := h.cols_le
  have key : ∀ (l : List (Nat × Nat)) (s : Strip) (lit : Nat × Nat → Bool) (col : RGB),
      l.foldl (fun s p => if lit p = true then s.setPixelColor (cellAt src cols p) col else s) s
        = ((l.filter lit).map (cellAt src cols)).foldl (fun s i => s.setPixelColor i col) s := by
    intro l s lit col
    induction l generalizing s with
    | nil => rfl
    | cons p l ih =>
      simp only [List.foldl_cons, List.filter_cons]
      by_cases hl : lit p = true
      · simp only [hl, if_true, List.map_cons, List.foldl_cons]
        exact ih _
      · simp only [hl, if_false]
        exact ih _
  cases ha : c.avr with
  | true =>
    obtain ⟨h1, h2, h3, _, _⟩ := h.dense ha
    simp only [MatrixController.displayImage, ha, if_true, h1, h2, h3]
    rw [forLoop_nested rows cols (fun x y (strip : Strip) =>
      if (src (y * cols + x) % 256 != 255) = true then
        if MatrixController.shouldLight image imageRows imageCols
            (MatrixController.centerOffset c.actualWidth imageCols)
            (MatrixController.centerOffset c.actualHeight imageRows) x y = true then
          strip.setPixelColor (src (y * cols + x) % 256)
            ⟨MatrixController.scale c.currentColor.r c.maxBrightness,
             MatrixController.scale c.currentColor.g c.maxBrightness,
             MatrixController.scale c.currentColor.b c.maxBrightness⟩
        else strip
      else strip)]
    rw [foldl_active src cols (cells rows cols) (fun p (strip : Strip) =>
        if MatrixController.shouldLight image imageRows imageCols
            (MatrixController.centerOffset c.actualWidth imageCols)
            (MatrixController.centerOffset c.actualHeight imageRows) p.1 p.2 = true then
          strip.setPixelColor (src (p.2 * cols + p.1) % 256)
            ⟨MatrixController.scale c.currentColor.r c.maxBrightness,
             MatrixController.scale c.currentColor.g c.maxBrightness,
             MatrixController.scale c.currentColor.b c.maxBrightness⟩
        else strip)]
    rw [← key]
    rfl
  | false =>
    have hmap : (activeCells src rows cols).map (entryOf src cols)
        = (activeCells src rows cols).map
            (fun p => ({ x := p.1, y := p.2, ledId := cellAt src cols p } : LedMapping)) := by
      apply List.map_congr_left
      intro p hp
      have := mem_activeCells.1 hp
      simp only [entryOf]
      rw [Nat.mod_eq_of_lt (by omega), Nat.mod_eq_of_lt (by omega)]
    simp only [MatrixController.displayImage, ha, Bool.false_eq_true, if_false, h.sparse ha,
      hmap]
    rw [List.foldl_map, ← key]


theorem centerOffset_floor {W c : Int} (hW : 0 ≤ W) (hc : 0 ≤ c) :
    MatrixController.centerOffset W c = W / 2 - c / 2 := by
  simp only [MatrixController.centerOffset]
  rw [Int.tdiv_eq_ediv hW (by decide), Int.tdiv_eq_ediv hc (by decide)]

theorem shouldLight_eq_specLit (image : Nat → Bool) {imageRows imageCols W H : Int}
    (hR : 0 ≤ imageRows) (hC : 0 ≤ imageCols) (hW : 0 ≤ W) (hH : 0 ≤ H) (x y : Nat) :
    MatrixController.shouldLight image imageRows imageCols
        (MatrixController.centerOffset W imageCols)
        (MatrixController.centerOffset H imageRows) x y
      = specLit image imageRows imageCols W H x y := by
  rw [centerOffset_floor hW hC, centerOffset_floor hH hR]
  simp only [MatrixController.shouldLight, specLit]
  by_cases h : 0 ≤ (x : Int) - (W / 2 - imageCols / 2)
      ∧ (x : Int) - (W / 2 - imageCols / 2) < imageCols
      ∧ 0 ≤ (y : Int) - (H / 2 - imageRows / 2)
      ∧ (y : Int) - (H / 2 - imageRows / 2) < imageRows
  · simp [h.1, h.2.1, h.2.2.1, h.2.2.2]
  · have : (decide ((x : Int) - (W / 2 - imageCols / 2) ≥ 0)
          && decide ((x : Int) - (W / 2 - imageCols / 2) < imageCols)
          && decide ((y : Int) - (H / 2 - imageRows / 2) ≥ 0)
          && decide ((y : Int) - (H / 2 - imageRows / 2) < imageRows)) = false := by
      rw [Bool.eq_false_iff]
      intro hh
      simp only [Bool.and_eq_true, decide_eq_true_eq, ge_iff_le] at hh
      exact h ⟨hh.1.1.1, hh.1.1.2, hh.1.2, hh.2⟩
    rw [this, decide_eq_false h]
    rfl

theorem InitializedFrom.with_color {c : MatrixController} {src : Nat → Nat}
    {rows cols : Nat} (h : InitializedFrom c src rows cols) (r g b : Nat)
    (hr : r < 256) (hg : g < 256) (hb : b < 256) :
    InitializedFrom { c with currentColor := ⟨r, g, b⟩ } src rows cols := by
  obtain ⟨h1, h2, h3, _, _, _, c0, pin, h5⟩ := h
  exact ⟨h1, h2, h3, hr, hg, hb, c0, pin, h5⟩

/-- The element of an active cell after `displayImage`, for distinct
physical indices. -/
theorem displayImage_pixel {c : MatrixController} {src : Nat → Nat} {rows cols : Nat}
    (h : InitializedFrom c src rows cols)
    (hdist : ((activeCells src rows cols).map (cellAt src cols)).Nodup)
    (image : Nat → Bool) (imageRows imageCols : Int)
    (hR : 0 ≤ imageRows) (hC : 0 ≤ imageCols)
    (p : Nat × Nat) (hp : p ∈ activeCells src rows cols) :
    (c.displayImage image imageRows imageCols).strip.pixels[cellAt src cols p]?
      = some (if specLit image imageRows imageCols c.actualWidth c.actualHeight p.1 p.2 = true
          then ⟨c.currentColor.r * c.maxBrightness / 255,
                c.currentColor.g * c.maxBrightness / 255,
                c.currentColor.b * c.maxBrightness / 255⟩
          else ⟨0, 0, 0⟩) := by
  obtain ⟨hw, hh⟩ := h.size_pos hp
  have hm : c.maxBrightness < 256 := h.brightness_lt
  have hcr : c.currentColor.r < 256 := h.2.2.2.1
  have hcg : c.currentColor.g < 256 := h.2.2.2.2.1
  have hcb : c.currentColor.b < 256 := h.2.2.2.2.2.1
  have hlt := h.id_lt hp
  rw [displayImage_strip h]
  simp only [Strip.showPixels, writes_pixels, scale_eq hcr hm, scale_eq hcg hm,
    scale_eq hcb hm]
  have hclear : c.strip.clear.pixels = List.replicate c.strip.pixels.length ⟨0, 0, 0⟩ := rfl
  have hmem : cellAt src cols p ∈ ((activeCells src rows cols).filter (fun p =>
        MatrixController.shouldLight image imageRows imageCols
          (MatrixController.centerOffset c.actualWidth imageCols)
          (MatrixController.centerOffset c.actualHeight imageRows) p.1 p.2)).map
        (cellAt src cols)
      ↔ specLit image imageRows imageCols c.actualWidth c.actualHeight p.1 p.2 = true := by
    rw [← shouldLight_eq_specLit image hR hC (by omega) (by omega)]
    constructor
    · intro hq
      obtain ⟨q, hq1, hq2⟩ := List.mem_map.1 hq
      obtain ⟨hq3, hq4⟩ := List.mem_filter.1 hq1
      have : q = p := List.inj_on_of_nodup_map hdist hq3 hp hq2
      rw [← this]; exact hq4
    · intro hl
      exact List.mem_map.2 ⟨p, List.mem_filter.2 ⟨hp, hl⟩, rfl⟩
  by_cases hl : specLit image imageRows imageCols c.actualWidth c.actualHeight p.1 p.2 = true
  · rw [if_pos ⟨hmem.2 hl, by rw [hclear, List.length_replicate]; exact hlt⟩, if_pos hl]
  · rw [if_neg (fun hh => hl (hmem.1 hh.1)), if_neg hl, hclear]
    simp [hlt]

set_option maxRecDepth 100000 in
/-- C5, counterexample: the non-AVR build initialized by
`init(customMatrix, 1, 257, pin)` from the table `wideTable`, whose two active
cells `(0, 0)` and `(256, 0)` have the distinct indices 0 and 1.  The entries
store coordinates in `uint8_t` fields, so the cell `(256, 0)` is entered as
`(0, 0)` and the bounding box is 1 x 1.  With the 1 x 1 mask `[true]` the
offsets are 0 and `(256 - 0, 0 - 0)` lies outside the mask, so the rule leaves
the element of the cell `(256, 0)` unlit; `setImage` lights it. -/
theorem C5_setImage_wide_table_lights_outside_mask :
    activeCells wideTable 1 257 = [(0, 0), (256, 0)]
      ∧ ((activeCells wideTable 1 257).map (cellAt wideTable 257)).Nodup
      ∧ cellAt wideTable 257 (256, 0) = 1
      ∧ wideSparse.actualWidth = 1
      ∧ wideSparse.actualHeight = 1
      ∧ specLit fullMask 1 1 wideSparse.actualWidth wideSparse.actualHeight 256 0 = false
      ∧ (wideSparse.setImageColor fullMask 1 1 10 20 30).strip.pixels
          = [⟨10, 20, 30⟩, ⟨10, 20, 30⟩]
      ∧ (wideSparse.setImageColor fullMask 1 1 10 20 30).strip.pixels[1]?
          ≠ some ⟨0, 0, 0⟩ := by
  refine ⟨?_, ?_, ?_, ?_, ?_, ?_, ?_, ?_⟩ <;> decide

/-- C5 as amended: on every controller initialized from a table of at most
256 rows and 256 columns, by `init(type, pin)` on either build or by
`init(customMatrix, ...)` on the non-AVR build, the table having at most 255
active cells on the non-AVR build (`InitializedFrom`), whose active cells have
pairwise distinct physical indices, for every mask with non-negative row and
column counts, after `setImage` the element of each active cell `(x, y)` holds the
brightness-scaled current color if `(x - offsetX, y - offsetY)` lies inside
the mask and the mask is true there (`offsetX = floor(width / 2) -
floor(maskCols / 2)`, `offsetY` analogous) and `(0, 0, 0)` otherwise, and the
current color is unchanged; with the color overload the current color
becomes the supplied `(r, g, b)` and it is that color, scaled, that lights
the elements. -/
theorem C5_setImage_render (c : MatrixController) (src : Nat → Nat) (rows cols : Nat)
    (h : InitializedFrom c src rows cols)
    (hdist : ((activeCells src rows cols).map (cellAt src cols)).Nodup)
    (image : Nat → Bool) (imageRows imageCols : Int)
    (hR : 0 ≤ imageRows) (hC : 0 ≤ imageCols)
    (r g b : Nat) (hr : r < 256) (hg : g < 256) (hb : b < 256)
    (p : Nat × Nat) (hp : p ∈ activeCells src rows cols) :
    (c.setImage image imageRows imageCols).strip.pixels[cellAt src cols p]?
        = some (if specLit image imageRows imageCols c.actualWidth c.actualHeight p.1 p.2 = true
            then ⟨c.currentColor.r * c.maxBrightness / 255,
                  c.currentColor.g * c.maxBrightness / 255,
                  c.currentColor.b * c.maxBrightness / 255⟩
            else ⟨0, 0, 0⟩)
      ∧ (c.setImage image imageRows imageCols).currentColor = c.currentColor
      ∧ (c.setImageColor image imageRows imageCols r g b).strip.pixels[cellAt src cols p]?
        = some (if specLit image imageRows imageCols c.actualWidth c.actualHeight p.1 p.2 = true
            then ⟨r * c.maxBrightness / 255, g * c.maxBrightness / 255,
                  b * c.maxBrightness / 255⟩
            else ⟨0, 0, 0⟩)
      ∧ (c.setImageColor image imageRows imageCols r g b).currentColor = ⟨r, g, b⟩ := by
  refine ⟨displayImage_pixel h hdist image imageRows imageCols hR hC p hp, rfl, ?_, ?_⟩
  · have := displayImage_pixel (h.with_color r g b hr hg hb) hdist image imageRows imageCols
      hR hC p hp
    simpa [MatrixController.setImageColor, Nat.mod_eq_of_lt hr, Nat.mod_eq_of_lt hg,
      Nat.mod_eq_of_lt hb] using this
  · simp [MatrixController.setImageColor, MatrixController.displayImage,
      Nat.mod_eq_of_lt hr, Nat.mod_eq_of_lt hg, Nat.mod_eq_of_lt hb]

set_option maxRecDepth 100000 in
/-- C5 as amended at the table `[[0, 1], [2, 255]]` given to
`init(customMatrix, ...)` on the non-AVR build, with the 1 x 2 mask
`[true, false]` (offsets `(0, 1)`): the element of cell `(0, 1)`, physical
index 2, is lit.  On the AVR build after `init(ROUND, pin)` with the example
layout (width and height 12, offsets `(5, 6)`) the same mask leaves the
element of cell `(1, 0)` unlit. -/
theorem C5_setImage_render_witness :
    InitializedFrom exampleSparse exampleTable 2 2
      ∧ InitializedFrom roundDense exampleTables.ROUND_MATRIX 12 12
      ∧ (roundDense.setImage exampleMask 1 2).strip.pixels[
            cellAt exampleTables.ROUND_MATRIX 12 (1, 0)]?
        = some (if specLit exampleMask 1 2 roundDense.actualWidth
                    roundDense.actualHeight 1 0 = true
            then ⟨roundDense.currentColor.r * roundDense.maxBrightness / 255,
                  roundDense.currentColor.g * roundDense.maxBrightness / 255,
                  roundDense.currentColor.b * roundDense.maxBrightness / 255⟩
            else ⟨0, 0, 0⟩)
      ∧ (exampleSparse.setImage exampleMask 1 2).strip.pixels[cellAt exampleTable 2 (0, 1)]?
        = some (if specLit exampleMask 1 2 exampleSparse.actualWidth
                    exampleSparse.actualHeight 0 1 = true
            then ⟨exampleSparse.currentColor.r * exampleSparse.maxBrightness / 255,
                  exampleSparse.currentColor.g * exampleSparse.maxBrightness / 255,
                  exampleSparse.currentColor.b * exampleSparse.maxBrightness / 255⟩
            else ⟨0, 0, 0⟩)
      ∧ (exampleSparse.setImageColor exampleMask 1 2 10 20 30).currentColor = ⟨10, 20, 30⟩ :=
  ⟨exampleSparse_initialized, roundDense_initialized,
   (C5_setImage_render roundDense exampleTables.ROUND_MATRIX 12 12 roundDense_initialized
      (by decide) exampleMask 1 2 (by decide) (by decide) 10 20 30 (by decide) (by decide)
      (by decide) (1, 0) (by decide)).1,
   (C5_setImage_render exampleSparse exampleTable 2 2 exampleSparse_initialized (by decide)
      exampleMask 1 2 (by decide) (by decide) 10 20 30 (by decide) (by decide) (by decide)
      (0, 1) (by decide)).1,
   (C5_setImage_render exampleSparse exampleTable 2 2 exampleSparse_initialized (by decide)
      exampleMask 1 2 (by decide) (by decide) 10 20 30 (by decide) (by decide) (by decide)
      (0, 1) (by decide)).2.2.2⟩

set_option maxRecDepth 100000 in
/-- The frames `setImage` produces in the scenario of the witness of C5: on
the non-AVR build only element 2 (cell `(0, 1)`) is lit, with `(5, 10, 15)`;
on the AVR build after `init(ROUND, pin)` the mask is centred in the 12 x 12
layout and lights none of the three elements. -/
theorem setImage_scenario :
    (exampleSparse.setImageColor exampleMask 1 2 10 20 30).strip.pixels
        = [⟨0, 0, 0⟩, ⟨0, 0, 0⟩, ⟨5, 10, 15⟩]
      ∧ (roundDense.setImageColor exampleMask 1 2 10 20 30).strip.pixels
        = [⟨0, 0, 0⟩, ⟨0, 0, 0⟩, ⟨0, 0, 0⟩] := by
  refine ⟨?_, ?_⟩ <;> decide

/-- C6: for a matrix width `W >= 1` and a mask column count `c` with
`1 <= c <= W`, the offset `displayImage` and `blendToImage` compute equals
`floor(W / 2) - floor(c / 2)`, satisfies `0 <= offset` and `offset + c <= W`,
and the left margin `offset` and the right margin `W - offset - c` differ by
at most 1.  Rows and height go through the same function. -/
theorem C6_centering_offset (W c : Int) (hW : 1 ≤ W) (hc1 : 1 ≤ c) (hcW : c ≤ W) :
    MatrixController.centerOffset W c = W / 2 - c / 2
      ∧ 0 ≤ MatrixController.centerOffset W c
      ∧ MatrixController.centerOffset W c + c ≤ W
      ∧ MatrixController.centerOffset W c - (W - MatrixController.centerOffset W c - c) ≤ 1
      ∧ (W - MatrixController.centerOffset W c - c) - MatrixController.centerOffset W c ≤ 1 := by
  rw [centerOffset_floor (by omega) (by omega)]
  refine ⟨rfl, ?_, ?_, ?_, ?_⟩ <;> omega

/-- C6 at width 5 and a mask of 2 columns: offset 1, margins 1 and 2. -/
theorem C6_centering_offset_witness :
    MatrixController.centerOffset 5 2 = 5 / 2 - 2 / 2
      ∧ 0 ≤ MatrixController.centerOffset 5 2
      ∧ MatrixController.centerOffset 5 2 + 2 ≤ 5
      ∧ MatrixController.centerOffset 5 2 - (5 - MatrixController.centerOffset 5 2 - 2) ≤ 1
      ∧ (5 - MatrixController.centerOffset 5 2 - 2) - MatrixController.centerOffset 5 2 ≤ 1 :=
  C6_centering_offset 5 2 (by decide) (by decide) (by decide)


/-! ## The blend engine -/

theorem forLoop_succ {σ : Type} (n : Nat) (body : Nat → σ → σ) (s : σ) :
    forLoop (n + 1) body s = body n (forLoop n body s) := by
  simp [forLoop, List.range_succ, List.foldl_append]

/-- A loop whose body keeps the length of the array keeps it. -/
theorem forLoop_length {α : Type} (n : Nat) (body : Nat → List α → List α)
    (hbody : ∀ i l, (body i l).length = l.length) (l : List α) :
    (forLoop n body l).length = l.length := by
  induction n with
  | zero => rfl
  | succ n ih => rw [forLoop_succ, hbody, ih]

/-- A loop that rewrites the elements `0, ..., n - 1` of an array in place,
each from its own old value. -/
theorem forLoop_set {α : Type} (n : Nat) (f : Nat → α → α) (d : α) (l : List α)
    (hn : n ≤ l.length) :
    forLoop n (fun i img => img.set i (f i (img.getD i d))) l
      = (List.range n).map (fun i => f i (l.getD i d)) ++ l.drop n := by
  induction n with
  | zero => simp [forLoop]
  | succ n ih =>
    rw [forLoop_succ, ih (by omega)]
    have hlen : ((List.range n).map (fun i => f i (l.getD i d))).length = n := by simp
    have hget : ((List.range n).map (fun i => f i (l.getD i d)) ++ l.drop n).getD n d
        = l.getD n d := by
      rw [List.getD_eq_getElem?_getD, List.getD_eq_getElem?_getD,
        List.getElem?_append_right (by simp)]
      simp
    rw [hget, List.set_append]
    simp only [hlen, Nat.lt_irrefl, if_false, Nat.sub_self]
    rw [List.drop_eq_getElem_cons (by omega : n < l.length)]
    simp only [List.set_cons_zero, List.range_succ, List.map_append, List.map_cons,
      List.map_nil, List.append_assoc, List.singleton_append]

theorem range_map_getD {α : Type} (l : List α) (d : α) :
    (List.range l.length).map (fun i => l.getD i d) = l := by
  apply List.ext_getElem
  · simp
  · intro i h1 h2
    simp [List.getD_eq_getElem?_getD, List.getElem?_eq_getElem h2]

/-- The snap loop of `update` copies the target array. -/
theorem snap_loop (n : Nat) (cur tgt : List Nat) (hc : cur.length = n) (ht : tgt.length = n) :
    forLoop n (fun i img => img.set i (tgt.getD i 0)) cur = tgt := by
  have := forLoop_set n (fun i _ => tgt.getD i 0) 0 cur (by omega)
  rw [this, ← hc, List.drop_length, List.append_nil, hc, ← ht]
  exact range_map_getD tgt 0

/-- The interpolation loop of `blendUnified` keeps the array length. -/
theorem interpolate_length (b : MatrixBlender) (t : Nat)
    (hc : b.currentImage.length = b.imageSize.toNat) :
    (b.interpolate t).currentImage.length = b.imageSize.toNat := by
  simp only [MatrixBlender.interpolate]
  split
  · rw [forLoop_set b.imageSize.toNat
      (fun i v => MatrixBlender.lerp b.matrix.avr v (b.targetImage.getD i 0) (t % 256)) 0
      b.currentImage (by omega)]
    simp [hc]
  · exact hc

/-- C7: for every blend-engine state with `blending = true` and every clock
value with `now - blendStartTime >= blendTime` (the difference taken in
`unsigned long`), one `update` leaves `blending`, `blendingImage` and
`blendingColor` false, leaves `currentColor` equal to `targetColor` if the
color channel was participating, and leaves `currentImage` equal to
`targetImage` if the image channel was participating. -/
theorem C7_update_snaps_at_completion (b : MatrixBlender) (now : Nat)
    (hwf : b.WellFormed) (hb : b.blending = true)
    (hdone : (now % 2 ^ 32 + 2 ^ 32 - b.blendStartTime) % 2 ^ 32 ≥ b.blendTime) :
    (b.update now).blending = false
      ∧ (b.update now).blendingImage = false
      ∧ (b.update now).blendingColor = false
      ∧ (b.blendingColor = true → (b.update now).currentColor = b.targetColor)
      ∧ (b.blendingImage = true → (b.update now).currentImage = b.targetImage)
      ∧ (b.update now).targetColor = b.targetColor
      ∧ (b.update now).targetImage = b.targetImage := by
  obtain ⟨hc, ht, _, _⟩ := hwf
  have hel : b.elapsed now ≥ b.blendTime := by
    simp only [MatrixBlender.elapsed]
    split <;> omega
  have hcond : b.elapsed now ≥ (b.blendUnified
      (MatrixBlender.factor b.blendTime (b.elapsed now))).blendTime := hel
  simp only [MatrixBlender.update, hb, Bool.not_true, Bool.false_eq_true, if_false, hcond,
    if_true]
  refine ⟨trivial, trivial, trivial, ?_, ?_, rfl, rfl⟩
  · intro hcol
    have : (b.blendUnified (MatrixBlender.factor b.blendTime (b.elapsed now))).blendingColor
        = true := hcol
    rw [if_pos this]
    rfl
  · intro himg
    have h1 : (b.blendUnified (MatrixBlender.factor b.blendTime (b.elapsed now))).blendingImage
        = true := himg
    rw [if_pos h1]
    exact snap_loop _ _ _ (interpolate_length b _ hc) ht

/-- C7 on a blender in the middle of a blend of color and image that started
at 100 and lasts 1000 ms, updated at time 1100. -/
theorem C7_update_snaps_at_completion_witness :
    (exampleBlender.update 1100).blending = false
      ∧ (exampleBlender.update 1100).currentColor = exampleBlender.targetColor
      ∧ (exampleBlender.update 1100).currentImage = exampleBlender.targetImage :=
  ⟨(C7_update_snaps_at_completion exampleBlender 1100
      ⟨by decide, by decide, by decide, by decide⟩ rfl (by decide)).1,
   (C7_update_snaps_at_completion exampleBlender 1100
      ⟨by decide, by decide, by decide, by decide⟩ rfl (by decide)).2.2.2.1 rfl,
   (C7_update_snaps_at_completion exampleBlender 1100
      ⟨by decide, by decide, by decide, by decide⟩ rfl (by decide)).2.2.2.2.1 rfl⟩


theorem wrapInt16_of_range {v : Int} (h1 : -32768 ≤ v) (h2 : v ≤ 32767) : wrapInt 16 v = v := by
  unfold wrapInt
  norm_num
  omega

theorem wrapInt32_of_range {v : Int} (h1 : -2147483648 ≤ v) (h2 : v ≤ 2147483647) :
    wrapInt 32 v = v := by
  unfold wrapInt
  norm_num
  omega

theorem wrapInt_intBits_of_range (avr : Bool) {v : Int} (h1 : -32768 ≤ v) (h2 : v ≤ 32767) :
    wrapInt (intBits avr) v = v := by
  cases avr with
  | true => exact wrapInt16_of_range h1 h2
  | false => exact wrapInt32_of_range (by omega) (by omega)

/-- The truncating quotient by 255 of a product of a byte difference and a
byte lies between 0 and the difference. -/
theorem tdiv_product_bounds (d f : Int) (hd : -255 ≤ d ∧ d ≤ 255) (hf : 0 ≤ f ∧ f ≤ 255) :
    (0 ≤ d → 0 ≤ Int.tdiv (d * f) 255 ∧ Int.tdiv (d * f) 255 ≤ d)
      ∧ (d ≤ 0 → d ≤ Int.tdiv (d * f) 255 ∧ Int.tdiv (d * f) 255 ≤ 0)
      ∧ -65025 ≤ d * f ∧ d * f ≤ 65025 := by
  have hb1 : -65025 ≤ d * f := by nlinarith
  have hb2 : d * f ≤ 65025 := by nlinarith
  refine ⟨?_, ?_, hb1, hb2⟩
  · intro h0
    have hp : 0 ≤ d * f := Int.mul_nonneg h0 hf.1
    have hq : d * f ≤ d * 255 := by nlinarith
    rw [Int.tdiv_eq_ediv hp (by decide)]
    omega
  · intro h0
    have hp : 0 ≤ (-d) * f := Int.mul_nonneg (by omega) hf.1
    have hq : (-d) * f ≤ (-d) * 255 := by nlinarith
    have hneg : d * f = -((-d) * f) := by ring
    rw [hneg, Int.neg_tdiv, Int.tdiv_eq_ediv hp (by decide)]
    omega

/-- The interpolation of one component when the `int` product does not
overflow: the exact value `current + ((target - current) * t) / 255`, which
lies between `current` and `target`. -/
theorem lerp_exact (avr : Bool) (c t f : Nat) (hc : c < 256) (ht : t < 256) (hf : f < 256)
    (hfit : avr = false
      ∨ (-32768 ≤ ((t : Int) - (c : Int)) * (f : Int)
          ∧ ((t : Int) - (c : Int)) * (f : Int) ≤ 32767)) :
    ((MatrixBlender.lerp avr c t f : Nat) : Int)
        = (c : Int) + Int.tdiv (((t : Int) - (c : Int)) * (f : Int)) 255
      ∧ min c t ≤ MatrixBlender.lerp avr c t f ∧ MatrixBlender.lerp avr c t f ≤ max c t := by
  have hd : -255 ≤ (t : Int) - (c : Int) ∧ (t : Int) - (c : Int) ≤ 255 := by omega
  obtain ⟨hpos, hneg, hb1, hb2⟩ := tdiv_product_bounds ((t : Int) - (c : Int)) (f : Int) hd
    (by omega)
  have hw1 : wrapInt 16 ((t : Int) - (c : Int)) = (t : Int) - (c : Int) :=
    wrapInt16_of_range (by omega) (by omega)
  have hw2 : wrapInt (intBits avr) (((t : Int) - (c : Int)) * (f : Int))
      = ((t : Int) - (c : Int)) * (f : Int) := by
    rcases hfit with h | h
    · subst h
      exact wrapInt32_of_range (by omega) (by omega)
    · exact wrapInt_intBits_of_range avr h.1 h.2
  have hsum : 0 ≤ (c : Int) + Int.tdiv (((t : Int) - (c : Int)) * (f : Int)) 255
      ∧ (c : Int) + Int.tdiv (((t : Int) - (c : Int)) * (f : Int)) 255 ≤ 255
      ∧ ((min c t : Nat) : Int) ≤ (c : Int) + Int.tdiv (((t : Int) - (c : Int)) * (f : Int)) 255
      ∧ (c : Int) + Int.tdiv (((t : Int) - (c : Int)) * (f : Int)) 255 ≤ ((max c t : Nat) : Int) := by
    rcases Int.le_total 0 ((t : Int) - (c : Int)) with h | h
    · have := hpos h
      omega
    · have := hneg h
      omega
  have hw3 : wrapInt (intBits avr)
        ((c : Int) + Int.tdiv (((t : Int) - (c : Int)) * (f : Int)) 255)
      = (c : Int) + Int.tdiv (((t : Int) - (c : Int)) * (f : Int)) 255 :=
    wrapInt_intBits_of_range avr (by omega) (by omega)
  have hval : ((MatrixBlender.lerp avr c t f : Nat) : Int)
      = (c : Int) + Int.tdiv (((t : Int) - (c : Int)) * (f : Int)) 255 := by
    simp only [MatrixBlender.lerp, hw1, hw2, hw3, toUInt8]
    omega
  refine ⟨hval, ?_, ?_⟩ <;> omega

theorem lerp_zero (avr : Bool) (c t : Nat) (hc : c < 256) (ht : t < 256) :
    MatrixBlender.lerp avr c t 0 = c := by
  have h := (lerp_exact avr c t 0 hc ht (by decide) (Or.inr (by simp))).1
  simp at h
  exact h

theorem factor_lt (blendTime elapsed : Nat) : MatrixBlender.factor blendTime elapsed < 256 := by
  unfold MatrixBlender.factor
  split <;> omega

/-- The color after `blendToColor` at time `s` and one `update` at time
`s + e` with `e < D`: each channel is one interpolation step from the color
before the blend, with the factor `update` computes for `e` and `D`. -/
theorem blendToColor_update_color (b : MatrixBlender) (tr tg tb D s e : Nat)
    (hr : b.currentColor.r < 256) (hg : b.currentColor.g < 256) (hb : b.currentColor.b < 256)
    (hD : D < 2 ^ 32) (he : e < D) :
    ((b.blendToColor tr tg tb D s).update (s + e)).currentColor
      = ⟨MatrixBlender.lerp b.matrix.avr b.currentColor.r (tr % 256) (MatrixBlender.factor D e),
         MatrixBlender.lerp b.matrix.avr b.currentColor.g (tg % 256) (MatrixBlender.factor D e),
         MatrixBlender.lerp b.matrix.avr b.currentColor.b (tb % 256)
           (MatrixBlender.factor D e)⟩ := by
  have hDm : D % 2 ^ 32 = D := Nat.mod_eq_of_lt hD
  have hel : (b.blendToColor tr tg tb D s).elapsed (s + e) = e := by
    simp only [MatrixBlender.elapsed, MatrixBlender.blendToColor, MatrixBlender.blendUnified,
      MatrixBlender.render, MatrixBlender.interpolate, hDm]
    have : ((s + e) % 2 ^ 32 + 2 ^ 32 - s % 2 ^ 32) % 2 ^ 32 = e := by
      norm_num at hD ⊢
      omega
    rw [this, if_neg (by omega)]
  have hbt : (b.blendToColor tr tg tb D s).blendTime = D := by
    simp only [MatrixBlender.blendToColor, MatrixBlender.blendUnified,
      MatrixBlender.render, MatrixBlender.interpolate, hDm]
  have hfm : MatrixBlender.factor D e % 256 = MatrixBlender.factor D e :=
    Nat.mod_eq_of_lt (factor_lt D e)
  have hnot : ¬ (e ≥ D) := by omega
  simp only [MatrixBlender.update, hel, hbt]
  simp only [MatrixBlender.blendToColor, MatrixBlender.blendUnified,
    MatrixBlender.render, MatrixBlender.interpolate, hDm, Bool.not_true, Bool.false_eq_true,
    if_false, if_true, hnot, Nat.zero_mod, hfm,
    lerp_zero _ _ _ hr (Nat.mod_lt _ (by decide)),
    lerp_zero _ _ _ hg (Nat.mod_lt _ (by decide)),
    lerp_zero _ _ _ hb (Nat.mod_lt _ (by decide))]


/-- The part of C8 the code keeps: when `int` has 32 bits (non-AVR build), or
on AVR when the three products `(t_i - c_i) * factor` fit in 16 bits,
`blendToColor(t, D)` at time `s` followed by one `update` at time `s + e`,
`e < D`, leaves each channel equal to `c_i + ((t_i - c_i) * factor) / 255`
with the division truncating toward zero and `factor` the value `update`
computes for `e` and `D`. -/
theorem blend_step_exact (b : MatrixBlender) (tr tg tb D s e : Nat)
    (hr : b.currentColor.r < 256) (hg : b.currentColor.g < 256) (hb : b.currentColor.b < 256)
    (htr : tr < 256) (htg : tg < 256) (htb : tb < 256)
    (hD : D < 2 ^ 32) (he : e < D)
    (hfit : b.matrix.avr = false
      ∨ ((tr : Int) - b.currentColor.r).natAbs * MatrixBlender.factor D e ≤ 32767
        ∧ ((tg : Int) - b.currentColor.g).natAbs * MatrixBlender.factor D e ≤ 32767
        ∧ ((tb : Int) - b.currentColor.b).natAbs * MatrixBlender.factor D e ≤ 32767) :
    ((((b.blendToColor tr tg tb D s).update (s + e)).currentColor.r : Nat) : Int)
        = (b.currentColor.r : Int)
          + Int.tdiv (((tr : Int) - b.currentColor.r) * (MatrixBlender.factor D e : Int)) 255
      ∧ ((((b.blendToColor tr tg tb D s).update (s + e)).currentColor.g : Nat) : Int)
        = (b.currentColor.g : Int)
          + Int.tdiv (((tg : Int) - b.currentColor.g) * (MatrixBlender.factor D e : Int)) 255
      ∧ ((((b.blendToColor tr tg tb D s).update (s + e)).currentColor.b : Nat) : Int)
        = (b.currentColor.b : Int)
          + Int.tdiv (((tb : Int) - b.currentColor.b) * (MatrixBlender.factor D e : Int)) 255 := by
  have hf := factor_lt D e
  have key : ∀ (c t : Nat), c < 256 → t < 256 →
      (b.matrix.avr = false
        ∨ ((t : Int) - c).natAbs * MatrixBlender.factor D e ≤ 32767) →
      ((MatrixBlender.lerp b.matrix.avr c t (MatrixBlender.factor D e) : Nat) : Int)
        = (c : Int) + Int.tdiv (((t : Int) - (c : Int)) * (MatrixBlender.factor D e : Int)) 255 := by
    intro c t hc ht hfit
    refine (lerp_exact b.matrix.avr c t _ hc ht hf ?_).1
    rcases hfit with h | h
    · exact Or.inl h
    · right
      have habs : (((((t : Int) - c).natAbs * MatrixBlender.factor D e : Nat)) : Int)
          = |((t : Int) - c) * (MatrixBlender.factor D e : Int)| := by
        rw [abs_mul]
        simp [Int.natCast_natAbs]
      have hle : |((t : Int) - c) * (MatrixBlender.factor D e : Int)| ≤ 32767 := by
        rw [← habs]; exact_mod_cast h
      have := abs_le.1 hle
      omega
  rw [blendToColor_update_color b tr tg tb D s e hr hg hb hD he, Nat.mod_eq_of_lt htr,
    Nat.mod_eq_of_lt htg, Nat.mod_eq_of_lt htb]
  refine ⟨key _ _ hr htr ?_, key _ _ hg htg ?_, key _ _ hb htb ?_⟩
  · rcases hfit with h | h
    · exact Or.inl h
    · exact Or.inr h.1
  · rcases hfit with h | h
    · exact Or.inl h
    · exact Or.inr h.2.1
  · rcases hfit with h | h
    · exact Or.inl h
    · exact Or.inr h.2.2

/-- The concrete scenario of C8: from red 0, `blendToColor((255, 0, 0), 1000)`
at time 0 and `update` at time 500 give a red channel of 127, by the exact
formula, on the non-AVR build. -/
theorem blend_step_exact_witness :
    ((((blackSparse.blendToColor 255 0 0 1000 0).update (0 + 500)).currentColor.r : Nat) : Int)
      = (blackSparse.currentColor.r : Int)
        + Int.tdiv ((((255 : Nat) : Int) - blackSparse.currentColor.r)
            * (MatrixBlender.factor 1000 500 : Int)) 255 :=
  (blend_step_exact blackSparse 255 0 0 1000 0 500 (by decide) (by decide) (by decide)
    (by decide) (by decide) (by decide) (by decide) (by decide) (Or.inl rfl)).1

/-- The concrete scenario of C8 evaluated on both builds: the red channel is
127. -/
theorem blend_step_scenario :
    ((blackSparse.blendToColor 255 0 0 1000 0).update 500).currentColor = ⟨127, 0, 0⟩
      ∧ ((blackDense.blendToColor 255 0 0 1000 0).update 500).currentColor = ⟨127, 0, 0⟩ := by
  refine ⟨?_, ?_⟩ <;> decide

/-- C8, failing input: on the AVR build, from red 0, `blendToColor((255, 0,
0), 1000)` at time 0 and `update` at time 900.  `update` computes the factor
229; the claimed value is `0 + (255 * 229) / 255 = 229`; the product
`255 * 229 = 58395` does not fit the 16-bit `int`, and the red channel
becomes 228.  The non-AVR build gives 229. -/
theorem C8_blend_step_overflows_on_avr :
    blackDense.matrix.avr = true
      ∧ blackDense.currentColor = ⟨0, 0, 0⟩
      ∧ MatrixBlender.factor 1000 900 = 229
      ∧ (0 : Int) + Int.tdiv ((255 - 0) * 229) 255 = 229
      ∧ ((blackDense.blendToColor 255 0 0 1000 0).update 900).currentColor.r = 228
      ∧ ((blackSparse.blendToColor 255 0 0 1000 0).update 900).currentColor.r = 229 := by
  refine ⟨?_, ?_, ?_, ?_, ?_, ?_⟩ <;> decide


/-- C9, counterexample: for the blend in flight `shortBlend` (duration 4 ms,
started at 0) updated at time 1, `elapsed = 1` and `elapsed * 255 / duration
= 63.75`.  The specification's factor is `round(63.75) = 64`; `update`
computes 63, and the white target is then approached to 63, not 64. -/
theorem C9_factor_is_not_rounded :
    (MatrixBlender.factor shortBlend.blendTime (shortBlend.elapsed 1) : Int)
        ≠ specFactor shortBlend.blendTime (shortBlend.elapsed 1)
      ∧ shortBlend.blending = true
      ∧ shortBlend.elapsed 1 = 1
      ∧ specFactor shortBlend.blendTime (shortBlend.elapsed 1) = 64
      ∧ MatrixBlender.factor shortBlend.blendTime (shortBlend.elapsed 1) = 63
      ∧ (shortBlend.update 1).currentColor = ⟨63, 63, 63⟩
      ∧ (shortBlend.blendUnified 64).currentColor = ⟨64, 64, 64⟩ := by
  have h1 : shortBlend.elapsed 1 = 1 := by decide
  have h2 : shortBlend.blendTime = 4 := rfl
  have h3 : MatrixBlender.factor 4 1 = 63 := by decide
  have hs : specFactor 4 1 = 64 := by
    simp only [specFactor]
    rw [if_pos (by decide), round_eq, Int.floor_eq_iff]
    norm_num
  rw [h1, h2, h3, hs]
  refine ⟨by decide, rfl, rfl, rfl, rfl, by decide, by decide⟩

/-- C9 as amended: for every blend in flight, with `elapsed` the `unsigned
long` difference `now - blendStartTime` clamped to `blendTime`, and as long
as `elapsed * 255` fits in 32 bits, the factor `update` passes to
`blendUnified` is `floor(elapsed * 255 / blendTime)` when `blendTime > 0` and
255 when `blendTime = 0`. -/
theorem C9_update_factor_is_floor (b : MatrixBlender) (now : Nat)
    (hb : b.blending = true) (hfit : b.elapsed now * 255 < 2 ^ 32) :
    b.elapsed now = min ((now % 2 ^ 32 + 2 ^ 32 - b.blendStartTime) % 2 ^ 32) b.blendTime
      ∧ (0 < b.blendTime →
          MatrixBlender.factor b.blendTime (b.elapsed now) = b.elapsed now * 255 / b.blendTime)
      ∧ (b.blendTime = 0 → MatrixBlender.factor b.blendTime (b.elapsed now) = 255)
      ∧ (b.update now).matrix
          = (b.blendUnified (MatrixBlender.factor b.blendTime (b.elapsed now))).matrix
      ∧ (b.elapsed now < b.blendTime →
          b.update now = b.blendUnified (MatrixBlender.factor b.blendTime (b.elapsed now))) := by
  have hel : b.elapsed now
      = min ((now % 2 ^ 32 + 2 ^ 32 - b.blendStartTime) % 2 ^ 32) b.blendTime := by
    simp only [MatrixBlender.elapsed]
    split <;> omega
  have hle : b.elapsed now ≤ b.blendTime := by rw [hel]; omega
  refine ⟨hel, ?_, ?_, ?_, ?_⟩
  · intro hpos
    have hq : b.elapsed now * 255 / b.blendTime ≤ 255 :=
      Nat.div_le_of_le_mul (by nlinarith)
    simp only [MatrixBlender.factor, hpos, gt_iff_lt, if_true, Nat.mod_eq_of_lt hfit]
    rw [Nat.min_eq_right hq]
    exact Nat.mod_eq_of_lt (by omega)
  · intro h0
    simp [MatrixBlender.factor, h0]
  · simp only [MatrixBlender.update, hb, Bool.not_true, Bool.false_eq_true, if_false]
    split <;> rfl
  · intro hlt
    have hnot : ¬ (b.elapsed now ≥ (b.blendUnified
        (MatrixBlender.factor b.blendTime (b.elapsed now))).blendTime) := by
      have : (b.blendUnified
        (MatrixBlender.factor b.blendTime (b.elapsed now))).blendTime = b.blendTime := rfl
      omega
    simp only [MatrixBlender.update, hb, Bool.not_true, Bool.false_eq_true, if_false, hnot]

/-- C9 as amended, at the blend `shortBlend` updated at time 1: the factor is
`floor(255 / 4) = 63`. -/
theorem C9_update_factor_is_floor_witness :
    MatrixBlender.factor shortBlend.blendTime (shortBlend.elapsed 1)
      = shortBlend.elapsed 1 * 255 / shortBlend.blendTime :=
  (C9_update_factor_is_floor shortBlend 1 rfl (by decide)).2.1 (by decide)


theorem lerp_lt (avr : Bool) (c t f : Nat) : MatrixBlender.lerp avr c t f < 256 := by
  simp only [MatrixBlender.lerp, toUInt8]
  omega

theorem elapsed_eq (b : MatrixBlender) (s x : Nat) (hs : b.blendStartTime = s % 2 ^ 32)
    (hx : x < 2 ^ 32) : b.elapsed (s + x) = min x b.blendTime := by
  have : ((s + x) % 2 ^ 32 + 2 ^ 32 - s % 2 ^ 32) % 2 ^ 32 = x := by
    norm_num at hx ⊢
    omega
  simp only [MatrixBlender.elapsed, hs, this]
  split <;> omega

theorem update_in_flight (b : MatrixBlender) (now : Nat) (hb : b.blending = true)
    (hlt : b.elapsed now < b.blendTime) :
    b.update now = b.blendUnified (MatrixBlender.factor b.blendTime (b.elapsed now)) := by
  have hnot : ¬ (b.elapsed now ≥ (b.blendUnified
      (MatrixBlender.factor b.blendTime (b.elapsed now))).blendTime) := by
    have : (b.blendUnified
      (MatrixBlender.factor b.blendTime (b.elapsed now))).blendTime = b.blendTime := rfl
    omega
  simp only [MatrixBlender.update, hb, Bool.not_true, Bool.false_eq_true, if_false, hnot]

theorem update_complete_color (b : MatrixBlender) (now : Nat) (hb : b.blending = true)
    (hc : b.blendingColor = true) (hge : b.elapsed now ≥ b.blendTime) :
    (b.update now).currentColor = b.targetColor := by
  have hcond : b.elapsed now ≥ (b.blendUnified
      (MatrixBlender.factor b.blendTime (b.elapsed now))).blendTime := hge
  have hc2 : (b.blendUnified
      (MatrixBlender.factor b.blendTime (b.elapsed now))).blendingColor = true := hc
  simp only [MatrixBlender.update, hb, Bool.not_true, Bool.false_eq_true, if_false, hcond,
    if_true, hc2]
  rfl

/-- The part of C10 about the factor that the code keeps: when `D * 255` fits
in 32 bits, the factors at the elapsed times `0`, `D / 2`, `D` are `0`, some
value, `255`, hence non-decreasing. -/
theorem factor_nondecreasing_short (D : Nat) (hD : 0 < D) (hfit : D * 255 < 2 ^ 32) :
    MatrixBlender.factor D 0 = 0
      ∧ MatrixBlender.factor D D = 255
      ∧ MatrixBlender.factor D 0 ≤ MatrixBlender.factor D (D / 2)
      ∧ MatrixBlender.factor D (D / 2) ≤ MatrixBlender.factor D D := by
  have h0 : MatrixBlender.factor D 0 = 0 := by
    simp [MatrixBlender.factor, hD]
  have hDD : MatrixBlender.factor D D = 255 := by
    simp only [MatrixBlender.factor, hD, gt_iff_lt, if_true, Nat.mod_eq_of_lt hfit]
    rw [Nat.mul_div_cancel_left 255 hD]
    decide
  have hlt := factor_lt D (D / 2)
  refine ⟨h0, hDD, ?_, ?_⟩ <;> omega

theorem factor_nondecreasing_short_witness :
    MatrixBlender.factor 1000 0 = 0
      ∧ MatrixBlender.factor 1000 1000 = 255
      ∧ MatrixBlender.factor 1000 0 ≤ MatrixBlender.factor 1000 (1000 / 2)
      ∧ MatrixBlender.factor 1000 (1000 / 2) ≤ MatrixBlender.factor 1000 1000 :=
  factor_nondecreasing_short 1000 (by decide) (by decide)

/-- The part of C10 about the channels, which holds for every duration: in a
color blend from black to white of duration `D > 0` started at `s`, the
channel values after `update` at the elapsed times `0`, `D / 2` and `D` are
`0`, a byte, and `255`. -/
theorem blend_channels_nondecreasing (b : MatrixBlender) (D s : Nat)
    (hblack : b.currentColor = ⟨0, 0, 0⟩) (hD0 : 0 < D) (hD : D < 2 ^ 32) :
    (((b.blendToColor 255 255 255 D s).update (s + 0)).currentColor = ⟨0, 0, 0⟩)
      ∧ ((((b.blendToColor 255 255 255 D s).update (s + 0)).update (s + D / 2)).currentColor.r
          ≤ 255
        ∧ (((b.blendToColor 255 255 255 D s).update (s + 0)).update (s + D / 2)).currentColor.g
          ≤ 255
        ∧ (((b.blendToColor 255 255 255 D s).update (s + 0)).update (s + D / 2)).currentColor.b
          ≤ 255)
      ∧ ((((b.blendToColor 255 255 255 D s).update (s + 0)).update (s + D / 2)).update
          (s + D)).currentColor = ⟨255, 255, 255⟩ := by
  have hDm : D % 2 ^ 32 = D := Nat.mod_eq_of_lt hD
  -- the state after `blendToColor`
  have b0_start : (b.blendToColor 255 255 255 D s).blendStartTime = s % 2 ^ 32 := rfl
  have b0_time : (b.blendToColor 255 255 255 D s).blendTime = D := hDm
  have b0_bl : (b.blendToColor 255 255 255 D s).blending = true := rfl
  have b0_bc : (b.blendToColor 255 255 255 D s).blendingColor = true := rfl
  have b0_tc : (b.blendToColor 255 255 255 D s).targetColor = ⟨255, 255, 255⟩ := rfl
  -- first update, elapsed 0
  have e1 : (b.blendToColor 255 255 255 D s).elapsed (s + 0) = 0 := by
    rw [elapsed_eq _ s 0 b0_start (by decide)]; omega
  have u1 := update_in_flight (b.blendToColor 255 255 255 D s) (s + 0) b0_bl
    (by rw [e1, b0_time]; exact hD0)
  have c1 : ((b.blendToColor 255 255 255 D s).update (s + 0)).currentColor = ⟨0, 0, 0⟩ := by
    have := blendToColor_update_color b 255 255 255 D s 0 (by rw [hblack]; decide)
      (by rw [hblack]; decide) (by rw [hblack]; decide) hD hD0
    rw [this, hblack]
    have hf0 : MatrixBlender.factor D 0 = 0 := by simp [MatrixBlender.factor, hD0]
    simp only [hf0]
    rw [lerp_zero _ _ _ (by decide) (by decide)]
  have u1_start : ((b.blendToColor 255 255 255 D s).update (s + 0)).blendStartTime
      = s % 2 ^ 32 := by rw [u1]; rfl
  have u1_time : ((b.blendToColor 255 255 255 D s).update (s + 0)).blendTime = D := by
    rw [u1]; exact hDm
  have u1_bl : ((b.blendToColor 255 255 255 D s).update (s + 0)).blending = true := by
    rw [u1]; rfl
  have u1_bc : ((b.blendToColor 255 255 255 D s).update (s + 0)).blendingColor = true := by
    rw [u1]; rfl
  have u1_tc : ((b.blendToColor 255 255 255 D s).update (s + 0)).targetColor
      = ⟨255, 255, 255⟩ := by rw [u1]; rfl
  -- second update, elapsed D / 2
  have hhalf : D / 2 < D := by omega
  have e2 : ((b.blendToColor 255 255 255 D s).update (s + 0)).elapsed (s + D / 2) = D / 2 := by
    rw [elapsed_eq _ s (D / 2) u1_start (by omega), u1_time]; omega
  have u2 := update_in_flight ((b.blendToColor 255 255 255 D s).update (s + 0)) (s + D / 2)
    u1_bl (by rw [e2, u1_time]; exact hhalf)
  have c2 : ∀ f, ((((b.blendToColor 255 255 255 D s).update (s + 0)).blendUnified
      f).currentColor.r ≤ 255
      ∧ (((b.blendToColor 255 255 255 D s).update (s + 0)).blendUnified f).currentColor.g ≤ 255
      ∧ (((b.blendToColor 255 255 255 D s).update (s + 0)).blendUnified f).currentColor.b
          ≤ 255) := by
    intro f
    simp only [MatrixBlender.blendUnified, MatrixBlender.render, MatrixBlender.interpolate,
      u1_bc, if_true]
    exact ⟨Nat.le_of_lt_succ (lerp_lt _ _ _ _), Nat.le_of_lt_succ (lerp_lt _ _ _ _),
      Nat.le_of_lt_succ (lerp_lt _ _ _ _)⟩
  have u2_start : (((b.blendToColor 255 255 255 D s).update (s + 0)).update
      (s + D / 2)).blendStartTime = s % 2 ^ 32 := by rw [u2]; exact u1_start
  have u2_time : (((b.blendToColor 255 255 255 D s).update (s + 0)).update
      (s + D / 2)).blendTime = D := by rw [u2]; exact u1_time
  have u2_bl : (((b.blendToColor 255 255 255 D s).update (s + 0)).update
      (s + D / 2)).blending = true := by rw [u2]; exact u1_bl
  have u2_bc : (((b.blendToColor 255 255 255 D s).update (s + 0)).update
      (s + D / 2)).blendingColor = true := by rw [u2]; exact u1_bc
  have u2_tc : (((b.blendToColor 255 255 255 D s).update (s + 0)).update
      (s + D / 2)).targetColor = ⟨255, 255, 255⟩ := by rw [u2]; exact u1_tc
  -- third update, elapsed D
  have e3 : (((b.blendToColor 255 255 255 D s).update (s + 0)).update
      (s + D / 2)).elapsed (s + D) = D := by
    rw [elapsed_eq _ s D u2_start hD, u2_time]; omega
  refine ⟨c1, ?_, ?_⟩
  · rw [u2]; exact c2 _
  · rw [update_complete_color _ _ u2_bl u2_bc (by rw [e3, u2_time]), u2_tc]

theorem blend_channels_nondecreasing_witness :
    (((blackSparse.blendToColor 255 255 255 1000 0).update (0 + 0)).update
        (0 + 1000 / 2)).currentColor.r ≤ 255
      ∧ ((((blackSparse.blendToColor 255 255 255 1000 0).update (0 + 0)).update
        (0 + 1000 / 2)).update (0 + 1000)).currentColor = ⟨255, 255, 255⟩ :=
  ⟨(blend_channels_nondecreasing blackSparse 1000 0 rfl (by decide) (by decide)).2.1.1,
   (blend_channels_nondecreasing blackSparse 1000 0 rfl (by decide) (by decide)).2.2⟩

/-- C10, failing input: the color-only blend `longBlend` from black to white
over `D = 20 000 000` ms (a 32-bit value), updated at the elapsed times `0`,
`D / 2` and `D`.  The factors `update` computes are `0`, `127` and `40`: at
`elapsed = D` the product `D * 255` exceeds `2 ^ 32` and wraps, so the factor
decreases.  The channels are `0`, `127` and, by the final snap, `255`; the
frame rendered by the last update is that of the interpolated `147` (scaled
by `maxBrightness = 128` to `73`), not of the target. -/
theorem C10_factor_decreases_on_long_blend :
    longBlend.blendTime = 20000000
      ∧ longBlend.blendingImage = false
      ∧ longBlend.blendingColor = true
      ∧ longBlend.currentColor = ⟨0, 0, 0⟩
      ∧ longBlend.targetColor = ⟨255, 255, 255⟩
      ∧ MatrixBlender.factor longBlend.blendTime (longBlend.elapsed 0) = 0
      ∧ MatrixBlender.factor (longBlend.update 0).blendTime
          ((longBlend.update 0).elapsed 10000000) = 127
      ∧ MatrixBlender.factor ((longBlend.update 0).update 10000000).blendTime
          (((longBlend.update 0).update 10000000).elapsed 20000000) = 40
      ∧ (longBlend.update 0).currentColor = ⟨0, 0, 0⟩
      ∧ ((longBlend.update 0).update 10000000).currentColor = ⟨127, 127, 127⟩
      ∧ (((longBlend.update 0).update 10000000).update 20000000).currentColor
          = ⟨255, 255, 255⟩
      ∧ (((longBlend.update 0).update 10000000).update 20000000).matrix.strip.pixels
          = [⟨73, 73, 73⟩, ⟨73, 73, 73⟩, ⟨73, 73, 73⟩] := by
  refine ⟨?_, ?_, ?_, ?_, ?_, ?_, ?_, ?_, ?_, ?_, ?_, ?_⟩ <;> decide

/-! ## The interpolation arithmetic -/

/-- C19, counterexample: with current 0, target 255 and factor 255 the
difference 255 fits 16 bits, but the product `255 * 255 = 65025` lies outside
`[-32768, 32767]`; as a signed 16-bit value it is `-511`, and the
interpolation evaluated with a 16-bit `int` (the AVR build) yields 254 where
the exact result is 255. -/
theorem C19_product_exceeds_16_bits :
    ¬ (((255 : Int) - 0) * 255 ≤ 32767)
      ∧ wrapInt 16 ((255 : Int) - 0) = 255
      ∧ wrapInt 16 (((255 : Int) - 0) * 255) = -511
      ∧ (0 : Int) + Int.tdiv (((255 : Int) - 0) * 255) 255 = 255
      ∧ MatrixBlender.lerp true 0 255 255 = 254
      ∧ MatrixBlender.lerp false 0 255 255 = 255 := by
  refine ⟨?_, ?_, ?_, ?_, ?_, ?_⟩ <;> decide

/-- C19 as amended: for current, target and factor in 0..255 the difference
lies in `[-255, 255]` and fits the `int16_t` it is stored in; the product
`(target - current) * factor` lies in `[-65025, 65025]`, which fits a 32-bit
`int`; and where `int` has 32 bits (the non-AVR build) the value
`blendUnified` computes equals the exact integer result
`current + ((target - current) * factor) / 255`. -/
theorem C19_interpolation_fits_32_bits (c t f : Nat) (hc : c < 256) (ht : t < 256)
    (hf : f < 256) :
    (-255 ≤ (t : Int) - (c : Int) ∧ (t : Int) - (c : Int) ≤ 255)
      ∧ wrapInt 16 ((t : Int) - (c : Int)) = (t : Int) - (c : Int)
      ∧ (-65025 ≤ ((t : Int) - (c : Int)) * (f : Int)
          ∧ ((t : Int) - (c : Int)) * (f : Int) ≤ 65025)
      ∧ wrapInt (intBits false) (((t : Int) - (c : Int)) * (f : Int))
          = ((t : Int) - (c : Int)) * (f : Int)
      ∧ ((MatrixBlender.lerp false c t f : Nat) : Int)
          = (c : Int) + Int.tdiv (((t : Int) - (c : Int)) * (f : Int)) 255 := by
  have hd : -255 ≤ (t : Int) - (c : Int) ∧ (t : Int) - (c : Int) ≤ 255 := by omega
  obtain ⟨_, _, hb1, hb2⟩ := tdiv_product_bounds ((t : Int) - (c : Int)) (f : Int) hd
    (by omega)
  refine ⟨hd, wrapInt16_of_range (by omega) (by omega), ⟨hb1, hb2⟩, ?_, ?_⟩
  · exact wrapInt32_of_range (by omega) (by omega)
  · exact (lerp_exact false c t f hc ht hf (Or.inl rfl)).1

/-- C19 as amended, at current 0, target 255, factor 255. -/
theorem C19_interpolation_fits_32_bits_witness :
    ((MatrixBlender.lerp false 0 255 255 : Nat) : Int)
      = ((0 : Nat) : Int) + Int.tdiv ((((255 : Nat) : Int) - ((0 : Nat) : Int))
          * ((255 : Nat) : Int)) 255 :=
  (C19_interpolation_fits_32_bits 0 255 255 (by decide) (by decide) (by decide)).2.2.2.2

/-- C20: for current, target and factor in 0..255 the value
`new = current + ((target - current) * factor) / 255`, in exact integers with
the division truncating toward zero, lies between `min(current, target)` and
`max(current, target)`; hence it lies in 0..255, is at least as close to the
target as `current` was, and equals the target when the factor is 255.  It is
the value `blendUnified` computes where `int` has 32 bits. -/
theorem C20_interpolation_no_overshoot (c t f : Nat) (hc : c < 256) (ht : t < 256)
    (hf : f < 256) :
    ((MatrixBlender.lerp false c t f : Nat) : Int)
        = (c : Int) + Int.tdiv (((t : Int) - (c : Int)) * (f : Int)) 255
      ∧ ((min c t : Nat) : Int) ≤ (c : Int) + Int.tdiv (((t : Int) - (c : Int)) * (f : Int)) 255
      ∧ (c : Int) + Int.tdiv (((t : Int) - (c : Int)) * (f : Int)) 255 ≤ ((max c t : Nat) : Int)
      ∧ 0 ≤ (c : Int) + Int.tdiv (((t : Int) - (c : Int)) * (f : Int)) 255
      ∧ (c : Int) + Int.tdiv (((t : Int) - (c : Int)) * (f : Int)) 255 ≤ 255
      ∧ |(t : Int) - ((c : Int) + Int.tdiv (((t : Int) - (c : Int)) * (f : Int)) 255)|
          ≤ |(t : Int) - (c : Int)|
      ∧ (f = 255 →
          (c : Int) + Int.tdiv (((t : Int) - (c : Int)) * (f : Int)) 255 = (t : Int)) := by
  obtain ⟨hval, hmin, hmax⟩ := lerp_exact false c t f hc ht hf (Or.inl rfl)
  have hlo : ((min c t : Nat) : Int)
      ≤ (c : Int) + Int.tdiv (((t : Int) - (c : Int)) * (f : Int)) 255 := by
    rw [← hval]; exact_mod_cast hmin
  have hhi : (c : Int) + Int.tdiv (((t : Int) - (c : Int)) * (f : Int)) 255
      ≤ ((max c t : Nat) : Int) := by
    rw [← hval]; exact_mod_cast hmax
  refine ⟨hval, hlo, hhi, by omega, by omega, ?_, ?_⟩
  · rw [abs_le]
    rcases Int.le_total (c : Int) (t : Int) with h | h
    · rw [abs_of_nonneg (by omega)]
      omega
    · rw [abs_of_nonpos (by omega)]
      omega
  · intro h255
    subst h255
    have : (((t : Int) - (c : Int)) * ((255 : Nat) : Int)).tdiv 255 = (t : Int) - (c : Int) := by
      have h : ((255 : Nat) : Int) = 255 := rfl
      rw [h, Int.mul_tdiv_cancel _ (by decide)]
    rw [this]
    omega

/-- C20 at current 200, target 10, factor 100: the new value is
`200 + (-190 * 100) / 255 = 200 - 74 = 126`. -/
theorem C20_interpolation_no_overshoot_witness :
    ((MatrixBlender.lerp false 200 10 100 : Nat) : Int)
        = ((200 : Nat) : Int) + Int.tdiv ((((10 : Nat) : Int) - ((200 : Nat) : Int))
            * ((100 : Nat) : Int)) 255
      ∧ ((min 200 10 : Nat) : Int)
        ≤ ((200 : Nat) : Int) + Int.tdiv ((((10 : Nat) : Int) - ((200 : Nat) : Int))
            * ((100 : Nat) : Int)) 255 :=
  ⟨(C20_interpolation_no_overshoot 200 10 100 (by decide) (by decide) (by decide)).1,
   (C20_interpolation_no_overshoot 200 10 100 (by decide) (by decide) (by decide)).2.1⟩

/-! ## The sparse build and its bounding box -/

/-- The entries of the sparse build, for coordinates that fit in a byte. -/
theorem convertToSparse_entries (c : MatrixController) (hc : c.avr = false)
    (src : Nat → Nat) (rows cols : Nat) (hrows : rows ≤ 256) (hcols : cols ≤ 256)
    (hcount : (activeCells src rows cols).length ≤ 255) :
    (c.convertToSparse src rows cols).numActiveLeds = (activeCells src rows cols).length
      ∧ (c.convertToSparse src rows cols).ledMappings
          = (activeCells src rows cols).map
              (fun p => ({ x := p.1, y := p.2, ledId := cellAt src cols p } : LedMapping)) := by
  have hn : MatrixController.countActive src rows cols = (activeCells src rows cols).length := by
    rw [countActive_eq]; omega
  have hmap : (activeCells src rows cols).map (entryOf src cols)
      = (activeCells src rows cols).map
          (fun p => ({ x := p.1, y := p.2, ledId := cellAt src cols p } : LedMapping)) := by
    apply List.map_congr_left
    intro p hp
    have := mem_activeCells.1 hp
    simp only [entryOf]
    rw [Nat.mod_eq_of_lt (by omega), Nat.mod_eq_of_lt (by omega)]
  simp only [MatrixController.convertToSparse, hc, Bool.false_eq_true, if_false, hn]
  rw [fillMappings_eq src rows cols _ rfl, hmap]
  exact ⟨trivial, rfl⟩

set_option maxRecDepth 100000 in
/-- C15, counterexample.  First, the 16 x 16 table `fullTable` has 256 cells
other than 255, and the count the sparse build stores, a `uint8_t`, is 0
(the second pass of the source then writes past the array it allocated).
Second, in the table `wideTable` of 257 columns the active cell `(256, 0)`
holds index 1, and the entry stored for it is `(0, 0, 1)`: the `uint8_t`
coordinate cannot hold 256. -/
theorem C15_count_and_coordinates_wrap :
    (activeCells fullTable 16 16).length = 256
      ∧ ((MatrixController.new false).convertToSparse fullTable 16 16).numActiveLeds = 0
      ∧ activeCells wideTable 1 257 = [(0, 0), (256, 0)]
      ∧ cellAt wideTable 257 (256, 0) = 1
      ∧ ((MatrixController.new false).convertToSparse wideTable 1 257).ledMappings
          = [⟨0, 0, 0⟩, ⟨0, 0, 1⟩] := by
  refine ⟨?_, ?_, ?_, ?_, ?_⟩ <;> decide

/-- C15 as amended: for a table of at most 256 rows and 256 columns with at
most 255 cells other than 255, the sparse build stores a count equal to the
number of those cells and an entry sequence of exactly that length that
lists, in row-major scan order, the triple `(x, y, table[y * cols + x])` of
every active cell and nothing else. -/
theorem C15_sparse_build_lists_active_cells (c : MatrixController) (hc : c.avr = false)
    (src : Nat → Nat) (rows cols : Nat) (hrows : rows ≤ 256) (hcols : cols ≤ 256)
    (hcount : ((cells rows cols).filter (fun p => src (p.2 * cols + p.1) % 256 != 255)).length
      ≤ 255) :
    (c.convertToSparse src rows cols).numActiveLeds
        = ((cells rows cols).filter (fun p => src (p.2 * cols + p.1) % 256 != 255)).length
      ∧ (c.convertToSparse src rows cols).ledMappings.length
        = (c.convertToSparse src rows cols).numActiveLeds
      ∧ (c.convertToSparse src rows cols).ledMappings
        = ((cells rows cols).filter (fun p => src (p.2 * cols + p.1) % 256 != 255)).map
            (fun p => ({ x := p.1, y := p.2, ledId := src (p.2 * cols + p.1) % 256 }
              : LedMapping)) := by
  obtain ⟨h1, h2⟩ := convertToSparse_entries c hc src rows cols hrows hcols hcount
  refine ⟨h1, ?_, h2⟩
  rw [h1, h2, List.length_map]

/-- C15 as amended, at the table `[[0, 1], [2, 255]]`. -/
theorem C15_sparse_build_lists_active_cells_witness :
    ((MatrixController.new false).convertToSparse exampleTable 2 2).numActiveLeds
        = ((cells 2 2).filter (fun p => exampleTable (p.2 * 2 + p.1) % 256 != 255)).length
      ∧ ((MatrixController.new false).convertToSparse exampleTable 2 2).ledMappings
        = ((cells 2 2).filter (fun p => exampleTable (p.2 * 2 + p.1) % 256 != 255)).map
            (fun p => ({ x := p.1, y := p.2, ledId := exampleTable (p.2 * 2 + p.1) % 256 }
              : LedMapping)) :=
  ⟨(C15_sparse_build_lists_active_cells (MatrixController.new false) rfl exampleTable 2 2
      (by decide) (by decide) (by decide)).1,
   (C15_sparse_build_lists_active_cells (MatrixController.new false) rfl exampleTable 2 2
      (by decide) (by decide) (by decide)).2.2⟩

theorem scanBounds_attained_aux (l : List LedMapping) (st : Int × Int × Int × Int) :
    ((l.foldl (fun (st : Int × Int × Int × Int) m =>
        (min st.1 (m.x : Int), max st.2.1 (m.x : Int),
         min st.2.2.1 (m.y : Int), max st.2.2.2 (m.y : Int))) st).1 = st.1
      ∨ ∃ m ∈ l, (l.foldl (fun (st : Int × Int × Int × Int) m =>
        (min st.1 (m.x : Int), max st.2.1 (m.x : Int),
         min st.2.2.1 (m.y : Int), max st.2.2.2 (m.y : Int))) st).1 = (m.x : Int))
    ∧ ((l.foldl (fun (st : Int × Int × Int × Int) m =>
        (min st.1 (m.x : Int), max st.2.1 (m.x : Int),
         min st.2.2.1 (m.y : Int), max st.2.2.2 (m.y : Int))) st).2.1 = st.2.1
      ∨ ∃ m ∈ l, (l.foldl (fun (st : Int × Int × Int × Int) m =>
        (min st.1 (m.x : Int), max st.2.1 (m.x : Int),
         min st.2.2.1 (m.y : Int), max st.2.2.2 (m.y : Int))) st).2.1 = (m.x : Int))
    ∧ ((l.foldl (fun (st : Int × Int × Int × Int) m =>
        (min st.1 (m.x : Int), max st.2.1 (m.x : Int),
         min st.2.2.1 (m.y : Int), max st.2.2.2 (m.y : Int))) st).2.2.1 = st.2.2.1
      ∨ ∃ m ∈ l, (l.foldl (fun (st : Int × Int × Int × Int) m =>
        (min st.1 (m.x : Int), max st.2.1 (m.x : Int),
         min st.2.2.1 (m.y : Int), max st.2.2.2 (m.y : Int))) st).2.2.1 = (m.y : Int))
    ∧ ((l.foldl (fun (st : Int × Int × Int × Int) m =>
        (min st.1 (m.x : Int), max st.2.1 (m.x : Int),
         min st.2.2.1 (m.y : Int), max st.2.2.2 (m.y : Int))) st).2.2.2 = st.2.2.2
      ∨ ∃ m ∈ l, (l.foldl (fun (st : Int × Int × Int × Int) m =>
        (min st.1 (m.x : Int), max st.2.1 (m.x : Int),
         min st.2.2.1 (m.y : Int), max st.2.2.2 (m.y : Int))) st).2.2.2 = (m.y : Int)) := by
  induction l generalizing st with
  | nil => simp
  | cons a l ih =>
    simp only [List.foldl_cons, List.mem_cons]
    obtain ⟨h1, h2, h3, h4⟩ := ih (min st.1 (a.x : Int), max st.2.1 (a.x : Int),
      min st.2.2.1 (a.y : Int), max st.2.2.2 (a.y : Int))
    simp only at h1 h2 h3 h4
    refine ⟨?_, ?_, ?_, ?_⟩
    · rcases h1 with h | ⟨m, hm, h⟩
      · rcases Int.le_total st.1 (a.x : Int) with hle | hle
        · left; rw [h]; omega
        · right; exact ⟨a, Or.inl rfl, by rw [h]; omega⟩
      · right; exact ⟨m, Or.inr hm, h⟩
    · rcases h2 with h | ⟨m, hm, h⟩
      · rcases Int.le_total st.2.1 (a.x : Int) with hle | hle
        · right; exact ⟨a, Or.inl rfl, by rw [h]; omega⟩
        · left; rw [h]; omega
      · right; exact ⟨m, Or.inr hm, h⟩
    · rcases h3 with h | ⟨m, hm, h⟩
      · rcases Int.le_total st.2.2.1 (a.y : Int) with hle | hle
        · left; rw [h]; omega
        · right; exact ⟨a, Or.inl rfl, by rw [h]; omega⟩
      · right; exact ⟨m, Or.inr hm, h⟩
    · rcases h4 with h | ⟨m, hm, h⟩
      · rcases Int.le_total st.2.2.2 (a.y : Int) with hle | hle
        · right; exact ⟨a, Or.inl rfl, by rw [h]; omega⟩
        · left; rw [h]; omega
      · right; exact ⟨m, Or.inr hm, h⟩

/-- On a non-empty entry list with byte coordinates each of the four bounds
of the scan is the coordinate of some entry. -/
theorem scanBounds_attained {l : List LedMapping} {m0 : LedMapping} (h0 : m0 ∈ l)
    (hb : ∀ m ∈ l, m.x ≤ 255 ∧ m.y ≤ 255) :
    (∃ m ∈ l, (MatrixController.scanBounds l).1 = (m.x : Int))
      ∧ (∃ m ∈ l, (MatrixController.scanBounds l).2.1 = (m.x : Int))
      ∧ (∃ m ∈ l, (MatrixController.scanBounds l).2.2.1 = (m.y : Int))
      ∧ (∃ m ∈ l, (MatrixController.scanBounds l).2.2.2 = (m.y : Int)) := by
  obtain ⟨h1, h2, h3, h4⟩ := scanBounds_attained_aux l (255, 0, 255, 0)
  have hm := scanBounds_mem h0
  have hb0 := hb m0 h0
  refine ⟨?_, ?_, ?_, ?_⟩
  · rcases h1 with h | h
    · exact ⟨m0, h0, by unfold MatrixController.scanBounds at hm ⊢; simp only at h; omega⟩
    · exact h
  · rcases h2 with h | h
    · exact ⟨m0, h0, by unfold MatrixController.scanBounds at hm ⊢; simp only at h; omega⟩
    · exact h
  · rcases h3 with h | h
    · exact ⟨m0, h0, by unfold MatrixController.scanBounds at hm ⊢; simp only at h; omega⟩
    · exact h
  · rcases h4 with h | h
    · exact ⟨m0, h0, by unfold MatrixController.scanBounds at hm ⊢; simp only at h; omega⟩
    · exact h

/-- The entries and the bounding box after the sparse initialization, for
coordinates that fit in a byte. -/
theorem initCustom_geometry (c : MatrixController) (hc : c.avr = false)
    (src : Nat → Nat) (rows cols : Nat) (pin : Int) (hrows : rows ≤ 256) (hcols : cols ≤ 256)
    (hcount : (activeCells src rows cols).length ≤ 255) :
    (c.initCustom src rows cols pin).entries
        = (activeCells src rows cols).map
            (fun p => ({ x := p.1, y := p.2, ledId := cellAt src cols p } : LedMapping))
      ∧ (c.initCustom src rows cols pin).actualWidth
        = (MatrixController.scanBounds (c.initCustom src rows cols pin).entries).2.1
          - (MatrixController.scanBounds (c.initCustom src rows cols pin).entries).1 + 1
      ∧ (c.initCustom src rows cols pin).actualHeight
        = (MatrixController.scanBounds (c.initCustom src rows cols pin).entries).2.2.2
          - (MatrixController.scanBounds (c.initCustom src rows cols pin).entries).2.2.1 + 1 := by
  obtain ⟨h1, h2⟩ := convertToSparse_entries c hc src rows cols hrows hcols hcount
  have hav : (c.convertToSparse src rows cols).avr = false := by
    simp [MatrixController.convertToSparse, hc]
  have he : (c.initCustom src rows cols pin).entries
      = (c.convertToSparse src rows cols).entries := by
    simp [MatrixController.initCustom, MatrixController.initStrip,
      MatrixController.computeMatrixDimensions, MatrixController.entries, hav]
  refine ⟨?_, ?_, ?_⟩
  · rw [he]
    simp only [MatrixController.entries, h1, h2]
    rw [List.take_of_length_le (by simp)]
  · rw [he]
    simp [MatrixController.initCustom, MatrixController.initStrip,
      MatrixController.computeMatrixDimensions, hav]
  · rw [he]
    simp [MatrixController.initCustom, MatrixController.initStrip,
      MatrixController.computeMatrixDimensions, hav]

/-- The bounding box of the sparse initialization: the four extrema are
attained by active cells and bound all of them, and the width and the height
are the differences of the extrema plus one. -/
theorem initCustom_box (c : MatrixController) (hc : c.avr = false)
    (src : Nat → Nat) (rows cols : Nat) (pin : Int) (hrows : rows ≤ 256) (hcols : cols ≤ 256)
    (hcount : (activeCells src rows cols).length ≤ 255)
    (p0 : Nat × Nat) (hp0 : p0 ∈ activeCells src rows cols) :
    ∃ minX maxX minY maxY : Nat,
      ((∃ p ∈ activeCells src rows cols, p.1 = minX)
          ∧ ∀ p ∈ activeCells src rows cols, minX ≤ p.1)
        ∧ ((∃ p ∈ activeCells src rows cols, p.1 = maxX)
          ∧ ∀ p ∈ activeCells src rows cols, p.1 ≤ maxX)
        ∧ ((∃ p ∈ activeCells src rows cols, p.2 = minY)
          ∧ ∀ p ∈ activeCells src rows cols, minY ≤ p.2)
        ∧ ((∃ p ∈ activeCells src rows cols, p.2 = maxY)
          ∧ ∀ p ∈ activeCells src rows cols, p.2 ≤ maxY)
        ∧ (c.initCustom src rows cols pin).actualWidth = (maxX : Int) - (minX : Int) + 1
        ∧ (c.initCustom src rows cols pin).actualHeight = (maxY : Int) - (minY : Int) + 1 := by
  obtain ⟨he, hw, hh⟩ := initCustom_geometry c hc src rows cols pin hrows hcols hcount
  rw [hw, hh, he]
  have hmem : ∀ p ∈ activeCells src rows cols,
      ({ x := p.1, y := p.2, ledId := cellAt src cols p } : LedMapping)
        ∈ (activeCells src rows cols).map
            (fun p => ({ x := p.1, y := p.2, ledId := cellAt src cols p } : LedMapping)) :=
    fun p hp => List.mem_map.2 ⟨p, hp, rfl⟩
  have hb : ∀ m ∈ (activeCells src rows cols).map
      (fun p => ({ x := p.1, y := p.2, ledId := cellAt src cols p } : LedMapping)),
      m.x ≤ 255 ∧ m.y ≤ 255 := by
    intro m hm
    obtain ⟨p, hp, rfl⟩ := List.mem_map.1 hm
    have := mem_activeCells.1 hp
    simp only
    omega
  obtain ⟨⟨m1, hm1, e1⟩, ⟨m2, hm2, e2⟩, ⟨m3, hm3, e3⟩, ⟨m4, hm4, e4⟩⟩ :=
    scanBounds_attained (hmem p0 hp0) hb
  obtain ⟨p1, hp1, rfl⟩ := List.mem_map.1 hm1
  obtain ⟨p2, hp2, rfl⟩ := List.mem_map.1 hm2
  obtain ⟨p3, hp3, rfl⟩ := List.mem_map.1 hm3
  obtain ⟨p4, hp4, rfl⟩ := List.mem_map.1 hm4
  simp only at e1 e2 e3 e4
  have hall : ∀ p ∈ activeCells src rows cols,
      (p1.1 : Int) ≤ p.1 ∧ (p.1 : Int) ≤ p2.1 ∧ (p3.2 : Int) ≤ p.2 ∧ (p.2 : Int) ≤ p4.2 := by
    intro p hp
    have := scanBounds_mem (hmem p hp)
    simp only at this
    omega
  have hc2 := mem_activeCells.1 hp2
  have hc4 := mem_activeCells.1 hp4
  have h12 := hall p1 hp1
  have h34 := hall p3 hp3
  refine ⟨p1.1, p2.1, p3.2, p4.2, ⟨⟨p1, hp1, rfl⟩, fun p hp => by have := hall p hp; omega⟩,
    ⟨⟨p2, hp2, rfl⟩, fun p hp => by have := hall p hp; omega⟩,
    ⟨⟨p3, hp3, rfl⟩, fun p hp => by have := hall p hp; omega⟩,
    ⟨⟨p4, hp4, rfl⟩, fun p hp => by have := hall p hp; omega⟩, ?_, ?_⟩
    <;> omega

set_option maxRecDepth 100000 in
/-- C14, counterexample.  In the table `wideTable` of 1 row and 257 columns
the active cells are `(0, 0)` and `(256, 0)`, so `max_x - min_x + 1 = 257`;
the sparse build stores both with `x = 0` and computes width 1.  In the
16 x 16 table `fullTable`, all of whose cells are active, the stored count is
0 and the computed width and height are `0 - 255 + 1 = -254`. -/
theorem C14_bounding_box_wraps :
    activeCells wideTable 1 257 = [(0, 0), (256, 0)]
      ∧ ((MatrixController.new false).initCustom wideTable 1 257 6).actualWidth = 1
      ∧ (activeCells fullTable 16 16).length = 256
      ∧ ((MatrixController.new false).initCustom fullTable 16 16 6).actualWidth = -254
      ∧ ((MatrixController.new false).initCustom fullTable 16 16 6).actualHeight = -254 := by
  refine ⟨?_, ?_, ?_, ?_, ?_⟩ <;> decide

/-- C14 as amended: for a table of at most 256 rows and 256 columns with at
most 255 active cells, at least one of them, the bounding box the sparse
initialization computes is `width = max_x - min_x + 1` and
`height = max_y - min_y + 1`, the extrema taken over the coordinates of all
active cells, and `1 <= width <= cols`, `1 <= height <= rows`. -/
theorem C14_sparse_bounding_box (c : MatrixController) (hc : c.avr = false)
    (src : Nat → Nat) (rows cols : Nat) (pin : Int) (hrows : rows ≤ 256) (hcols : cols ≤ 256)
    (hcount : (activeCells src rows cols).length ≤ 255)
    (p0 : Nat × Nat) (hp0 : p0 ∈ activeCells src rows cols) :
    ∃ minX maxX minY maxY : Nat,
      ((∃ p ∈ activeCells src rows cols, p.1 = minX)
          ∧ ∀ p ∈ activeCells src rows cols, minX ≤ p.1)
        ∧ ((∃ p ∈ activeCells src rows cols, p.1 = maxX)
          ∧ ∀ p ∈ activeCells src rows cols, p.1 ≤ maxX)
        ∧ ((∃ p ∈ activeCells src rows cols, p.2 = minY)
          ∧ ∀ p ∈ activeCells src rows cols, minY ≤ p.2)
        ∧ ((∃ p ∈ activeCells src rows cols, p.2 = maxY)
          ∧ ∀ p ∈ activeCells src rows cols, p.2 ≤ maxY)
        ∧ (c.initCustom src rows cols pin).actualWidth = (maxX : Int) - (minX : Int) + 1
        ∧ (c.initCustom src rows cols pin).actualHeight = (maxY : Int) - (minY : Int) + 1
        ∧ 1 ≤ (c.initCustom src rows cols pin).actualWidth
        ∧ (c.initCustom src rows cols pin).actualWidth ≤ cols
        ∧ 1 ≤ (c.initCustom src rows cols pin).actualHeight
        ∧ (c.initCustom src rows cols pin).actualHeight ≤ rows := by
  obtain ⟨minX, maxX, minY, maxY, hx1, hx2, hy1, hy2, hw, hh⟩ :=
    initCustom_box c hc src rows cols pin hrows hcols hcount p0 hp0
  obtain ⟨⟨q1, hq1, e1⟩, b1⟩ := hx1
  obtain ⟨⟨q2, hq2, e2⟩, b2⟩ := hx2
  obtain ⟨⟨q3, hq3, e3⟩, b3⟩ := hy1
  obtain ⟨⟨q4, hq4, e4⟩, b4⟩ := hy2
  have c2 := mem_activeCells.1 hq2
  have c4 := mem_activeCells.1 hq4
  have m12 := b1 q2 hq2
  have m34 := b3 q4 hq4
  refine ⟨minX, maxX, minY, maxY, ⟨⟨q1, hq1, e1⟩, b1⟩, ⟨⟨q2, hq2, e2⟩, b2⟩,
    ⟨⟨q3, hq3, e3⟩, b3⟩, ⟨⟨q4, hq4, e4⟩, b4⟩, hw, hh, ?_, ?_, ?_, ?_⟩ <;> omega

/-- C14 as amended, at the table `[[0, 1], [2, 255]]`: width 2, height 2. -/
theorem C14_sparse_bounding_box_witness :
    ∃ minX maxX minY maxY : Nat,
      ((∃ p ∈ activeCells exampleTable 2 2, p.1 = minX)
          ∧ ∀ p ∈ activeCells exampleTable 2 2, minX ≤ p.1)
        ∧ ((∃ p ∈ activeCells exampleTable 2 2, p.1 = maxX)
          ∧ ∀ p ∈ activeCells exampleTable 2 2, p.1 ≤ maxX)
        ∧ ((∃ p ∈ activeCells exampleTable 2 2, p.2 = minY)
          ∧ ∀ p ∈ activeCells exampleTable 2 2, minY ≤ p.2)
        ∧ ((∃ p ∈ activeCells exampleTable 2 2, p.2 = maxY)
          ∧ ∀ p ∈ activeCells exampleTable 2 2, p.2 ≤ maxY)
        ∧ ((MatrixController.new false).initCustom exampleTable 2 2 6).actualWidth
            = (maxX : Int) - (minX : Int) + 1
        ∧ ((MatrixController.new false).initCustom exampleTable 2 2 6).actualHeight
            = (maxY : Int) - (minY : Int) + 1
        ∧ 1 ≤ ((MatrixController.new false).initCustom exampleTable 2 2 6).actualWidth
        ∧ ((MatrixController.new false).initCustom exampleTable 2 2 6).actualWidth ≤ (2 : Nat)
        ∧ 1 ≤ ((MatrixController.new false).initCustom exampleTable 2 2 6).actualHeight
        ∧ ((MatrixController.new false).initCustom exampleTable 2 2 6).actualHeight
            ≤ (2 : Nat) :=
  C14_sparse_bounding_box (MatrixController.new false) rfl exampleTable 2 2 6 (by decide)
    (by decide) (by decide) (0, 0) (by decide)

/-! ## Starting a blend -/

theorem set_getElem_same (l : List Nat) (i : Nat) (h : i < l.length) : l.set i l[i] = l := by
  apply List.ext_getElem
  · simp
  · intro n h1 h2
    by_cases hn : i = n
    · subst hn; simp
    · simp [List.getElem_set_ne hn]

theorem lerp_factor_zero (avr : Bool) (c t : Nat) (hc : c < 256) :
    MatrixBlender.lerp avr c t 0 = c := by
  have h0 : wrapInt (intBits avr) 0 = 0 := wrapInt_intBits_of_range avr (by decide) (by decide)
  have hcw : wrapInt (intBits avr) (c : Int) = (c : Int) :=
    wrapInt_intBits_of_range avr (by omega) (by omega)
  simp only [MatrixBlender.lerp, Nat.cast_zero, Int.mul_zero, h0, Int.zero_tdiv, Int.add_zero,
    hcw, toUInt8]
  omega

/-- The interpolation loop at factor 0 leaves an array of bytes as it is. -/
theorem interpolate_loop_zero (avr : Bool) (n : Nat) (tgt cur : List Nat)
    (hcur : ∀ v ∈ cur, v < 256) :
    forLoop n (fun i img =>
        img.set i (MatrixBlender.lerp avr (img.getD i 0) (tgt.getD i 0) 0)) cur = cur := by
  have body : ∀ (i : Nat) (img : List Nat), (∀ v ∈ img, v < 256) →
      img.set i (MatrixBlender.lerp avr (img.getD i 0) (tgt.getD i 0) 0) = img := by
    intro i img himg
    by_cases hi : i < img.length
    · have hv : img.getD i 0 < 256 := by
        rw [List.getD_eq_getElem _ _ hi]
        exact himg _ (List.getElem_mem hi)
      rw [lerp_factor_zero avr _ _ hv, List.getD_eq_getElem _ _ hi]
      exact set_getElem_same img i hi
    · exact List.set_eq_of_length_le (by omega)
  induction n with
  | zero => rfl
  | succ n ih => rw [forLoop_succ, ih, body n cur hcur]

/-- The interpolation at factor 0 changes neither the color nor the image. -/
theorem interpolate_zero (b : MatrixBlender) (hb : b.Bytes) :
    b.interpolate 0 = b := by
  obtain ⟨hr, hg, hbl, himg, _⟩ := hb
  have hc : (if b.blendingColor = true then
        ({ r := MatrixBlender.lerp b.matrix.avr b.currentColor.r b.targetColor.r 0
           g := MatrixBlender.lerp b.matrix.avr b.currentColor.g b.targetColor.g 0
           b := MatrixBlender.lerp b.matrix.avr b.currentColor.b b.targetColor.b 0 } : RGB)
      else b.currentColor) = b.currentColor := by
    split
    · rw [lerp_factor_zero _ _ _ hr, lerp_factor_zero _ _ _ hg, lerp_factor_zero _ _ _ hbl]
    · rfl
  have hi : (if b.blendingImage = true then
        forLoop b.imageSize.toNat (fun i img =>
          img.set i (MatrixBlender.lerp b.matrix.avr (img.getD i 0) (b.targetImage.getD i 0) 0))
          b.currentImage
      else b.currentImage) = b.currentImage := by
    split
    · exact interpolate_loop_zero _ _ _ _ himg
    · rfl
  simp only [MatrixBlender.interpolate, Nat.zero_mod, hc, hi]

/-- C11: for every blend-engine state, `blendToColor(r, g, b, d)` at clock
value `now` sets `targetColor = (r, g, b)`, `blendTime = d`,
`blendStartTime = now`, `blending = true` and `blendingColor = true`; its
priming render at factor 0 leaves `currentColor`, `currentImage`,
`targetImage` and `blendingImage` unchanged, and the frame it renders is the
render of the state before the blend, that is, of the pre-blend color. -/
theorem C11_blendToColor_primes_with_current_color (b : MatrixBlender)
    (r g bl d now : Nat) (hbytes : b.Bytes)
    (hr : r < 256) (hg : g < 256) (hbl : bl < 256) (hd : d < 2 ^ 32) (hnow : now < 2 ^ 32) :
    (b.blendToColor r g bl d now).targetColor = ⟨r, g, bl⟩
      ∧ (b.blendToColor r g bl d now).blendTime = d
      ∧ (b.blendToColor r g bl d now).blendStartTime = now
      ∧ (b.blendToColor r g bl d now).blending = true
      ∧ (b.blendToColor r g bl d now).blendingColor = true
      ∧ (b.blendToColor r g bl d now).currentColor = b.currentColor
      ∧ (b.blendToColor r g bl d now).currentImage = b.currentImage
      ∧ (b.blendToColor r g bl d now).targetImage = b.targetImage
      ∧ (b.blendToColor r g bl d now).blendingImage = b.blendingImage
      ∧ (b.blendToColor r g bl d now).matrix = b.render.matrix := by
  have hz : ({ b with
      targetColor := ⟨r % 256, g % 256, bl % 256⟩
      blendTime := d % 2 ^ 32
      blendStartTime := now % 2 ^ 32
      blending := true
      blendingColor := true } : MatrixBlender).interpolate 0
      = { b with
          targetColor := ⟨r % 256, g % 256, bl % 256⟩
          blendTime := d % 2 ^ 32
          blendStartTime := now % 2 ^ 32
          blending := true
          blendingColor := true } := interpolate_zero _ hbytes
  simp only [MatrixBlender.blendToColor, MatrixBlender.blendUnified, hz]
  refine ⟨?_, ?_, ?_, ?_, ?_, ?_, ?_, ?_, ?_, ?_⟩
  · simp only [MatrixBlender.render, Nat.mod_eq_of_lt hr, Nat.mod_eq_of_lt hg,
      Nat.mod_eq_of_lt hbl]
  · simp only [MatrixBlender.render, Nat.mod_eq_of_lt hd]
  · simp only [MatrixBlender.render, Nat.mod_eq_of_lt hnow]
  · rfl
  · rfl
  · rfl
  · rfl
  · rfl
  · rfl
  · rfl

/-- C11 on the blender `exampleBlender`, which is in the middle of an image
blend: `blendToColor(1, 2, 3, 500)` at time 700. -/
theorem C11_blendToColor_primes_with_current_color_witness :
    (exampleBlender.blendToColor 1 2 3 500 700).targetColor = ⟨1, 2, 3⟩
      ∧ (exampleBlender.blendToColor 1 2 3 500 700).currentColor = exampleBlender.currentColor
      ∧ (exampleBlender.blendToColor 1 2 3 500 700).currentImage = exampleBlender.currentImage
      ∧ (exampleBlender.blendToColor 1 2 3 500 700).matrix = exampleBlender.render.matrix :=
  ⟨(C11_blendToColor_primes_with_current_color exampleBlender 1 2 3 500 700
      ⟨by decide, by decide, by decide, by decide, by decide⟩
      (by decide) (by decide) (by decide) (by decide) (by decide)).1,
   (C11_blendToColor_primes_with_current_color exampleBlender 1 2 3 500 700
      ⟨by decide, by decide, by decide, by decide, by decide⟩
      (by decide) (by decide) (by decide) (by decide) (by decide)).2.2.2.2.2.1,
   (C11_blendToColor_primes_with_current_color exampleBlender 1 2 3 500 700
      ⟨by decide, by decide, by decide, by decide, by decide⟩
      (by decide) (by decide) (by decide) (by decide) (by decide)).2.2.2.2.2.2.1,
   (C11_blendToColor_primes_with_current_color exampleBlender 1 2 3 500 700
      ⟨by decide, by decide, by decide, by decide, by decide⟩
      (by decide) (by decide) (by decide) (by decide) (by decide)).2.2.2.2.2.2.2.2.2⟩

/-! ## The target image -/

theorem foldl_set_length {α : Type} (l : List α) (idx : α → Nat) (v : α → Nat)
    (img : List Nat) :
    (l.foldl (fun img p => img.set (idx p) (v p)) img).length = img.length := by
  induction l generalizing img with
  | nil => rfl
  | cons p l ih => simp only [List.foldl_cons]; rw [ih]; simp

theorem foldl_set_other {α : Type} (l : List α) (idx : α → Nat) (v : α → Nat)
    (img : List Nat) (i : Nat) (h : ∀ p ∈ l, idx p ≠ i) :
    (l.foldl (fun img p => img.set (idx p) (v p)) img)[i]? = img[i]? := by
  induction l generalizing img with
  | nil => rfl
  | cons p l ih =>
    simp only [List.foldl_cons]
    rw [ih _ (fun q hq => h q (List.mem_cons_of_mem _ hq))]
    exact List.getElem?_set_ne (h p (List.mem_cons_self _ _))

/-- A loop of array writes: the cell of a write that is not overwritten with
another value holds the value written. -/
theorem foldl_set_get {α : Type} (l : List α) (idx : α → Nat) (v : α → Nat)
    (img : List Nat) (q : α) (hq : q ∈ l) (hlt : idx q < img.length)
    (hsame : ∀ p ∈ l, idx p = idx q → v p = v q) :
    (l.foldl (fun img p => img.set (idx p) (v p)) img)[idx q]? = some (v q) := by
  induction l generalizing img q with
  | nil => simp at hq
  | cons p l ih =>
    simp only [List.foldl_cons]
    by_cases hex : ∃ p' ∈ l, idx p' = idx q
    · obtain ⟨p', hp', he⟩ := hex
      have hv : v p' = v q := hsame p' (List.mem_cons_of_mem _ hp') he
      have := ih (img.set (idx p) (v p)) p' hp' (by rw [List.length_set, he]; exact hlt)
        (fun r hr hri => by
          rw [hv]
          exact hsame r (List.mem_cons_of_mem _ hr) (by rw [hri, he]))
      rw [← he, this, hv]
    · have hno : ∀ p' ∈ l, idx p' ≠ idx q := fun p' hp' he => hex ⟨p', hp', he⟩
      rw [foldl_set_other l idx v _ _ hno]
      have hqp : q = p := by
        rcases List.mem_cons.1 hq with h | h
        · exact h
        · exact absurd rfl (hno q h)
      subst hqp
      simp [hlt]

theorem targetValue_eq (image : Nat → Bool) (imageRows imageCols offsetX offsetY : Int)
    (x y : Nat) :
    MatrixBlender.targetValue image imageRows imageCols offsetX offsetY x y
      = if MatrixController.shouldLight image imageRows imageCols offsetX offsetY x y = true
        then 255 else 0 := by
  simp only [MatrixBlender.targetValue, MatrixController.shouldLight]
  split
  · rfl
  · simp

/-- The loop of `blendToImage` over the logical cells: the cell `(x, y)` of
the target image, at index `y * width + x`, holds 255 if the image lights
`(x, y)` and 0 otherwise. -/
theorem targetImage_loop (W H : Int) (hW : 1 ≤ W) (hH : 1 ≤ H) (v : Nat → Nat → Nat)
    (tgt : List Nat) (hlen : tgt.length = (W * H).toNat) (x y : Nat)
    (hx : (x : Int) < W) (hy : (y : Int) < H) :
    (forLoop H.toNat (fun y img =>
        forLoop W.toNat (fun x img =>
          img.set ((y : Int) * W + (x : Int)).toNat (v x y)) img) tgt)[y * W.toNat + x]?
      = some (v x y) := by
  rw [forLoop_nested H.toNat W.toNat
    (fun x y (img : List Nat) => img.set ((y : Int) * W + (x : Int)).toNat (v x y))]
  have hWn : ((W.toNat : Nat) : Int) = W := Int.toNat_of_nonneg (by omega)
  have hHn : ((H.toNat : Nat) : Int) = H := Int.toNat_of_nonneg (by omega)
  have hidx : ∀ p : Nat × Nat, ((p.2 : Int) * W + (p.1 : Int)).toNat = p.2 * W.toNat + p.1 := by
    intro p
    have : (p.2 : Int) * W + (p.1 : Int) = ((p.2 * W.toNat + p.1 : Nat) : Int) := by
      push_cast; rw [hWn]
    rw [this, Int.toNat_ofNat]
  have hxn : x < W.toNat := by omega
  have hyn : y < H.toNat := by omega
  have hsize : (W * H).toNat = W.toNat * H.toNat := by
    have : W * H = ((W.toNat * H.toNat : Nat) : Int) := by push_cast; rw [hWn, hHn]
    rw [this, Int.toNat_ofNat]
  have hlt : y * W.toNat + x < tgt.length := by
    rw [hlen, hsize]
    calc y * W.toNat + x < y * W.toNat + W.toNat := by omega
      _ = W.toNat * (y + 1) := by ring
      _ ≤ W.toNat * H.toNat := Nat.mul_le_mul_left _ (by omega)
  have := foldl_set_get (cells H.toNat W.toNat)
    (fun p => ((p.2 : Int) * W + (p.1 : Int)).toNat) (fun p => v p.1 p.2) tgt (x, y)
    (mem_cells.2 ⟨hxn, hyn⟩) (by beta_reduce; rw [hidx]; exact hlt)
    (by
      intro p hp he
      beta_reduce at he ⊢
      rw [hidx, hidx] at he
      have hp1 := (mem_cells.1 hp).1
      simp only at he
      have hy2 : p.2 = y := by
        by_contra hne
        rcases Nat.lt_or_gt_of_ne hne with h | h
        · have : (p.2 + 1) * W.toNat ≤ y * W.toNat := Nat.mul_le_mul_right _ h
          have : p.2 * W.toNat + W.toNat ≤ y * W.toNat := by rw [← Nat.succ_mul]; exact this
          omega
        · have : (y + 1) * W.toNat ≤ p.2 * W.toNat := Nat.mul_le_mul_right _ h
          have : y * W.toNat + W.toNat ≤ p.2 * W.toNat := by rw [← Nat.succ_mul]; exact this
          omega
      have hx2 : p.1 = x := by rw [hy2] at he; omega
      simp only [hx2, hy2])
  beta_reduce at this
  rw [hidx] at this
  exact this

/-- C12: for every controller with width, height >= 1, every mask and every
logical cell `(x, y)` with `x < width` and `y < height`, after `blendToImage`
the cell `targetImage[y * width + x]` is 255 if the lighting test of
`setImage` (same mask, same centering offsets) lights `(x, y)` and 0
otherwise; for non-negative mask dimensions that test is the rule
"`(x - offsetX, y - offsetY)` lies inside the mask and the mask is true
there" with `offsetX = floor(width / 2) - floor(maskCols / 2)`.
`blendingImage` and `blending` are set, `blendingColor` is left as it was by
the plain overload and set by the overload with a color, which also stores
the target color. -/
theorem C12_blendToImage_target (b : MatrixBlender) (image : Nat → Bool)
    (imageRows imageCols : Int) (duration now r g bl : Nat)
    (hW : 1 ≤ b.matrix.actualWidth) (hH : 1 ≤ b.matrix.actualHeight)
    (hlen : b.targetImage.length = (b.matrix.actualWidth * b.matrix.actualHeight).toNat)
    (x y : Nat) (hx : (x : Int) < b.matrix.actualWidth) (hy : (y : Int) < b.matrix.actualHeight) :
    (b.blendToImage image imageRows imageCols duration now).targetImage[
          y * b.matrix.actualWidth.toNat + x]?
        = some (if MatrixController.shouldLight image imageRows imageCols
              (MatrixController.centerOffset b.matrix.actualWidth imageCols)
              (MatrixController.centerOffset b.matrix.actualHeight imageRows) x y = true
            then 255 else 0)
      ∧ (0 ≤ imageRows → 0 ≤ imageCols →
          MatrixController.shouldLight image imageRows imageCols
              (MatrixController.centerOffset b.matrix.actualWidth imageCols)
              (MatrixController.centerOffset b.matrix.actualHeight imageRows) x y
            = specLit image imageRows imageCols b.matrix.actualWidth b.matrix.actualHeight x y)
      ∧ (b.blendToImage image imageRows imageCols duration now).blendingImage = true
      ∧ (b.blendToImage image imageRows imageCols duration now).blending = true
      ∧ (b.blendToImage image imageRows imageCols duration now).blendingColor = b.blendingColor
      ∧ (b.blendToImageColor image imageRows imageCols r g bl duration now).targetImage
          = (b.blendToImage image imageRows imageCols duration now).targetImage
      ∧ (b.blendToImageColor image imageRows imageCols r g bl duration now).blendingImage = true
      ∧ (b.blendToImageColor image imageRows imageCols r g bl duration now).blending = true
      ∧ (b.blendToImageColor image imageRows imageCols r g bl duration now).blendingColor = true
      ∧ (b.blendToImageColor image imageRows imageCols r g bl duration now).targetColor
          = ⟨r % 256, g % 256, bl % 256⟩ := by
  refine ⟨?_, ?_, rfl, rfl, rfl, rfl, rfl, rfl, rfl, rfl⟩
  · have ht : (b.blendToImage image imageRows imageCols duration now).targetImage
        = forLoop b.matrix.actualHeight.toNat (fun y img =>
            forLoop b.matrix.actualWidth.toNat (fun x img =>
              img.set ((y : Int) * b.matrix.actualWidth + (x : Int)).toNat
                (MatrixBlender.targetValue image imageRows imageCols
                  (MatrixController.centerOffset b.matrix.actualWidth imageCols)
                  (MatrixController.centerOffset b.matrix.actualHeight imageRows) x y))
              img) b.targetImage := rfl
    rw [ht, targetImage_loop b.matrix.actualWidth b.matrix.actualHeight hW hH
      (fun x y => MatrixBlender.targetValue image imageRows imageCols
        (MatrixController.centerOffset b.matrix.actualWidth imageCols)
        (MatrixController.centerOffset b.matrix.actualHeight imageRows) x y)
      b.targetImage hlen x y hx hy, targetValue_eq]
  · intro hR hC
    exact shouldLight_eq_specLit image hR hC (by omega) (by omega) x y

/-- C12 on the blender `blackSparse` (a 2 x 2 matrix) with the 1 x 2 mask
`[true, false]`: offsets `(0, 1)`, so the cell `(0, 1)`, index 2, is 255. -/
theorem C12_blendToImage_target_witness :
    (blackSparse.blendToImage exampleMask 1 2 1000 0).targetImage[
          1 * blackSparse.matrix.actualWidth.toNat + 0]?
        = some (if MatrixController.shouldLight exampleMask 1 2
              (MatrixController.centerOffset blackSparse.matrix.actualWidth 2)
              (MatrixController.centerOffset blackSparse.matrix.actualHeight 1) 0 1 = true
            then 255 else 0)
      ∧ (blackSparse.blendToImageColor exampleMask 1 2 9 8 7 1000 0).blendingColor = true :=
  ⟨(C12_blendToImage_target blackSparse exampleMask 1 2 1000 0 9 8 7 (by decide) (by decide)
      (by decide) 0 1 (by decide) (by decide)).1,
   (C12_blendToImage_target blackSparse exampleMask 1 2 1000 0 9 8 7 (by decide) (by decide)
      (by decide) 0 1 (by decide) (by decide)).2.2.2.2.2.2.2.2.1⟩

/-- The target image of the scenario of the witness of C12, on both builds:
only the cell `(0, 1)` is 255. -/
theorem blendToImage_scenario :
    (blackSparse.blendToImage exampleMask 1 2 1000 0).targetImage = [0, 0, 255, 0]
      ∧ (blackDense.blendToImage exampleMask 1 2 1000 0).targetImage = [0, 0, 255, 0] := by
  refine ⟨?_, ?_⟩ <;> decide

/-! ## The blend render -/

/-- Writing the colors `col p` at the indices `idx p`, in order: the calls
made. -/
theorem writesAt_calls {α : Type} (idx : α → Nat) (col : α → RGB) (l : List α) (s : Strip) :
    (l.foldl (fun s p => s.setPixelColor (idx p) (col p)) s).calls
      = s.calls ++ l.map (fun p => StripCall.setPixelColor (idx p) (col p)) := by
  induction l generalizing s with
  | nil => simp
  | cons p l ih =>
    simp only [List.foldl_cons, List.map_cons]
    rw [ih]
    simp [Strip.setPixelColor]

theorem writesAt_length {α : Type} (idx : α → Nat) (col : α → RGB) (l : List α) (s : Strip) :
    (l.foldl (fun s p => s.setPixelColor (idx p) (col p)) s).pixels.length
      = s.pixels.length := by
  induction l generalizing s with
  | nil => simp
  | cons p l ih =>
    simp only [List.foldl_cons]
    rw [ih]
    simp only [Strip.setPixelColor]
    split <;> simp

/-- The loop of the blend render over the active elements, on either
platform: one write per active cell, in scan order, after the clear and
before the flush. -/
theorem render_strip (b : MatrixBlender) {src : Nat → Nat} {rows cols : Nat}
    (h : InitializedFrom b.matrix src rows cols) :
    b.render.matrix.strip
      = ((activeCells src rows cols).foldl
          (fun s p => s.setPixelColor (cellAt src cols p) (b.renderColor p.1 p.2))
          b.matrix.strip.clear).showPixels := by
  have hrows : rows ≤ 256 := h.rows_le
  have hcols : cols ≤ 256 := h.cols_le
  cases ha : b.matrix.avr with
  | true =>
    obtain ⟨h1, h2, h3, _, _⟩ := h.dense ha
    simp only [MatrixBlender.render, ha, if_true, h1, h2, h3]
    rw [forLoop_nested rows cols (fun x y (strip : Strip) =>
      if (src (y * cols + x) % 256 != 255) = true then
        strip.setPixelColor (src (y * cols + x) % 256) (b.renderColor x y)
      else strip)]
    rw [foldl_active src cols (cells rows cols) (fun p (strip : Strip) =>
        strip.setPixelColor (src (p.2 * cols + p.1) % 256) (b.renderColor p.1 p.2))]
    rfl
  | false =>
    have hmap : (activeCells src rows cols).map (entryOf src cols)
        = (activeCells src rows cols).map
            (fun p => ({ x := p.1, y := p.2, ledId := cellAt src cols p } : LedMapping)) := by
      apply List.map_congr_left
      intro p hp
      have := mem_activeCells.1 hp
      simp only [entryOf]
      rw [Nat.mod_eq_of_lt (by omega), Nat.mod_eq_of_lt (by omega)]
    simp only [MatrixBlender.render, ha, Bool.false_eq_true, if_false, h.sparse ha, hmap]
    rw [List.foldl_map]

theorem readImage_lt (outside : Int → Nat) (img : List Nat) (index : Int)
    (himg : ∀ v ∈ img, v < 256) : MatrixBlender.readImage outside img index < 256 := by
  unfold MatrixBlender.readImage
  split
  · rename_i hi
    rw [List.getD_eq_getElem _ _ hi.2]
    exact himg _ (List.getElem_mem hi.2)
  · exact Nat.mod_lt _ (by decide)

/-- A read at an index of the array returns the cell, whatever the memory
next to the array holds. -/
theorem readImage_inside (outside : Int → Nat) (img : List Nat) (index : Int)
    (h0 : 0 ≤ index) (h1 : index.toNat < img.length) :
    MatrixBlender.readImage outside img index = img.getD index.toNat 0 := by
  unfold MatrixBlender.readImage
  rw [if_pos ⟨h0, h1⟩]

theorem maskValue_lt (b : MatrixBlender) (hb : b.Bytes) (x y : Nat) :
    b.maskValue x y < 256 := by
  unfold MatrixBlender.maskValue
  simp only
  split
  · exact readImage_lt _ _ _ hb.2.2.2.1
  · decide

/-- The two scalings of a byte by bytes: the result of the 8-bit computation
is the exact value, it does not exceed the channel, and it is the channel
when both scalars are 255. -/
theorem scale_twice (c m B : Nat) (hc : c < 256) (hm : m < 256) (hB : B < 256) :
    MatrixController.scale ((c * m / 255) % 256) B = specChannel c m B
      ∧ specChannel c m B ≤ c
      ∧ (m = 255 → B = 255 → specChannel c m B = c) := by
  have h1 : c * m / 255 ≤ c := Nat.div_le_of_le_mul (by nlinarith)
  have h2 : (c * m / 255) * B / 255 ≤ c * m / 255 :=
    Nat.div_le_of_le_mul (by
      rw [Nat.mul_comm 255]
      exact Nat.mul_le_mul_left _ (by omega))
  refine ⟨?_, ?_, ?_⟩
  · rw [Nat.mod_eq_of_lt (by omega), scale_eq (by omega) hB]
    rfl
  · unfold specChannel; omega
  · intro hm255 hB255
    subst hm255; subst hB255
    unfold specChannel
    rw [Nat.mul_div_cancel _ (by decide), Nat.mul_div_cancel _ (by decide)]

theorem renderColor_eq (b : MatrixBlender) (hb : b.Bytes) (x y : Nat) :
    b.renderColor x y
      = ⟨specChannel b.currentColor.r (b.maskValue x y) b.matrix.maxBrightness,
         specChannel b.currentColor.g (b.maskValue x y) b.matrix.maxBrightness,
         specChannel b.currentColor.b (b.maskValue x y) b.matrix.maxBrightness⟩ := by
  have hm := maskValue_lt b hb x y
  obtain ⟨hr, hg, hbl, _, hB⟩ := hb
  simp only [MatrixBlender.renderColor, (scale_twice _ _ _ hr hm hB).1,
    (scale_twice _ _ _ hg hm hB).1, (scale_twice _ _ _ hbl hm hB).1]

/-- The interpolation keeps bytes bytes. -/
theorem interpolate_bytes (b : MatrixBlender) (hb : b.Bytes) (f : Nat) :
    (b.interpolate f).Bytes := by
  obtain ⟨hr, hg, hbl, himg, hB⟩ := hb
  have hloop : ∀ (n : Nat) (img : List Nat), (∀ v ∈ img, v < 256) →
      ∀ v ∈ forLoop n (fun i img =>
        img.set i (MatrixBlender.lerp b.matrix.avr (img.getD i 0) (b.targetImage.getD i 0)
          (f % 256))) img, v < 256 := by
    intro n
    induction n with
    | zero => intro img himg v hv; exact himg v hv
    | succ n ih =>
      intro img himg v hv
      rw [forLoop_succ] at hv
      rcases List.mem_or_eq_of_mem_set hv with h | h
      · exact ih img himg v h
      · rw [h]; exact lerp_lt _ _ _ _
  simp only [MatrixBlender.Bytes, MatrixBlender.interpolate]
  refine ⟨?_, ?_, ?_, ?_, hB⟩
  · split
    · exact lerp_lt _ _ _ _
    · exact hr
  · split
    · exact lerp_lt _ _ _ _
    · exact hg
  · split
    · exact lerp_lt _ _ _ _
    · exact hbl
  · split
    · exact hloop _ _ himg
    · exact himg

/-- The interpolation keeps the number of cells of the current image. -/
theorem interpolate_length_eq (b : MatrixBlender) (f : Nat) :
    (b.interpolate f).currentImage.length = b.currentImage.length := by
  simp only [MatrixBlender.interpolate]
  split
  · exact forLoop_length _ _ (fun i l => by simp) _
  · rfl

/-! ## Mask index and bounding box -/

/-- The bounding box of an initialized sparse controller, as in
`initCustom_box`. -/
theorem InitializedFrom.box {c : MatrixController} {src : Nat → Nat} {rows cols : Nat}
    (h : InitializedFrom c src rows cols) (ha : c.avr = false)
    (p0 : Nat × Nat) (hp0 : p0 ∈ activeCells src rows cols) :
    ∃ minX maxX minY maxY : Nat,
      ((∃ p ∈ activeCells src rows cols, p.1 = minX)
          ∧ ∀ p ∈ activeCells src rows cols, minX ≤ p.1)
        ∧ ((∃ p ∈ activeCells src rows cols, p.1 = maxX)
          ∧ ∀ p ∈ activeCells src rows cols, p.1 ≤ maxX)
        ∧ ((∃ p ∈ activeCells src rows cols, p.2 = minY)
          ∧ ∀ p ∈ activeCells src rows cols, minY ≤ p.2)
        ∧ ((∃ p ∈ activeCells src rows cols, p.2 = maxY)
          ∧ ∀ p ∈ activeCells src rows cols, p.2 ≤ maxY)
        ∧ c.actualWidth = (maxX : Int) - (minX : Int) + 1
        ∧ c.actualHeight = (maxY : Int) - (minY : Int) + 1 := by
  have hr := h.rows_le
  have hcl := h.cols_le
  have hcount := h.count_le ha
  obtain ⟨_, _, _, _, _, _, c0, pin, h0, _, _, _, _, _, h6, h7, _⟩ := h
  rw [ha] at h0
  rw [initFrom_eq_initCustom c0 h0] at h6 h7
  rw [h6, h7]
  exact initCustom_box c0 h0 src rows cols pin hr hcl hcount p0 hp0

/-- The part of C17 the code keeps: on the dense build, and on the sparse
build when some active cell lies in column 0 and some in row 0, every active
element has `x < width` and `y < height`, and its mask index `y * width + x`
lies in `[0, width * height)`. -/
theorem render_index_in_range {c : MatrixController} {src : Nat → Nat} {rows cols : Nat}
    (h : InitializedFrom c src rows cols)
    (horigin : c.avr = true
      ∨ ((∃ q ∈ activeCells src rows cols, q.1 = 0) ∧ (∃ q ∈ activeCells src rows cols, q.2 = 0)))
    (p : Nat × Nat) (hp : p ∈ activeCells src rows cols) :
    (p.1 : Int) < c.actualWidth ∧ (p.2 : Int) < c.actualHeight
      ∧ 0 ≤ (p.2 : Int) * c.actualWidth + (p.1 : Int)
      ∧ (p.2 : Int) * c.actualWidth + (p.1 : Int) < c.actualWidth * c.actualHeight := by
  have hxy : (p.1 : Int) < c.actualWidth ∧ (p.2 : Int) < c.actualHeight := by
    cases ha : c.avr with
    | true =>
      obtain ⟨_, _, _, h4, h5⟩ := h.dense ha
      have := mem_activeCells.1 hp
      omega
    | false =>
      rcases horigin with h1 | ⟨⟨q1, hq1, e1⟩, ⟨q2, hq2, e2⟩⟩
      · rw [ha] at h1; cases h1
      · obtain ⟨minX, maxX, minY, maxY, ⟨_, b1⟩, ⟨_, b2⟩, ⟨_, b3⟩, ⟨_, b4⟩, hw, hh⟩ :=
          h.box ha p hp
        have := b1 q1 hq1
        have := b3 q2 hq2
        have := b2 p hp
        have := b4 p hp
        omega
  obtain ⟨hx, hy⟩ := hxy
  refine ⟨hx, hy, ?_, ?_⟩
  · have : 0 ≤ (p.2 : Int) * c.actualWidth := Int.mul_nonneg (by omega) (by omega)
    omega
  · have h1 : ((p.2 : Int) + 1) * c.actualWidth ≤ c.actualHeight * c.actualWidth :=
      Int.mul_le_mul_of_nonneg_right (by omega) (by omega)
    have h2 : ((p.2 : Int) + 1) * c.actualWidth = (p.2 : Int) * c.actualWidth + c.actualWidth := by
      ring
    have h3 : c.actualHeight * c.actualWidth = c.actualWidth * c.actualHeight := by ring
    omega

theorem render_index_in_range_witness :
    ((0 : Nat) : Int) < exampleDense.actualWidth ∧ ((1 : Nat) : Int) < exampleDense.actualHeight
      ∧ 0 ≤ ((1 : Nat) : Int) * exampleDense.actualWidth + ((0 : Nat) : Int)
      ∧ ((1 : Nat) : Int) * exampleDense.actualWidth + ((0 : Nat) : Int)
          < exampleDense.actualWidth * exampleDense.actualHeight :=
  render_index_in_range exampleDense_initialized (Or.inl rfl) (0, 1) (by decide)

/-- C17, failing input: the sparse build initialized from the table
`[[255, 0, 1], [255, 2, 3]]`, whose column 0 is empty.  The bounding box is
2 x 2 and the blender allocates 4 mask cells, but the entries keep the table
coordinates `x = 1, 2`: the element at `(2, 0)` has `x = 2 >= width`, its mask
index `0 * 2 + 2 = 2` is the index `blendToImage` writes for the logical cell
`(0, 1)`, and the element at `(2, 1)` reads index 4, past the array.  After a
blend to the full 2 x 2 mask has completed, the element at `(2, 0)` (physical
index 1) is lit, with the mask of another cell, where `setImage` with the same
mask leaves it dark.  The dense build on the same table, whose width is the 3
columns of the table, keeps `x < width`. -/
theorem C17_sparse_coordinates_outside_bounding_box :
    shiftedSparse.entries = [⟨1, 0, 0⟩, ⟨2, 0, 1⟩, ⟨1, 1, 2⟩, ⟨2, 1, 3⟩]
      ∧ shiftedSparse.actualWidth = 2
      ∧ shiftedSparse.actualHeight = 2
      ∧ (MatrixBlender.new shiftedSparse ⟨0, 0, 0⟩ (fun _ => 0)).imageSize = 4
      ∧ (MatrixBlender.new shiftedSparse ⟨0, 0, 0⟩ (fun _ => 0)).currentImage.length = 4
      ∧ ¬ (((2 : Nat) : Int) < shiftedSparse.actualWidth)
      ∧ ((0 : Nat) : Int) * shiftedSparse.actualWidth + ((2 : Nat) : Int)
          = ((1 : Nat) : Int) * shiftedSparse.actualWidth + ((0 : Nat) : Int)
      ∧ ¬ (((1 : Nat) : Int) * shiftedSparse.actualWidth + ((2 : Nat) : Int)
          < shiftedSparse.actualWidth * shiftedSparse.actualHeight)
      ∧ (((MatrixBlender.new shiftedSparse ⟨0, 0, 0⟩ (fun _ => 0)).blendToImage fullMask 2 2 10 0).update
          10).matrix.strip.pixels[1]? = some ⟨0, 0, 255⟩
      ∧ (shiftedSparse.setImage fullMask 2 2).strip.pixels[1]? = some ⟨0, 0, 0⟩
      ∧ shiftedDense.actualWidth = 3 := by
  refine ⟨?_, ?_, ?_, ?_, ?_, ?_, ?_, ?_, ?_, ?_, ?_⟩ <;> decide

/-! ## The two scalings of the blend render -/

/-- The part of C16 the code keeps.  On a controller that has the geometry
`init` computes from its table (`InitializedFrom`), for a blender whose
current image has the `width * height` cells the constructor allocates, and,
on the sparse build, when some active cell lies in column 0 and some in row 0
(so that every mask index lies inside the array, see C17): for every factor,
the calls `blendUnified` makes to the strip are a clear, one write per active
element in scan order, and a flush; the color written for the element of the
active cell `(x, y)` has each channel equal to `((c * m) / 255 * B) / 255`
(truncating divisions), where `c` is the interpolated current channel, `B` is
`maxBrightness` and `m` is the cell `y * width + x` of the interpolated
`currentImage` when `blendingImage` is set and 255 otherwise; the written
channel never exceeds `c` and equals `c` when `m = 255` and `B = 255`. -/
theorem render_two_scalings (b : MatrixBlender) (src : Nat → Nat) (rows cols : Nat)
    (h : InitializedFrom b.matrix src rows cols) (hb : b.Bytes) (f : Nat)
    (hlen : b.currentImage.length = (b.matrix.actualWidth * b.matrix.actualHeight).toNat)
    (horigin : b.matrix.avr = true
      ∨ ((∃ q ∈ activeCells src rows cols, q.1 = 0) ∧ (∃ q ∈ activeCells src rows cols, q.2 = 0))) :
    (b.blendUnified f).matrix.strip.calls
        = b.matrix.strip.calls ++ [StripCall.clear]
          ++ (activeCells src rows cols).map (fun p =>
              StripCall.setPixelColor (cellAt src cols p)
                ((b.interpolate f).renderColor p.1 p.2))
          ++ [StripCall.showCall]
      ∧ ∀ p ∈ activeCells src rows cols, ∃ m : Nat,
          (b.blendingImage = true →
            (b.interpolate f).currentImage[
              ((p.2 : Int) * b.matrix.actualWidth + (p.1 : Int)).toNat]? = some m)
          ∧ (b.blendingImage = false → m = 255)
          ∧ (b.interpolate f).renderColor p.1 p.2
              = ⟨((b.interpolate f).currentColor.r * m / 255) * b.matrix.maxBrightness / 255,
                 ((b.interpolate f).currentColor.g * m / 255) * b.matrix.maxBrightness / 255,
                 ((b.interpolate f).currentColor.b * m / 255) * b.matrix.maxBrightness / 255⟩
          ∧ ((b.interpolate f).currentColor.r * m / 255) * b.matrix.maxBrightness / 255
              ≤ (b.interpolate f).currentColor.r
          ∧ ((b.interpolate f).currentColor.g * m / 255) * b.matrix.maxBrightness / 255
              ≤ (b.interpolate f).currentColor.g
          ∧ ((b.interpolate f).currentColor.b * m / 255) * b.matrix.maxBrightness / 255
              ≤ (b.interpolate f).currentColor.b
          ∧ (m = 255 → b.matrix.maxBrightness = 255 →
              (b.interpolate f).renderColor p.1 p.2 = (b.interpolate f).currentColor) := by
  have hbi := interpolate_bytes b hb f
  have hmat : (b.interpolate f).matrix = b.matrix := rfl
  have hflag : (b.interpolate f).blendingImage = b.blendingImage := rfl
  have hinit : InitializedFrom (b.interpolate f).matrix src rows cols := by rw [hmat]; exact h
  have hr : (b.interpolate f).currentColor.r < 256 := hbi.1
  have hg : (b.interpolate f).currentColor.g < 256 := hbi.2.1
  have hbl : (b.interpolate f).currentColor.b < 256 := hbi.2.2.1
  have hB : b.matrix.maxBrightness < 256 := hb.2.2.2.2
  refine ⟨?_, ?_⟩
  · simp only [MatrixBlender.blendUnified]
    rw [render_strip _ hinit]
    simp only [Strip.showPixels, writesAt_calls, hmat, Strip.clear, List.append_assoc]
  · intro p hp
    obtain ⟨_, _, hi0, hi1⟩ := render_index_in_range h horigin p hp
    have hidx : ((p.2 : Int) * b.matrix.actualWidth + (p.1 : Int)).toNat
        < (b.interpolate f).currentImage.length := by
      rw [interpolate_length_eq, hlen]
      omega
    have hmask : (b.interpolate f).maskValue p.1 p.2
        = if b.blendingImage = true
          then (b.interpolate f).currentImage.getD
            ((p.2 : Int) * b.matrix.actualWidth + (p.1 : Int)).toNat 0
          else 255 := by
      simp only [MatrixBlender.maskValue, hmat, hflag]
      split
      · exact readImage_inside _ _ _ hi0 hidx
      · rfl
    have hm := maskValue_lt _ hbi p.1 p.2
    have hcol := renderColor_eq _ hbi p.1 p.2
    simp only [specChannel, hmat] at hcol
    refine ⟨(b.interpolate f).maskValue p.1 p.2, ?_, ?_, hcol, ?_, ?_, ?_, ?_⟩
    · intro hi
      rw [hmask, if_pos hi, List.getD_eq_getElem _ _ hidx]
      exact List.getElem?_eq_getElem hidx
    · intro hi
      rw [hmask, if_neg (by simp [hi])]
    · exact (scale_twice _ _ _ hr hm hB).2.1
    · exact (scale_twice _ _ _ hg hm hB).2.1
    · exact (scale_twice _ _ _ hbl hm hB).2.1
    · intro hm255 hB255
      rw [hcol]
      have e1 := (scale_twice _ _ _ hr hm hB).2.2 hm255 hB255
      have e2 := (scale_twice _ _ _ hg hm hB).2.2 hm255 hB255
      have e3 := (scale_twice _ _ _ hbl hm hB).2.2 hm255 hB255
      simp only [specChannel] at e1 e2 e3
      rw [e1, e2, e3]

/-- The kept part of C16 on the blender `exampleBlender` (sparse build after
`init(customMatrix, ...)`, table `[[0, 1], [2, 255]]`, `maxBrightness = 128`)
and factor 100, for the element of the cell `(0, 1)`. -/
theorem render_two_scalings_witness :
    InitializedFrom exampleBlender.matrix exampleTable 2 2
      ∧ exampleBlender.Bytes
      ∧ ∃ m : Nat,
          (exampleBlender.blendingImage = true →
            (exampleBlender.interpolate 100).currentImage[
              (((0, 1) : Nat × Nat).2 * exampleBlender.matrix.actualWidth
                + (((0, 1) : Nat × Nat).1 : Int)).toNat]? = some m)
          ∧ (exampleBlender.blendingImage = false → m = 255)
          ∧ (exampleBlender.interpolate 100).renderColor ((0, 1) : Nat × Nat).1
                ((0, 1) : Nat × Nat).2
              = ⟨((exampleBlender.interpolate 100).currentColor.r * m / 255)
                    * exampleBlender.matrix.maxBrightness / 255,
                 ((exampleBlender.interpolate 100).currentColor.g * m / 255)
                    * exampleBlender.matrix.maxBrightness / 255,
                 ((exampleBlender.interpolate 100).currentColor.b * m / 255)
                    * exampleBlender.matrix.maxBrightness / 255⟩ :=
  ⟨exampleSparse_initialized,
   ⟨by decide, by decide, by decide, by decide, by decide⟩,
   ((render_two_scalings exampleBlender exampleTable 2 2 exampleSparse_initialized
      ⟨by decide, by decide, by decide, by decide, by decide⟩ 100 (by decide)
      (Or.inr ⟨⟨(0, 0), by decide, rfl⟩, ⟨(0, 0), by decide, rfl⟩⟩)).2 (0, 1) (by decide)).imp
    (fun _ hm => ⟨hm.1, hm.2.1, hm.2.2.1⟩)⟩

/-- The frame of the witness above: with the current image `[0, 10, 200, 0]`
interpolated toward `[255, 0, 255, 0]` at factor 100, the mask cell of the
element at `(0, 1)` is `currentImage[2] = 221`. -/
theorem render_two_scalings_scenario :
    (exampleBlender.interpolate 100).currentImage = [100, 7, 221, 0]
      ∧ (exampleBlender.interpolate 100).currentColor = ⟨106, 13, 21⟩
      ∧ (exampleBlender.blendUnified 100).matrix.strip.pixels
          = [⟨(106 * 100 / 255) * 128 / 255, (13 * 100 / 255) * 128 / 255,
                (21 * 100 / 255) * 128 / 255⟩,
             ⟨(106 * 7 / 255) * 128 / 255, (13 * 7 / 255) * 128 / 255,
                (21 * 7 / 255) * 128 / 255⟩,
             ⟨(106 * 221 / 255) * 128 / 255, (13 * 221 / 255) * 128 / 255,
                (21 * 221 / 255) * 128 / 255⟩] := by
  refine ⟨?_, ?_, ?_⟩ <;> decide

/-- C16, failing input: the non-AVR build, `init(customMatrix, 2, 3, pin)` with
the table `[[255, 0, 1], [255, 2, 3]]`, a blender on it, `blendToImage` with
the 2 x 2 mask `[[false, false], [true, false]]` over 10 ms and `update()` at
completion.  The bounding box is 2 x 2 and `currentImage` has 4 cells, but the
entries keep the table coordinates `x = 1, 2`.  After the blend
`currentImage = [0, 0, 255, 0]`: the only cell set is the cell 2, which
`blendToImage` wrote for the logical cell `(0, 1)`.  For the element at
`(2, 0)` (physical index 1) the render reads the index `0 * 2 + 2 = 2`, the
mask of that other cell, and writes the full current color `(0, 0, 255)`; for
the element at `(2, 1)` (physical index 3) it reads the index 4, past the
array, so the color written is whatever the memory holds there: `(0, 0, 0)`
when it holds 0, `(0, 0, 77)` when it holds 77.  `setImage` with the same mask
lights no element.  This is the defect of C17. -/
theorem C16_render_reads_mask_of_another_cell :
    shiftedSparse.entries = [⟨1, 0, 0⟩, ⟨2, 0, 1⟩, ⟨1, 1, 2⟩, ⟨2, 1, 3⟩]
      ∧ shiftedSparse.actualWidth = 2
      ∧ shiftedSparse.maxBrightness = 255
      ∧ (cornerBlend (fun _ => 0)).currentColor = ⟨0, 0, 255⟩
      ∧ (cornerBlend (fun _ => 0)).currentImage = [0, 0, 255, 0]
      ∧ (cornerBlend (fun _ => 77)).currentImage = [0, 0, 255, 0]
      ∧ ((0 : Nat) : Int) * shiftedSparse.actualWidth + ((2 : Nat) : Int)
          = ((1 : Nat) : Int) * shiftedSparse.actualWidth + ((0 : Nat) : Int)
      ∧ (cornerBlend (fun _ => 0)).currentImage[
          (((1 : Nat) : Int) * shiftedSparse.actualWidth + ((2 : Nat) : Int)).toNat]? = none
      ∧ (cornerBlend (fun _ => 0)).matrix.strip.pixels
          = [⟨0, 0, 0⟩, ⟨0, 0, 255⟩, ⟨0, 0, 0⟩, ⟨0, 0, 0⟩]
      ∧ (cornerBlend (fun _ => 77)).matrix.strip.pixels
          = [⟨0, 0, 0⟩, ⟨0, 0, 255⟩, ⟨0, 0, 0⟩, ⟨0, 0, 77⟩]
      ∧ (shiftedSparse.setImage cornerMask 2 2).strip.pixels
          = [⟨0, 0, 0⟩, ⟨0, 0, 0⟩, ⟨0, 0, 0⟩, ⟨0, 0, 0⟩] := by
  refine ⟨?_, ?_, ?_, ?_, ?_, ?_, ?_, ?_, ?_, ?_, ?_⟩ <;> decide

/-! ## Dense and sparse frames -/

/-- The buffer after a loop of writes depends on the buffer before it only. -/
theorem writesAt_pixels_congr {α : Type} (idx : α → Nat) (col : α → RGB) (l : List α)
    (s1 s2 : Strip) (h : s1.pixels = s2.pixels) :
    (l.foldl (fun s p => s.setPixelColor (idx p) (col p)) s1).pixels
      = (l.foldl (fun s p => s.setPixelColor (idx p) (col p)) s2).pixels := by
  induction l generalizing s1 s2 with
  | nil => exact h
  | cons p l ih =>
    simp only [List.foldl_cons]
    apply ih
    simp only [Strip.setPixelColor, h]

/-- A loop of writes depends on the colors of the cells it visits only. -/
theorem writesAt_congr {α : Type} (idx : α → Nat) (col1 col2 : α → RGB) (l : List α)
    (s : Strip) (h : ∀ p ∈ l, col1 p = col2 p) :
    l.foldl (fun s p => s.setPixelColor (idx p) (col1 p)) s
      = l.foldl (fun s p => s.setPixelColor (idx p) (col2 p)) s := by
  induction l generalizing s with
  | nil => rfl
  | cons p l ih =>
    simp only [List.foldl_cons]
    rw [h p (List.mem_cons_self p l)]
    exact ih _ (fun q hq => h q (List.mem_cons_of_mem p hq))

/-- The mask index of a cell of a `rows x cols` table, computed with the
width `cols`, is an index of an array of `rows * cols` cells. -/
theorem mask_index_lt {rows cols : Nat} {p : Nat × Nat} (hx : p.1 < cols) (hy : p.2 < rows) :
    0 ≤ (p.2 : Int) * (cols : Int) + (p.1 : Int)
      ∧ ((p.2 : Int) * (cols : Int) + (p.1 : Int)).toNat < rows * cols := by
  have h1 : (p.2 + 1) * cols ≤ rows * cols := Nat.mul_le_mul_right _ hy
  have h2 : (p.2 + 1) * cols = p.2 * cols + cols := by ring
  have h3 : (p.2 : Int) * (cols : Int) + (p.1 : Int) = ((p.2 * cols + p.1 : Nat) : Int) := by
    push_cast; ring
  rw [h3, Int.toNat_ofNat]
  exact ⟨Int.ofNat_nonneg _, by omega⟩

/-- The bounding box of an initialized sparse controller whose active cells
reach the four borders of the table is the table. -/
theorem InitializedFrom.box_eq_table {c : MatrixController} {src : Nat → Nat}
    {rows cols : Nat} (h : InitializedFrom c src rows cols) (ha : c.avr = false)
    (hleft : ∃ q ∈ activeCells src rows cols, q.1 = 0)
    (hright : ∃ q ∈ activeCells src rows cols, q.1 + 1 = cols)
    (htop : ∃ q ∈ activeCells src rows cols, q.2 = 0)
    (hbottom : ∃ q ∈ activeCells src rows cols, q.2 + 1 = rows) :
    c.actualWidth = cols ∧ c.actualHeight = rows := by
  obtain ⟨q1, hq1, e1⟩ := hleft
  obtain ⟨q2, hq2, e2⟩ := hright
  obtain ⟨q3, hq3, e3⟩ := htop
  obtain ⟨q4, hq4, e4⟩ := hbottom
  obtain ⟨minX, maxX, minY, maxY, ⟨⟨a1, ha1, f1⟩, b1⟩, ⟨⟨a2, ha2, f2⟩, b2⟩,
    ⟨⟨a3, ha3, f3⟩, b3⟩, ⟨⟨a4, ha4, f4⟩, b4⟩, hw, hh⟩ := h.box ha q1 hq1
  have := b1 q1 hq1
  have := b2 q2 hq2
  have := b3 q3 hq3
  have := b4 q4 hq4
  have := mem_activeCells.1 ha2
  have := mem_activeCells.1 ha4
  constructor <;> omega

/-- C18, counterexample: the table `[[0, 255]]` (1 row, 2 columns, distinct
indices), the 1 x 1 mask `[true]` and the color `(10, 20, 30)`.  The dense
build takes the table width 2 as the width, centres the mask on column 1 and
leaves the only element dark; the sparse build computes the bounding box
width 1, centres the mask on column 0 and lights the element.  The frames of
a blend to the same mask differ in the same way. -/
theorem C18_frames_differ_with_empty_margin :
    marginDense.actualWidth = 2
      ∧ marginSparse.actualWidth = 1
      ∧ (marginDense.setImageColor fullMask 1 1 10 20 30).strip.pixels = [⟨0, 0, 0⟩]
      ∧ (marginSparse.setImageColor fullMask 1 1 10 20 30).strip.pixels = [⟨10, 20, 30⟩]
      ∧ (((MatrixBlender.new marginDense ⟨0, 0, 0⟩ (fun _ => 0)).blendToImage fullMask 1 1 10 0).update
          5).matrix.strip.pixels = [⟨0, 0, 0⟩]
      ∧ (((MatrixBlender.new marginSparse ⟨0, 0, 0⟩ (fun _ => 0)).blendToImage fullMask 1 1 10 0).update
          5).matrix.strip.pixels = [⟨0, 0, 127⟩] := by
  refine ⟨?_, ?_, ?_, ?_, ?_, ?_⟩ <;> decide

/-- The frame of `displayImage` is the same on a dense and on a sparse
controller initialized from the same table when both have the same width,
height, color and brightness. -/
theorem displayImage_pixels_agree {cd cs : MatrixController} {src : Nat → Nat}
    {rows cols : Nat} (hd : InitializedFrom cd src rows cols)
    (hs : InitializedFrom cs src rows cols)
    (hw : cd.actualWidth = cs.actualWidth) (hh : cd.actualHeight = cs.actualHeight)
    (hcol : cd.currentColor = cs.currentColor) (hbr : cd.maxBrightness = cs.maxBrightness)
    (image : Nat → Bool) (imageRows imageCols : Int) :
    (cd.displayImage image imageRows imageCols).strip.pixels
      = (cs.displayImage image imageRows imageCols).strip.pixels := by
  rw [displayImage_strip hd, displayImage_strip hs, hw, hh, hcol, hbr]
  simp only [Strip.showPixels]
  apply writesAt_pixels_congr (fun i => i)
  simp only [Strip.clear, hd.strip_length, hs.strip_length]

/-- C18 as amended: for every table with pairwise distinct physical indices,
row and column counts that fit in a byte and at most 255 active cells, whose
active cells reach column 0, the last column, row 0 and the last row (so that
the bounding box the sparse build computes is the table), every mask and
every color: the frame `setImage` produces, and the frame a blend render of
the same blend state produces, is the same under the dense strategy as under
the sparse strategy.  The blend state has the `rows * cols` mask cells the
constructor allocates, so that the render reads inside `currentImage`. -/
theorem C18_frames_agree_when_box_is_table (cd cs : MatrixController) (src : Nat → Nat)
    (rows cols : Nat) (hd : InitializedFrom cd src rows cols)
    (hs : InitializedFrom cs src rows cols) (had : cd.avr = true) (has : cs.avr = false)
    (_hdist : ((activeCells src rows cols).map (cellAt src cols)).Nodup)
    (hleft : ∃ q ∈ activeCells src rows cols, q.1 = 0)
    (hright : ∃ q ∈ activeCells src rows cols, q.1 + 1 = cols)
    (htop : ∃ q ∈ activeCells src rows cols, q.2 = 0)
    (hbottom : ∃ q ∈ activeCells src rows cols, q.2 + 1 = rows)
    (hcol : cd.currentColor = cs.currentColor) (hbr : cd.maxBrightness = cs.maxBrightness)
    (image : Nat → Bool) (imageRows imageCols : Int) (r g b : Nat)
    (bd bs : MatrixBlender) (hbd : bd.matrix = cd) (hbs : bs.matrix = cs)
    (hbc : bd.currentColor = bs.currentColor) (hbi : bd.currentImage = bs.currentImage)
    (hbf : bd.blendingImage = bs.blendingImage)
    (hlen : bs.currentImage.length = rows * cols) :
    (cd.setImage image imageRows imageCols).strip.pixels
        = (cs.setImage image imageRows imageCols).strip.pixels
      ∧ (cd.setImageColor image imageRows imageCols r g b).strip.pixels
        = (cs.setImageColor image imageRows imageCols r g b).strip.pixels
      ∧ bd.render.matrix.strip.pixels = bs.render.matrix.strip.pixels := by
  obtain ⟨_, _, _, hdw, hdh⟩ := hd.dense had
  obtain ⟨hsw, hsh⟩ := hs.box_eq_table has hleft hright htop hbottom
  have hw : cd.actualWidth = cs.actualWidth := by rw [hdw, hsw]
  have hh : cd.actualHeight = cs.actualHeight := by rw [hdh, hsh]
  refine ⟨displayImage_pixels_agree hd hs hw hh hcol hbr image imageRows imageCols, ?_, ?_⟩
  · have hd2 := hd.with_color (r % 256) (g % 256) (b % 256) (Nat.mod_lt _ (by decide))
      (Nat.mod_lt _ (by decide)) (Nat.mod_lt _ (by decide))
    have hs2 := hs.with_color (r % 256) (g % 256) (b % 256) (Nat.mod_lt _ (by decide))
      (Nat.mod_lt _ (by decide)) (Nat.mod_lt _ (by decide))
    exact displayImage_pixels_agree hd2 hs2 hw hh rfl hbr image imageRows imageCols
  · have hd3 : InitializedFrom bd.matrix src rows cols := by rw [hbd]; exact hd
    have hs3 : InitializedFrom bs.matrix src rows cols := by rw [hbs]; exact hs
    have hrc : ∀ p ∈ activeCells src rows cols,
        bd.renderColor p.1 p.2 = bs.renderColor p.1 p.2 := by
      intro p hp
      obtain ⟨hx, hy, _⟩ := mem_activeCells.1 hp
      obtain ⟨hi0, hi1⟩ := mask_index_lt hx hy
      have hmask : bd.maskValue p.1 p.2 = bs.maskValue p.1 p.2 := by
        simp only [MatrixBlender.maskValue, hbd, hbs, hbf, hdw, hsw]
        split
        · rw [readImage_inside _ _ _ hi0 (by rw [hbi, hlen]; exact hi1),
            readImage_inside _ _ _ hi0 (by rw [hlen]; exact hi1), hbi]
        · rfl
      simp only [MatrixBlender.renderColor, hmask, hbd, hbs, hbc, hbr]
    rw [render_strip bd hd3, render_strip bs hs3]
    simp only [Strip.showPixels]
    rw [writesAt_congr _ _ _ _ _ hrc]
    apply writesAt_pixels_congr
    simp only [Strip.clear, hbd, hbs, hd.strip_length, hs.strip_length]

/-- C18 as amended, at the table `[[0, 1], [2, 255]]`, whose active cells
reach the four borders, with the blenders on the two example controllers. -/
theorem C18_frames_agree_when_box_is_table_witness :
    (exampleDense.setImage exampleMask 1 2).strip.pixels
        = (exampleSparse.setImage exampleMask 1 2).strip.pixels
      ∧ (exampleDense.setImageColor exampleMask 1 2 10 20 30).strip.pixels
        = (exampleSparse.setImageColor exampleMask 1 2 10 20 30).strip.pixels
      ∧ (MatrixBlender.new exampleDense ⟨0, 0, 0⟩ (fun _ => 0)).render.matrix.strip.pixels
        = (MatrixBlender.new exampleSparse ⟨0, 0, 0⟩ (fun _ => 0)).render.matrix.strip.pixels :=
  C18_frames_agree_when_box_is_table exampleDense exampleSparse exampleTable 2 2
    exampleDense_initialized exampleSparse_initialized rfl rfl (by decide)
    ⟨(0, 0), by decide, rfl⟩ ⟨(1, 0), by decide, rfl⟩ ⟨(0, 0), by decide, rfl⟩
    ⟨(0, 1), by decide, rfl⟩ rfl rfl exampleMask 1 2 10 20 30
    (MatrixBlender.new exampleDense ⟨0, 0, 0⟩ (fun _ => 0))
    (MatrixBlender.new exampleSparse ⟨0, 0, 0⟩ (fun _ => 0))
    rfl rfl rfl rfl rfl rfl

/-! ## Strip length and write indices -/

theorem ledCountOf_attained_aux (ids : List Nat) (n : Nat) :
    ids.foldl (fun ledCount ledId => max ledCount (ledId + 1)) n = n
      ∨ ∃ i ∈ ids, ids.foldl (fun ledCount ledId => max ledCount (ledId + 1)) n = i + 1 := by
  induction ids generalizing n with
  | nil => left; rfl
  | cons j ids ih =>
    simp only [List.foldl_cons, List.mem_cons]
    rcases ih (max n (j + 1)) with h | ⟨i, hi, h⟩
    · rcases Nat.le_total (j + 1) n with hle | hle
      · left; rw [h]; omega
      · right; exact ⟨j, Or.inl rfl, by rw [h]; omega⟩
    · right; exact ⟨i, Or.inr hi, h⟩

/-- The computed strip length is 0 when there is no index and one more than
some index, which no index exceeds, when there is one. -/
theorem ledCountOf_spec (ids : List Nat) :
    (ids = [] → ledCountOf ids = 0)
      ∧ (ids ≠ [] → ∃ i ∈ ids, ledCountOf ids = i + 1)
      ∧ ∀ i ∈ ids, i + 1 ≤ ledCountOf ids := by
  refine ⟨?_, ?_, ?_⟩
  · intro h; subst h; rfl
  · intro hne
    rcases ledCountOf_attained_aux ids 0 with h | h
    · obtain ⟨j, hj⟩ := List.exists_mem_of_ne_nil ids hne
      have := lt_ledCountOf hj
      unfold ledCountOf at this
      omega
    · exact h
  · intro i hi
    exact lt_ledCountOf hi

theorem toUInt8_idem (v : Int) : toUInt8 ((toUInt8 v : Nat) : Int) = toUInt8 v := by
  unfold toUInt8
  omega

theorem toUInt8_lt (v : Int) : toUInt8 v < 256 := by
  unfold toUInt8
  omega

theorem getLedId_narrowed (c : MatrixController) (x y : Int) :
    c.getLedId x y = c.getLedId ((toUInt8 x : Nat) : Int) ((toUInt8 y : Nat) : Int) := by
  simp only [MatrixController.getLedId, toUInt8_idem]

/-- The index `setPixelXY` passes to the strip, for any `int` coordinates,
lies inside the buffer. -/
theorem setPixelXY_inside {c : MatrixController} {src : Nat → Nat} {rows cols : Nat}
    (h : InitializedFrom c src rows cols) (x y : Int) (r g b : Nat) :
    WritesInside c.strip (c.setPixelXY x y r g b).strip := by
  unfold MatrixController.setPixelXY
  split
  · exact ⟨rfl, [], by simp, by simp⟩
  · simp only
    split
    · rename_i hpos
      have hl := getLedId_initialized h (toUInt8 x) (toUInt8 y) (toUInt8_lt x) (toUInt8_lt y)
      rw [← getLedId_narrowed] at hl
      have hidx : (c.getLedId x y).toNat < c.strip.pixels.length := by
        by_cases hc : toUInt8 x < cols ∧ toUInt8 y < rows
            ∧ cellAt src cols (toUInt8 x, toUInt8 y) ≠ 255
        · rw [if_pos hc] at hl
          have := h.id_lt (mem_activeCells.2 ⟨hc.1, hc.2.1, hc.2.2⟩ :
            (toUInt8 x, toUInt8 y) ∈ activeCells src rows cols)
          rw [hl]
          omega
        · rw [if_neg hc] at hl
          rw [hl] at hpos
          exact absurd hpos (by decide)
      refine ⟨?_, [StripCall.setPixelColor (c.getLedId x y).toNat _], rfl, ?_⟩
      · simp only [Strip.setPixelColor]
        split <;> simp
      · intro n col hn
        simp only [List.mem_singleton, StripCall.setPixelColor.injEq] at hn
        rw [hn.1]
        exact hidx
    · exact ⟨rfl, [], by simp, by simp⟩

/-- A loop of writes at indices inside the buffer, followed by a flush,
passes only such indices to the strip. -/
theorem writesAt_inside {α : Type} (idx : α → Nat) (col : α → RGB) (l : List α)
    (base s : Strip) (pre : List StripCall) (hlen : s.pixels.length = base.pixels.length)
    (hcalls : s.calls = base.calls ++ pre)
    (hpre : ∀ n c, StripCall.setPixelColor n c ∈ pre → n < base.pixels.length)
    (hidx : ∀ p ∈ l, idx p < base.pixels.length) :
    WritesInside base (l.foldl (fun s p => s.setPixelColor (idx p) (col p)) s).showPixels := by
  refine ⟨?_, pre ++ l.map (fun p => StripCall.setPixelColor (idx p) (col p))
    ++ [StripCall.showCall], ?_, ?_⟩
  · simp only [Strip.showPixels, writesAt_length, hlen]
  · simp only [Strip.showPixels, writesAt_calls, hcalls, List.append_assoc]
  · intro n c hn
    simp only [List.mem_append, List.mem_map, List.mem_singleton] at hn
    rcases hn with (he | ⟨p, hp, he⟩) | he
    · exact hpre n c he
    · simp only [StripCall.setPixelColor.injEq] at he
      rw [← he.1]
      exact hidx p hp
    · cases he

theorem setColor_inside {c : MatrixController} {src : Nat → Nat} {rows cols : Nat}
    (h : InitializedFrom c src rows cols) (r g b : Nat) :
    WritesInside c.strip (c.setColor r g b).strip := by
  rw [setColor_strip h]
  exact writesAt_inside (fun i => i) _ _ c.strip c.strip [] rfl (by simp) (by simp)
    (fun i hi => by
      obtain ⟨p, hp, rfl⟩ := List.mem_map.1 hi
      exact h.id_lt hp)

theorem displayImage_inside {c : MatrixController} {src : Nat → Nat} {rows cols : Nat}
    (h : InitializedFrom c src rows cols) (image : Nat → Bool) (imageRows imageCols : Int) :
    WritesInside c.strip (c.displayImage image imageRows imageCols).strip := by
  rw [displayImage_strip h]
  exact writesAt_inside (fun i => i) _ _ c.strip c.strip.clear [StripCall.clear]
    (by simp [Strip.clear]) rfl (by simp)
    (fun i hi => by
      obtain ⟨p, hp, rfl⟩ := List.mem_map.1 hi
      exact h.id_lt (List.mem_filter.1 hp).1)

theorem render_inside (b : MatrixBlender) {src : Nat → Nat} {rows cols : Nat}
    (h : InitializedFrom b.matrix src rows cols) :
    WritesInside b.matrix.strip b.render.matrix.strip := by
  rw [render_strip b h]
  exact writesAt_inside _ _ _ b.matrix.strip b.matrix.strip.clear [StripCall.clear]
    (by simp [Strip.clear]) rfl (by simp) (fun p hp => h.id_lt hp)

/-- A controller with the platform, the geometry and the strip length of an
initialized controller, and bytes for color and brightness, is initialized
from the same table. -/
theorem InitializedFrom.of_geometry {c d : MatrixController} {src : Nat → Nat}
    {rows cols : Nat} (h : InitializedFrom c src rows cols) (h0 : d.avr = c.avr)
    (h1 : d.matrixData = c.matrixData) (h2 : d.matrixRows = c.matrixRows)
    (h3 : d.matrixCols = c.matrixCols) (h4 : d.ledMappings = c.ledMappings)
    (h5 : d.numActiveLeds = c.numActiveLeds) (h6 : d.actualWidth = c.actualWidth)
    (h7 : d.actualHeight = c.actualHeight)
    (h8 : d.strip.pixels.length = c.strip.pixels.length)
    (hm : d.maxBrightness < 256)
    (hcol : d.currentColor.r < 256 ∧ d.currentColor.g < 256 ∧ d.currentColor.b < 256) :
    InitializedFrom d src rows cols := by
  obtain ⟨k1, k2, _, _, _, _, c0, pin, e0, e1, e2, e3, e4, e5, e6, e7, e8⟩ := h
  refine ⟨?_, ?_, hm, hcol.1, hcol.2.1, hcol.2.2, c0, pin, ?_, ?_, ?_, ?_, ?_, ?_, ?_, ?_, ?_⟩
  · rw [h0]; exact k1
  · rw [h0]; exact k2
  · rw [h0]; exact e0
  · rw [h1]; exact e1
  · rw [h2]; exact e2
  · rw [h3]; exact e3
  · rw [h4]; exact e4
  · rw [h5]; exact e5
  · rw [h6]; exact e6
  · rw [h7]; exact e7
  · rw [h8]; exact e8

/-- The operations of the controller and the render of the blender keep a
controller initialized: the notion covers every state reached from `init` by
`setMaxBrightness`, `setColor`, `setImage` (both overloads), `setPixelXY`,
`clear`, `show` and blend renders. -/
theorem initialized_after_operations {c : MatrixController} {src : Nat → Nat}
    {rows cols : Nat} (h : InitializedFrom c src rows cols) :
    (∀ brightness : Nat, InitializedFrom (c.setMaxBrightness brightness) src rows cols)
      ∧ (∀ r g b : Nat, InitializedFrom (c.setColor r g b) src rows cols)
      ∧ (∀ (image : Nat → Bool) (imageRows imageCols : Int),
          InitializedFrom (c.setImage image imageRows imageCols) src rows cols)
      ∧ (∀ (image : Nat → Bool) (imageRows imageCols : Int) (r g b : Nat),
          InitializedFrom (c.setImageColor image imageRows imageCols r g b) src rows cols)
      ∧ (∀ (x y : Int) (r g b : Nat), InitializedFrom (c.setPixelXY x y r g b) src rows cols)
      ∧ InitializedFrom c.clear src rows cols
      ∧ InitializedFrom c.showStrip src rows cols
      ∧ (∀ (b : MatrixBlender) (f : Nat), b.matrix = c →
          InitializedFrom (b.blendUnified f).matrix src rows cols) := by
  have hm := h.brightness_lt
  have hcol : c.currentColor.r < 256 ∧ c.currentColor.g < 256 ∧ c.currentColor.b < 256 :=
    ⟨h.2.2.2.1, h.2.2.2.2.1, h.2.2.2.2.2.1⟩
  have hmod : ∀ r g b : Nat, r % 256 < 256 ∧ g % 256 < 256 ∧ b % 256 < 256 :=
    fun r g b => ⟨Nat.mod_lt _ (by decide), Nat.mod_lt _ (by decide), Nat.mod_lt _ (by decide)⟩
  refine ⟨?_, ?_, ?_, ?_, ?_, ?_, ?_, ?_⟩
  · intro brightness
    exact h.setMaxBrightness brightness
  · intro r g b
    exact h.of_geometry rfl rfl rfl rfl rfl rfl rfl rfl (setColor_inside h r g b).1 hm
      (hmod r g b)
  · intro image imageRows imageCols
    exact h.of_geometry rfl rfl rfl rfl rfl rfl rfl rfl
      (displayImage_inside h image imageRows imageCols).1 hm hcol
  · intro image imageRows imageCols r g b
    have h2 := h.with_color (r % 256) (g % 256) (b % 256) (hmod r g b).1 (hmod r g b).2.1
      (hmod r g b).2.2
    exact h.of_geometry rfl rfl rfl rfl rfl rfl rfl rfl
      (displayImage_inside h2 image imageRows imageCols).1 hm (hmod r g b)
  · intro x y r g b
    have hlen := (setPixelXY_inside h x y r g b).1
    unfold MatrixController.setPixelXY at hlen ⊢
    split
    · exact h
    · simp only
      split
      · rename_i h1 h2
        rw [if_neg h1] at hlen
        simp only [if_pos h2] at hlen
        exact h.of_geometry rfl rfl rfl rfl rfl rfl rfl rfl hlen hm hcol
      · exact h
  · exact h.of_geometry rfl rfl rfl rfl rfl rfl rfl rfl (by simp [MatrixController.clear,
      Strip.clear]) hm hcol
  · exact h.of_geometry rfl rfl rfl rfl rfl rfl rfl rfl rfl hm hcol
  · intro b f hb
    subst hb
    exact h.of_geometry rfl rfl rfl rfl rfl rfl rfl rfl
      (render_inside (b.interpolate f) h).1 hm hcol

set_option maxRecDepth 100000 in
/-- C13, failing input: the AVR build, `init(customMatrix, 2, 2, pin)` with
the table `[[0, 1], [2, 255]]`, whose highest physical index is 2.  On that
build `convertToSparse` and `computeMatrixDimensions` are empty and
`initStrip` does not call `updateLength`: the calls the strip receives are
`setPin`, `begin` and `show`, the strip keeps the length 0 of its constructor
instead of 3, and no table is retained (`matrixRows = matrixCols = 0`, width
and height 0).  The same call on the non-AVR build sizes the strip to 3, and
so does `init(ROUND, pin)` on the AVR build for a layout with the same three
indices. -/
theorem C13_strip_not_sized :
    ledCountOf ((activeCells exampleTable 2 2).map (cellAt exampleTable 2)) = 3
      ∧ ((MatrixController.new true).initCustom exampleTable 2 2 6).strip.pixels.length = 0
      ∧ ((MatrixController.new true).initCustom exampleTable 2 2 6).strip.calls
          = [StripCall.setPin 6, StripCall.begin, StripCall.showCall]
      ∧ ((MatrixController.new true).initCustom exampleTable 2 2 6).matrixRows = 0
      ∧ ((MatrixController.new true).initCustom exampleTable 2 2 6).matrixCols = 0
      ∧ ((MatrixController.new true).initCustom exampleTable 2 2 6).actualWidth = 0
      ∧ ((MatrixController.new true).initCustom exampleTable 2 2 6).actualHeight = 0
      ∧ ((MatrixController.new false).initCustom exampleTable 2 2 6).strip.pixels.length = 3
      ∧ ledCountOf ((activeCells exampleTables.ROUND_MATRIX 12 12).map
          (cellAt exampleTables.ROUND_MATRIX 12)) = 3
      ∧ (MatrixController.init exampleTables (MatrixController.new true) MatrixType.ROUND
          6).strip.pixels.length = 3 := by
  refine ⟨?_, ?_, ?_, ?_, ?_, ?_, ?_, ?_, ?_, ?_⟩ <;> decide

/-- The part of C13 the code keeps: on a controller that has the geometry
`init` computes from its table (`InitializedFrom`: `init(type, pin)` on either
build, `init(customMatrix, ...)` on the non-AVR build with at most 255 active
cells) the strip length is 0 when there is no active cell and otherwise one
more than the physical index of some active cell, which no active cell
exceeds; and every index passed to the strip driver by `setColor`, `setImage`
(both overloads), `setPixelXY` (for any `int` coordinates) and the blend
render is strictly less than that strip length, which these operations do not
change. -/
theorem strip_length_and_write_indices (c : MatrixController) (src : Nat → Nat)
    (rows cols : Nat) (h : InitializedFrom c src rows cols) :
    (activeCells src rows cols = [] → c.strip.pixels.length = 0)
      ∧ (activeCells src rows cols ≠ [] →
          ∃ p ∈ activeCells src rows cols, c.strip.pixels.length = cellAt src cols p + 1)
      ∧ (∀ p ∈ activeCells src rows cols, cellAt src cols p + 1 ≤ c.strip.pixels.length)
      ∧ (∀ r g b : Nat, WritesInside c.strip (c.setColor r g b).strip)
      ∧ (∀ (image : Nat → Bool) (imageRows imageCols : Int),
          WritesInside c.strip (c.setImage image imageRows imageCols).strip)
      ∧ (∀ (image : Nat → Bool) (imageRows imageCols : Int) (r g b : Nat),
          WritesInside c.strip (c.setImageColor image imageRows imageCols r g b).strip)
      ∧ (∀ (x y : Int) (r g b : Nat), WritesInside c.strip (c.setPixelXY x y r g b).strip)
      ∧ (∀ (b : MatrixBlender) (f : Nat), b.matrix = c →
          WritesInside c.strip (b.blendUnified f).matrix.strip) := by
  have hspec := ledCountOf_spec ((activeCells src rows cols).map (cellAt src cols))
  rw [← h.strip_length] at hspec
  obtain ⟨h0, h1, h2⟩ := hspec
  refine ⟨?_, ?_, ?_, ?_, ?_, ?_, ?_, ?_⟩
  · intro he
    exact h0 (by rw [he]; rfl)
  · intro hne
    obtain ⟨i, hi, hlen⟩ := h1 (by
      intro hmap
      exact hne (List.map_eq_nil_iff.1 hmap))
    obtain ⟨p, hp, rfl⟩ := List.mem_map.1 hi
    exact ⟨p, hp, hlen⟩
  · intro p hp
    exact h2 _ (List.mem_map.2 ⟨p, hp, rfl⟩)
  · intro r g b
    exact setColor_inside h r g b
  · intro image imageRows imageCols
    exact displayImage_inside h image imageRows imageCols
  · intro image imageRows imageCols r g b
    exact displayImage_inside (h.with_color (r % 256) (g % 256) (b % 256)
      (Nat.mod_lt _ (by decide)) (Nat.mod_lt _ (by decide)) (Nat.mod_lt _ (by decide)))
      image imageRows imageCols
  · intro x y r g b
    exact setPixelXY_inside h x y r g b
  · intro b f hb
    subst hb
    exact render_inside (b.interpolate f) h

/-- The kept part of C13 on the sparse example controller (table
`[[0, 1], [2, 255]]`): the strip has 3 elements, one more than the index of
the cell `(0, 1)`, and `setPixelXY(256, 0, ...)` writes inside the buffer. -/
theorem strip_length_and_write_indices_witness :
    (∃ p ∈ activeCells exampleTable 2 2,
        exampleSparse.strip.pixels.length = cellAt exampleTable 2 p + 1)
      ∧ WritesInside exampleSparse.strip (exampleSparse.setPixelXY 256 0 10 20 30).strip :=
  ⟨(strip_length_and_write_indices exampleSparse exampleTable 2 2
      exampleSparse_initialized).2.1 (by decide),
   (strip_length_and_write_indices exampleSparse exampleTable 2 2
      exampleSparse_initialized).2.2.2.2.2.2.1 256 0 10 20 30⟩

/-! ## The blend state machine -/

/-- The constructor establishes the invariant. -/
theorem invariant_new (controller : MatrixController) (targetColor : RGB)
    (outside : Int → Nat) : (MatrixBlender.new controller targetColor outside).Invariant := by
  refine ⟨?_, ?_, ?_, ?_, rfl⟩
  · simp [MatrixBlender.new]
  · intro _; rfl
  · simp only [MatrixBlender.new]
    rw [forLoop_length _ _ (fun i l => by simp)]
    simp
  · simp only [MatrixBlender.new]
    rw [forLoop_length _ _ (fun i l => by simp)]
    simp

/-- The method `blendUnified` keeps the flags, the target image, the array
sizes and the dimensions of the controller; it touches the current image only
when the image channel participates. -/
theorem blendUnified_frame (b : MatrixBlender) (f : Nat)
    (hc : b.currentImage.length = b.imageSize.toNat) :
    (b.blendUnified f).blending = b.blending
      ∧ (b.blendUnified f).blendingImage = b.blendingImage
      ∧ (b.blendUnified f).blendingColor = b.blendingColor
      ∧ (b.blendUnified f).targetImage = b.targetImage
      ∧ (b.blendUnified f).imageSize = b.imageSize
      ∧ (b.blendUnified f).matrix.actualWidth = b.matrix.actualWidth
      ∧ (b.blendUnified f).matrix.actualHeight = b.matrix.actualHeight
      ∧ (b.blendUnified f).currentImage.length = b.imageSize.toNat
      ∧ (b.blendingImage = false → (b.blendUnified f).currentImage = b.currentImage) := by
  refine ⟨rfl, rfl, rfl, rfl, rfl, rfl, rfl, interpolate_length b f hc, ?_⟩
  intro hi
  simp [MatrixBlender.blendUnified, MatrixBlender.render, MatrixBlender.interpolate, hi]

theorem invariant_blendToColor (b : MatrixBlender) (hinv : b.Invariant)
    (r g bl duration now : Nat) : (b.blendToColor r g bl duration now).Invariant := by
  obtain ⟨_, h2, h3, h4, h5⟩ := hinv
  obtain ⟨f1, f2, f3, f4, f5, fw, fh, f6, f7⟩ := blendUnified_frame
    { b with
      targetColor := ⟨r % 256, g % 256, bl % 256⟩
      blendTime := duration % 2 ^ 32
      blendStartTime := now % 2 ^ 32
      blending := true
      blendingColor := true } 0 h3
  unfold MatrixBlender.blendToColor
  refine ⟨?_, ?_, ?_, ?_, ?_⟩
  · rw [f1, f2, f3]
    simp
  · intro hi
    rw [f2] at hi
    rw [f7 hi, f4]
    exact h2 hi
  · rw [f5]; exact f6
  · rw [f4, f5]; exact h4
  · rw [f5, fw, fh]; exact h5

/-- The loop of `blendToImage` keeps the size of the target array. -/
theorem targetImage_loop_length (W H : Int) (v : Nat → Nat → Nat) (tgt : List Nat) :
    (forLoop H.toNat (fun y img =>
        forLoop W.toNat (fun x img =>
          img.set ((y : Int) * W + (x : Int)).toNat (v x y)) img) tgt).length = tgt.length := by
  apply forLoop_length
  intro y l
  apply forLoop_length
  intro x l2
  simp

theorem invariant_blendToImage (b : MatrixBlender) (hinv : b.Invariant)
    (image : Nat → Bool) (imageRows imageCols : Int) (duration now : Nat) :
    (b.blendToImage image imageRows imageCols duration now).Invariant
      ∧ (b.blendToImage image imageRows imageCols duration now).blending = true
      ∧ (b.blendToImage image imageRows imageCols duration now).blendingImage = true := by
  obtain ⟨_, _, h3, h4, h5⟩ := hinv
  refine ⟨⟨?_, ?_, ?_, ?_, h5⟩, rfl, rfl⟩
  · have h1 : (b.blendToImage image imageRows imageCols duration now).blending = true := rfl
    have h2 : (b.blendToImage image imageRows imageCols duration now).blendingImage = true :=
      rfl
    rw [h1, h2]
    simp
  · intro hi
    have h2 : (b.blendToImage image imageRows imageCols duration now).blendingImage = true :=
      rfl
    rw [h2] at hi
    cases hi
  · have hl := interpolate_length
      { b with
        targetImage := (b.blendToImage image imageRows imageCols duration now).targetImage
        blendTime := duration % 2 ^ 32
        blendStartTime := now % 2 ^ 32
        blending := true
        blendingImage := true } 0 h3
    exact hl
  · have ht : (b.blendToImage image imageRows imageCols duration now).targetImage
        = forLoop b.matrix.actualHeight.toNat (fun y img =>
            forLoop b.matrix.actualWidth.toNat (fun x img =>
              img.set ((y : Int) * b.matrix.actualWidth + (x : Int)).toNat
                (MatrixBlender.targetValue image imageRows imageCols
                  (MatrixController.centerOffset b.matrix.actualWidth imageCols)
                  (MatrixController.centerOffset b.matrix.actualHeight imageRows) x y))
              img) b.targetImage := rfl
    have hs : (b.blendToImage image imageRows imageCols duration now).imageSize
        = b.imageSize := rfl
    rw [ht, hs, targetImage_loop_length b.matrix.actualWidth b.matrix.actualHeight
      (fun x y => MatrixBlender.targetValue image imageRows imageCols
        (MatrixController.centerOffset b.matrix.actualWidth imageCols)
        (MatrixController.centerOffset b.matrix.actualHeight imageRows) x y)]
    exact h4

theorem invariant_blendToImageColor (b : MatrixBlender) (hinv : b.Invariant)
    (image : Nat → Bool) (imageRows imageCols : Int) (r g bl duration now : Nat) :
    (b.blendToImageColor image imageRows imageCols r g bl duration now).Invariant := by
  obtain ⟨⟨_, _, k3, k4, k5⟩, _, _⟩ :=
    invariant_blendToImage b hinv image imageRows imageCols duration now
  refine ⟨?_, ?_, k3, k4, k5⟩
  · have h1 : (b.blendToImageColor image imageRows imageCols r g bl duration now).blending
        = true := rfl
    have h2 : (b.blendToImageColor image imageRows imageCols r g bl duration now).blendingColor
        = true := rfl
    rw [h1, h2]
    simp
  · intro hi
    have h2 : (b.blendToImageColor image imageRows imageCols r g bl duration now).blendingImage
        = true := rfl
    rw [h2] at hi
    cases hi

theorem invariant_update (b : MatrixBlender) (hinv : b.Invariant) (now : Nat) :
    (b.update now).Invariant := by
  obtain ⟨h1, h2, h3, h4, h5⟩ := hinv
  cases hb : b.blending with
  | false =>
    have : b.update now = b := by simp [MatrixBlender.update, hb]
    rw [this]
    exact ⟨h1, h2, h3, h4, h5⟩
  | true =>
    obtain ⟨f1, f2, f3, f4, f5, fw, fh, f6, f7⟩ :=
      blendUnified_frame b (MatrixBlender.factor b.blendTime (b.elapsed now)) h3
    by_cases hdone : b.elapsed now ≥ (b.blendUnified
        (MatrixBlender.factor b.blendTime (b.elapsed now))).blendTime
    · simp only [MatrixBlender.update, hb, Bool.not_true, Bool.false_eq_true, if_false, hdone,
        if_true]
      refine ⟨by simp, ?_, ?_, ?_, ?_⟩
      · intro _
        simp only [f2, f4, f5]
        cases hi : b.blendingImage with
        | true =>
          simp only [if_true]
          exact snap_loop _ _ _ f6 h4
        | false =>
          simp only [Bool.false_eq_true, if_false]
          rw [f7 hi]
          exact h2 hi
      · simp only [f2, f4, f5]
        cases hi : b.blendingImage with
        | true =>
          simp only [if_true]
          rw [snap_loop _ _ _ f6 h4]
          exact h4
        | false =>
          simp only [Bool.false_eq_true, if_false]
          exact f6
      · simp only [f4, f5]
        exact h4
      · simp only [f5, fw, fh]
        exact h5
    · simp only [MatrixBlender.update, hb, Bool.not_true, Bool.false_eq_true, if_false, hdone]
      refine ⟨?_, ?_, ?_, ?_, ?_⟩
      · rw [f1, f2, f3]; exact h1
      · intro hi
        rw [f2] at hi
        rw [f7 hi, f4]
        exact h2 hi
      · rw [f5]; exact f6
      · rw [f4, f5]; exact h4
      · rw [f5, fw, fh]; exact h5

theorem invariant_call (b : MatrixBlender) (hinv : b.Invariant) (c : BlendCall) :
    (b.call c).Invariant := by
  cases c with
  | blendToColor r g bl duration now => exact invariant_blendToColor b hinv r g bl duration now
  | blendToImage image imageRows imageCols duration now =>
    exact (invariant_blendToImage b hinv image imageRows imageCols duration now).1
  | blendToImageColor image imageRows imageCols r g bl duration now =>
    exact invariant_blendToImageColor b hinv image imageRows imageCols r g bl duration now
  | update now => exact invariant_update b hinv now

theorem invariant_run (b : MatrixBlender) (hinv : b.Invariant) (calls : List BlendCall) :
    (b.run calls).Invariant := by
  unfold MatrixBlender.run
  induction calls generalizing b with
  | nil => exact hinv
  | cons c calls ih => exact ih (b.call c) (invariant_call b hinv c)

/-- C21: in every state reached from the constructor (on any controller) by
any sequence of `blendToColor`, `blendToImage` (with or without a color) and
`update` calls at arbitrary clock values, `blending` is true if and only if
`blendingImage` or `blendingColor` is true, and whenever `blendingImage` is
false `currentImage` equals `targetImage` cell for cell (both arrays having
the `imageSize` cells the constructor allocated). -/
theorem C21_blend_state_machine_invariant (controller : MatrixController) (targetColor : RGB)
    (outside : Int → Nat) (calls : List BlendCall) :
    (((MatrixBlender.new controller targetColor outside).run calls).blending = true
        ↔ (((MatrixBlender.new controller targetColor outside).run calls).blendingImage = true
          ∨ ((MatrixBlender.new controller targetColor outside).run calls).blendingColor = true))
      ∧ (((MatrixBlender.new controller targetColor outside).run calls).blendingImage = false →
          ((MatrixBlender.new controller targetColor outside).run calls).currentImage
              = ((MatrixBlender.new controller targetColor outside).run calls).targetImage
            ∧ ∀ i : Nat,
              ((MatrixBlender.new controller targetColor outside).run calls).currentImage.getD i 0
                = ((MatrixBlender.new controller targetColor outside).run calls).targetImage.getD i 0)
      ∧ ((MatrixBlender.new controller targetColor outside).run calls).currentImage.length
          = ((MatrixBlender.new controller targetColor outside).run calls).imageSize.toNat
      ∧ ((MatrixBlender.new controller targetColor outside).run calls).targetImage.length
          = ((MatrixBlender.new controller targetColor outside).run calls).imageSize.toNat := by
  obtain ⟨h1, h2, h3, h4, _⟩ :=
    invariant_run _ (invariant_new controller targetColor outside) calls
  refine ⟨h1, ?_, h3, h4⟩
  intro hi
  refine ⟨h2 hi, ?_⟩
  intro i
  rw [h2 hi]

/-- A run on the sparse example controller: a blend to an image with a color
over 1000 ms started at 0, an update in flight at 400, a redirecting
`blendToColor` at 500, and the completing update at 1200.  In flight the
current image differs from its target; at the end the flags are clear and the
images agree. -/
theorem blend_run_scenario :
    ((MatrixBlender.new exampleSparse ⟨0, 0, 0⟩ (fun _ => 0)).run
        [BlendCall.blendToImageColor exampleMask 1 2 10 20 30 1000 0,
         BlendCall.update 400]).currentImage = [0, 0, 102, 0]
      ∧ ((MatrixBlender.new exampleSparse ⟨0, 0, 0⟩ (fun _ => 0)).run
        [BlendCall.blendToImageColor exampleMask 1 2 10 20 30 1000 0,
         BlendCall.update 400]).targetImage = [0, 0, 255, 0]
      ∧ ((MatrixBlender.new exampleSparse ⟨0, 0, 0⟩ (fun _ => 0)).run
        [BlendCall.blendToImageColor exampleMask 1 2 10 20 30 1000 0,
         BlendCall.update 400]).blending = true
      ∧ ((MatrixBlender.new exampleSparse ⟨0, 0, 0⟩ (fun _ => 0)).run
        [BlendCall.blendToImageColor exampleMask 1 2 10 20 30 1000 0,
         BlendCall.update 400, BlendCall.blendToColor 1 2 3 700 500,
         BlendCall.update 1200]).blending = false
      ∧ ((MatrixBlender.new exampleSparse ⟨0, 0, 0⟩ (fun _ => 0)).run
        [BlendCall.blendToImageColor exampleMask 1 2 10 20 30 1000 0,
         BlendCall.update 400, BlendCall.blendToColor 1 2 3 700 500,
         BlendCall.update 1200]).currentImage = [0, 0, 255, 0]
      ∧ ((MatrixBlender.new exampleSparse ⟨0, 0, 0⟩ (fun _ => 0)).run
        [BlendCall.blendToImageColor exampleMask 1 2 10 20 30 1000 0,
         BlendCall.update 400, BlendCall.blendToColor 1 2 3 700 500,
         BlendCall.update 1200]).currentColor = ⟨1, 2, 3⟩ := by
  refine ⟨?_, ?_, ?_, ?_, ?_, ?_⟩ <;> decide

end FoxLabs
